import Mathlib

/-! # QDMA descriptor-ring engine of the EcoNet Ethernet driver

A shallow embedding of `qdma_desc.h` (the bit-packed descriptor codec) and of the
ring, completion-queue and interrupt logic of `econet_eth1.c`, together with the
properties proved about them.

Machine words are natural numbers; every store into a `u16`/`u32` member is
followed by the explicit reduction modulo `2^16`/`2^32` that the C store performs.
-/

namespace EconetEth

/-! ## Kernel bit helpers (`linux/bits.h`, `linux/bitfield.h`) -/

/-- Width of `unsigned long` on the 32-bit MIPS target of the driver. Every mask
of the driver lies below `2^32`, so no result depends on a wider `long`. -/
def BITS_PER_LONG : Nat := 32

/-- The value `~0UL`. -/
def ULONG_MAX : Nat := 2 ^ BITS_PER_LONG - 1

/-- Conversion to `unsigned long`. -/
def to_ulong (x : Nat) : Nat := x % 2 ^ BITS_PER_LONG

/-- Conversion to `u8`. -/
def to_u8 (x : Nat) : Nat := x % 2 ^ 8

/-- Conversion to `u16`. -/
def to_u16 (x : Nat) : Nat := x % 2 ^ 16

/-- Conversion to `u32`. -/
def to_u32 (x : Nat) : Nat := x % 2 ^ 32

/-- Conversion of an integer to C `bool`: non-zero is true. -/
def to_bool (x : Nat) : Bool := decide (x ≠ 0)

/-- The macro `BIT(n)`, that is `1UL << n`. -/
def BIT (n : Nat) : Nat := to_ulong (1 <<< n)

/-- The macro `GENMASK(h, l)`:
`((~0UL) - (1UL << l) + 1) & (~0UL >> (BITS_PER_LONG - 1 - h))`. -/
def GENMASK (h l : Nat) : Nat :=
  to_ulong (ULONG_MAX - to_ulong (1 <<< l) + 1) &&& (ULONG_MAX >>> (BITS_PER_LONG - 1 - h))

/-- Number of trailing zero bits of `x`, looking at no more than `fuel` bits. -/
def count_trailing_zeros : Nat → Nat → Nat
  | 0, _ => 0
  | fuel + 1, x => if x % 2 = 1 then 0 else 1 + count_trailing_zeros fuel (x / 2)

/-- The macro `__bf_shf(mask)`, `__builtin_ffsll(mask) - 1`: the position of the
lowest set bit of a (non-zero) mask. -/
def bf_shf (mask : Nat) : Nat := count_trailing_zeros 64 mask

/-- The macro `FIELD_PREP(mask, val)`:
`((typeof(mask))(val) << __bf_shf(mask)) & (mask)`. -/
def FIELD_PREP (mask val : Nat) : Nat :=
  to_ulong (to_ulong val <<< bf_shf mask) &&& mask

/-- The macro `FIELD_GET(mask, reg)`:
`(typeof(mask))(((reg) & (mask)) >> __bf_shf(mask))`. -/
def FIELD_GET (mask reg : Nat) : Nat :=
  to_ulong ((reg &&& mask) >>> bf_shf mask)

/-- The macro `FIELD_SET(current, mask, val)` of `qdma_desc.h`:
`((current) & ~(mask)) | FIELD_PREP((mask), (val))`, where `~(mask)` is taken in
`unsigned long`. -/
def FIELD_SET (current mask val : Nat) : Nat :=
  (current &&& (ULONG_MAX ^^^ mask)) ||| FIELD_PREP mask val

/-! ## Descriptor records (`qdma_desc.h`) -/

/-- The record `struct qdma_desc_etx`. -/
structure qdma_desc_etx where
  bitfield_0 : Nat
  bitfield_1 : Nat
  vlan_tag : Nat
  deriving DecidableEq, Repr

/-- The record `struct qdma_desc_erx`. -/
structure qdma_desc_erx where
  unknown0 : Nat
  bitfield_0 : Nat
  bitfield_1 : Nat
  sp_tag : Nat
  tci : Nat
  deriving DecidableEq, Repr

/-- The record `struct qdma_desc`. The 16-byte payload union `t` is kept through
its `etx` member, the only member the ring engine accesses, followed by the two
trailing words `raw[2]`, `raw[3]` that `etx` does not cover. -/
structure qdma_desc where
  unknown0 : Nat
  bitfield_0 : Nat
  pkt_len : Nat
  pkt_addr : Nat
  bitfield_1 : Nat
  t_etx : qdma_desc_etx
  t_raw2 : Nat
  t_raw3 : Nat
  deriving DecidableEq, Repr

/-! ### Accessors of qdma_desc_etx -/

def ETX_UNKNOWN0_MASK : Nat := GENMASK 31 28
def ETX_SP_TAG_MASK : Nat := GENMASK 27 12
def ETX_OAM : Nat := BIT 11
def ETX_CHANNEL_MASK : Nat := GENMASK 10 3
def ETX_QUEUE_MASK : Nat := GENMASK 2 0
def ETX_ICO : Nat := BIT 15
def ETX_UCO : Nat := BIT 14
def ETX_TCO : Nat := BIT 13
def ETX_SCO : Nat := BIT 12
def ETX_UDF_PMAP_MASK : Nat := GENMASK 11 6
def ETX_FPORT_MASK : Nat := GENMASK 5 3
def ETX_VLAN_EN : Nat := BIT 2
def ETX_VLAN_TYPE_MASK : Nat := GENMASK 1 0

def get_etx_unknown0 (x : qdma_desc_etx) : Nat :=
  to_u8 (FIELD_GET ETX_UNKNOWN0_MASK x.bitfield_0)
def set_etx_unknown0 (x : qdma_desc_etx) (v : Nat) : qdma_desc_etx :=
  { x with bitfield_0 := to_u32 (FIELD_SET x.bitfield_0 ETX_UNKNOWN0_MASK v) }
def get_etx_sp_tag (x : qdma_desc_etx) : Nat :=
  to_u16 (FIELD_GET ETX_SP_TAG_MASK x.bitfield_0)
def set_etx_sp_tag (x : qdma_desc_etx) (v : Nat) : qdma_desc_etx :=
  { x with bitfield_0 := to_u32 (FIELD_SET x.bitfield_0 ETX_SP_TAG_MASK v) }
def is_etx_oam (x : qdma_desc_etx) : Bool :=
  to_bool (FIELD_GET ETX_OAM x.bitfield_0)
def set_etx_oam (x : qdma_desc_etx) (v : Bool) : qdma_desc_etx :=
  { x with bitfield_0 := to_u32 (FIELD_SET x.bitfield_0 ETX_OAM v.toNat) }
def get_etx_channel (x : qdma_desc_etx) : Nat :=
  to_u8 (FIELD_GET ETX_CHANNEL_MASK x.bitfield_0)
def set_etx_channel (x : qdma_desc_etx) (v : Nat) : qdma_desc_etx :=
  { x with bitfield_0 := to_u32 (FIELD_SET x.bitfield_0 ETX_CHANNEL_MASK v) }
def get_etx_queue (x : qdma_desc_etx) : Nat :=
  to_u8 (FIELD_GET ETX_QUEUE_MASK x.bitfield_0)
def set_etx_queue (x : qdma_desc_etx) (v : Nat) : qdma_desc_etx :=
  { x with bitfield_0 := to_u32 (FIELD_SET x.bitfield_0 ETX_QUEUE_MASK v) }
def is_etx_ico (x : qdma_desc_etx) : Bool :=
  to_bool (FIELD_GET ETX_ICO x.bitfield_1)
def set_etx_ico (x : qdma_desc_etx) (v : Bool) : qdma_desc_etx :=
  { x with bitfield_1 := to_u16 (FIELD_SET x.bitfield_1 ETX_ICO v.toNat) }
def is_etx_uco (x : qdma_desc_etx) : Bool :=
  to_bool (FIELD_GET ETX_UCO x.bitfield_1)
def set_etx_uco (x : qdma_desc_etx) (v : Bool) : qdma_desc_etx :=
  { x with bitfield_1 := to_u16 (FIELD_SET x.bitfield_1 ETX_UCO v.toNat) }
def is_etx_tco (x : qdma_desc_etx) : Bool :=
  to_bool (FIELD_GET ETX_TCO x.bitfield_1)
def set_etx_tco (x : qdma_desc_etx) (v : Bool) : qdma_desc_etx :=
  { x with bitfield_1 := to_u16 (FIELD_SET x.bitfield_1 ETX_TCO v.toNat) }
def is_etx_sco (x : qdma_desc_etx) : Bool :=
  to_bool (FIELD_GET ETX_SCO x.bitfield_1)
def set_etx_sco (x : qdma_desc_etx) (v : Bool) : qdma_desc_etx :=
  { x with bitfield_1 := to_u16 (FIELD_SET x.bitfield_1 ETX_SCO v.toNat) }
def get_etx_udf_pmap (x : qdma_desc_etx) : Nat :=
  to_u8 (FIELD_GET ETX_UDF_PMAP_MASK x.bitfield_1)
def set_etx_udf_pmap (x : qdma_desc_etx) (v : Nat) : qdma_desc_etx :=
  { x with bitfield_1 := to_u16 (FIELD_SET x.bitfield_1 ETX_UDF_PMAP_MASK v) }
def get_etx_fport (x : qdma_desc_etx) : Nat :=
  to_u32 (FIELD_GET ETX_FPORT_MASK x.bitfield_1)
def set_etx_fport (x : qdma_desc_etx) (v : Nat) : qdma_desc_etx :=
  { x with bitfield_1 := to_u16 (FIELD_SET x.bitfield_1 ETX_FPORT_MASK v) }
def is_etx_vlan_en (x : qdma_desc_etx) : Bool :=
  to_bool (FIELD_GET ETX_VLAN_EN x.bitfield_1)
def set_etx_vlan_en (x : qdma_desc_etx) (v : Bool) : qdma_desc_etx :=
  { x with bitfield_1 := to_u16 (FIELD_SET x.bitfield_1 ETX_VLAN_EN v.toNat) }
def get_etx_vlan_type (x : qdma_desc_etx) : Nat :=
  to_u32 (FIELD_GET ETX_VLAN_TYPE_MASK x.bitfield_1)
def set_etx_vlan_type (x : qdma_desc_etx) (v : Nat) : qdma_desc_etx :=
  { x with bitfield_1 := to_u16 (FIELD_SET x.bitfield_1 ETX_VLAN_TYPE_MASK v) }

/-! ### Accessors of qdma_desc_erx -/

def ERX_UNKNOWN1_MASK : Nat := GENMASK 31 29
def ERX_IP6 : Nat := BIT 28
def ERX_IP4 : Nat := BIT 27
def ERX_IP4F : Nat := BIT 26
def ERX_TACK : Nat := BIT 25
def ERX_L2VLD : Nat := BIT 24
def ERX_L4F : Nat := BIT 23
def ERX_SPORT_MASK : Nat := GENMASK 22 19
def ERX_CRSN_MASK : Nat := GENMASK 18 14
def ERX_PPE_ENTRY_MASK : Nat := GENMASK 13 0
def ERX_UNKNOWN2_MASK : Nat := GENMASK 31 1
def ERX_UNTAG : Nat := BIT 0

def get_erx_unknown1 (x : qdma_desc_erx) : Nat :=
  to_u8 (FIELD_GET ERX_UNKNOWN1_MASK x.bitfield_0)
def set_erx_unknown1 (x : qdma_desc_erx) (v : Nat) : qdma_desc_erx :=
  { x with bitfield_0 := to_u32 (FIELD_SET x.bitfield_0 ERX_UNKNOWN1_MASK v) }
def is_erx_ip6 (x : qdma_desc_erx) : Bool :=
  to_bool (FIELD_GET ERX_IP6 x.bitfield_0)
def set_erx_ip6 (x : qdma_desc_erx) (v : Bool) : qdma_desc_erx :=
  { x with bitfield_0 := to_u32 (FIELD_SET x.bitfield_0 ERX_IP6 v.toNat) }
def is_erx_ip4 (x : qdma_desc_erx) : Bool :=
  to_bool (FIELD_GET ERX_IP4 x.bitfield_0)
def set_erx_ip4 (x : qdma_desc_erx) (v : Bool) : qdma_desc_erx :=
  { x with bitfield_0 := to_u32 (FIELD_SET x.bitfield_0 ERX_IP4 v.toNat) }
def is_erx_ip4f (x : qdma_desc_erx) : Bool :=
  to_bool (FIELD_GET ERX_IP4F x.bitfield_0)
def set_erx_ip4f (x : qdma_desc_erx) (v : Bool) : qdma_desc_erx :=
  { x with bitfield_0 := to_u32 (FIELD_SET x.bitfield_0 ERX_IP4F v.toNat) }
def is_erx_tack (x : qdma_desc_erx) : Bool :=
  to_bool (FIELD_GET ERX_TACK x.bitfield_0)
def set_erx_tack (x : qdma_desc_erx) (v : Bool) : qdma_desc_erx :=
  { x with bitfield_0 := to_u32 (FIELD_SET x.bitfield_0 ERX_TACK v.toNat) }
def is_erx_l2vld (x : qdma_desc_erx) : Bool :=
  to_bool (FIELD_GET ERX_L2VLD x.bitfield_0)
def set_erx_l2vld (x : qdma_desc_erx) (v : Bool) : qdma_desc_erx :=
  { x with bitfield_0 := to_u32 (FIELD_SET x.bitfield_0 ERX_L2VLD v.toNat) }
def is_erx_l4f (x : qdma_desc_erx) : Bool :=
  to_bool (FIELD_GET ERX_L4F x.bitfield_0)
def set_erx_l4f (x : qdma_desc_erx) (v : Bool) : qdma_desc_erx :=
  { x with bitfield_0 := to_u32 (FIELD_SET x.bitfield_0 ERX_L4F v.toNat) }
def get_erx_sport (x : qdma_desc_erx) : Nat :=
  to_u8 (FIELD_GET ERX_SPORT_MASK x.bitfield_0)
def set_erx_sport (x : qdma_desc_erx) (v : Nat) : qdma_desc_erx :=
  { x with bitfield_0 := to_u32 (FIELD_SET x.bitfield_0 ERX_SPORT_MASK v) }
def get_erx_crsn (x : qdma_desc_erx) : Nat :=
  to_u8 (FIELD_GET ERX_CRSN_MASK x.bitfield_0)
def set_erx_crsn (x : qdma_desc_erx) (v : Nat) : qdma_desc_erx :=
  { x with bitfield_0 := to_u32 (FIELD_SET x.bitfield_0 ERX_CRSN_MASK v) }
def get_erx_ppe_entry (x : qdma_desc_erx) : Nat :=
  to_u16 (FIELD_GET ERX_PPE_ENTRY_MASK x.bitfield_0)
def set_erx_ppe_entry (x : qdma_desc_erx) (v : Nat) : qdma_desc_erx :=
  { x with bitfield_0 := to_u32 (FIELD_SET x.bitfield_0 ERX_PPE_ENTRY_MASK v) }
def get_erx_unknown2 (x : qdma_desc_erx) : Nat :=
  to_u32 (FIELD_GET ERX_UNKNOWN2_MASK x.bitfield_1)
def set_erx_unknown2 (x : qdma_desc_erx) (v : Nat) : qdma_desc_erx :=
  { x with bitfield_1 := to_u32 (FIELD_SET x.bitfield_1 ERX_UNKNOWN2_MASK v) }
def is_erx_untag (x : qdma_desc_erx) : Bool :=
  to_bool (FIELD_GET ERX_UNTAG x.bitfield_1)
def set_erx_untag (x : qdma_desc_erx) (v : Bool) : qdma_desc_erx :=
  { x with bitfield_1 := to_u32 (FIELD_SET x.bitfield_1 ERX_UNTAG v.toNat) }

/-! ### Accessors of qdma_desc -/

def DESC_DONE : Nat := BIT 15
def DESC_DROPPED : Nat := BIT 14
def DESC_NLS : Nat := BIT 13
def DESC_UNKNOWN1_MASK : Nat := GENMASK 12 0
def DESC_UNKNOWN2_MASK : Nat := GENMASK 31 12
def DESC_NEXT_IDX_MASK : Nat := GENMASK 11 0

def is_desc_done (x : qdma_desc) : Bool :=
  to_bool (FIELD_GET DESC_DONE x.bitfield_0)
def set_desc_done (x : qdma_desc) (v : Bool) : qdma_desc :=
  { x with bitfield_0 := to_u16 (FIELD_SET x.bitfield_0 DESC_DONE v.toNat) }
def is_desc_dropped (x : qdma_desc) : Bool :=
  to_bool (FIELD_GET DESC_DROPPED x.bitfield_0)
def set_desc_dropped (x : qdma_desc) (v : Bool) : qdma_desc :=
  { x with bitfield_0 := to_u16 (FIELD_SET x.bitfield_0 DESC_DROPPED v.toNat) }
def is_desc_nls (x : qdma_desc) : Bool :=
  to_bool (FIELD_GET DESC_NLS x.bitfield_0)
def set_desc_nls (x : qdma_desc) (v : Bool) : qdma_desc :=
  { x with bitfield_0 := to_u16 (FIELD_SET x.bitfield_0 DESC_NLS v.toNat) }
def get_desc_unknown1 (x : qdma_desc) : Nat :=
  to_u16 (FIELD_GET DESC_UNKNOWN1_MASK x.bitfield_0)
def set_desc_unknown1 (x : qdma_desc) (v : Nat) : qdma_desc :=
  { x with bitfield_0 := to_u16 (FIELD_SET x.bitfield_0 DESC_UNKNOWN1_MASK v) }
def get_desc_unknown2 (x : qdma_desc) : Nat :=
  to_u32 (FIELD_GET DESC_UNKNOWN2_MASK x.bitfield_1)
def set_desc_unknown2 (x : qdma_desc) (v : Nat) : qdma_desc :=
  { x with bitfield_1 := to_u32 (FIELD_SET x.bitfield_1 DESC_UNKNOWN2_MASK v) }
def get_desc_next_idx (x : qdma_desc) : Nat :=
  to_u16 (FIELD_GET DESC_NEXT_IDX_MASK x.bitfield_1)
def set_desc_next_idx (x : qdma_desc) (v : Nat) : qdma_desc :=
  { x with bitfield_1 := to_u32 (FIELD_SET x.bitfield_1 DESC_NEXT_IDX_MASK v) }

/-! ### Field tables

One name per getter/setter pair of each record, with the getter, the setter, the
mask macro, the updated member and the documented bit range of the field. -/

/-- The bit-fields of `struct qdma_desc`, one name per getter/setter pair. -/
inductive DescField where
  | done
  | dropped
  | nls
  | unknown1
  | unknown2
  | next_idx
  deriving DecidableEq, Repr

/-- The getter of a bit-field of `struct qdma_desc`; a `bool` result is read as 0 or 1. -/
def desc_get : DescField → qdma_desc → Nat
  | .done, x => (is_desc_done x).toNat
  | .dropped, x => (is_desc_dropped x).toNat
  | .nls, x => (is_desc_nls x).toNat
  | .unknown1, x => get_desc_unknown1 x
  | .unknown2, x => get_desc_unknown2 x
  | .next_idx, x => get_desc_next_idx x

/-- The setter of a bit-field of `struct qdma_desc`; an argument passed for a `bool`
parameter is converted as C does (non-zero is true). -/
def desc_set : DescField → qdma_desc → Nat → qdma_desc
  | .done, x, v => set_desc_done x (to_bool v)
  | .dropped, x, v => set_desc_dropped x (to_bool v)
  | .nls, x, v => set_desc_nls x (to_bool v)
  | .unknown1, x, v => set_desc_unknown1 x v
  | .unknown2, x, v => set_desc_unknown2 x v
  | .next_idx, x, v => set_desc_next_idx x v

/-- The mask macro each setter of `struct qdma_desc` passes to `FIELD_SET`. -/
def desc_mask : DescField → Nat
  | .done => DESC_DONE
  | .dropped => DESC_DROPPED
  | .nls => DESC_NLS
  | .unknown1 => DESC_UNKNOWN1_MASK
  | .unknown2 => DESC_UNKNOWN2_MASK
  | .next_idx => DESC_NEXT_IDX_MASK

/-- The member of `struct qdma_desc` a setter updates. -/
def desc_word : DescField → qdma_desc → Nat
  | .done, x => x.bitfield_0
  | .dropped, x => x.bitfield_0
  | .nls, x => x.bitfield_0
  | .unknown1, x => x.bitfield_0
  | .unknown2, x => x.bitfield_1
  | .next_idx, x => x.bitfield_1

/-- Width in bits of the member a setter updates. -/
def desc_word_bits : DescField → Nat
  | .done => 16
  | .dropped => 16
  | .nls => 16
  | .unknown1 => 16
  | .unknown2 => 32
  | .next_idx => 32

/-- Lowest bit of each field, from the layout comment of `struct qdma_desc`. -/
def desc_lo : DescField → Nat
  | .done => 15
  | .dropped => 14
  | .nls => 13
  | .unknown1 => 0
  | .unknown2 => 12
  | .next_idx => 0

/-- Number of bits of each field, from the layout comment of `struct qdma_desc`. -/
def desc_width : DescField → Nat
  | .done => 1
  | .dropped => 1
  | .nls => 1
  | .unknown1 => 13
  | .unknown2 => 20
  | .next_idx => 12

/-- Width in bits of the parameter type of each setter of `struct qdma_desc`
(`bool` 1, `u8` 8, `u16` 16, `u32` and the enumerations 32). -/
def desc_arg_bits : DescField → Nat
  | .done => 1
  | .dropped => 1
  | .nls => 1
  | .unknown1 => 16
  | .unknown2 => 32
  | .next_idx => 16

/-- The bit-fields of `struct qdma_desc_etx`, one name per getter/setter pair. -/
inductive EtxField where
  | unknown0
  | sp_tag
  | oam
  | channel
  | queue
  | ico
  | uco
  | tco
  | sco
  | udf_pmap
  | fport
  | vlan_en
  | vlan_type
  deriving DecidableEq, Repr

/-- The getter of a bit-field of `struct qdma_desc_etx`; a `bool` result is read as 0 or 1. -/
def etx_get : EtxField → qdma_desc_etx → Nat
  | .unknown0, x => get_etx_unknown0 x
  | .sp_tag, x => get_etx_sp_tag x
  | .oam, x => (is_etx_oam x).toNat
  | .channel, x => get_etx_channel x
  | .queue, x => get_etx_queue x
  | .ico, x => (is_etx_ico x).toNat
  | .uco, x => (is_etx_uco x).toNat
  | .tco, x => (is_etx_tco x).toNat
  | .sco, x => (is_etx_sco x).toNat
  | .udf_pmap, x => get_etx_udf_pmap x
  | .fport, x => get_etx_fport x
  | .vlan_en, x => (is_etx_vlan_en x).toNat
  | .vlan_type, x => get_etx_vlan_type x

/-- The setter of a bit-field of `struct qdma_desc_etx`; an argument passed for a `bool`
parameter is converted as C does (non-zero is true). -/
def etx_set : EtxField → qdma_desc_etx → Nat → qdma_desc_etx
  | .unknown0, x, v => set_etx_unknown0 x v
  | .sp_tag, x, v => set_etx_sp_tag x v
  | .oam, x, v => set_etx_oam x (to_bool v)
  | .channel, x, v => set_etx_channel x v
  | .queue, x, v => set_etx_queue x v
  | .ico, x, v => set_etx_ico x (to_bool v)
  | .uco, x, v => set_etx_uco x (to_bool v)
  | .tco, x, v => set_etx_tco x (to_bool v)
  | .sco, x, v => set_etx_sco x (to_bool v)
  | .udf_pmap, x, v => set_etx_udf_pmap x v
  | .fport, x, v => set_etx_fport x v
  | .vlan_en, x, v => set_etx_vlan_en x (to_bool v)
  | .vlan_type, x, v => set_etx_vlan_type x v

/-- The mask macro each setter of `struct qdma_desc_etx` passes to `FIELD_SET`. -/
def etx_mask : EtxField → Nat
  | .unknown0 => ETX_UNKNOWN0_MASK
  | .sp_tag => ETX_SP_TAG_MASK
  | .oam => ETX_OAM
  | .channel => ETX_CHANNEL_MASK
  | .queue => ETX_QUEUE_MASK
  | .ico => ETX_ICO
  | .uco => ETX_UCO
  | .tco => ETX_TCO
  | .sco => ETX_SCO
  | .udf_pmap => ETX_UDF_PMAP_MASK
  | .fport => ETX_FPORT_MASK
  | .vlan_en => ETX_VLAN_EN
  | .vlan_type => ETX_VLAN_TYPE_MASK

/-- The member of `struct qdma_desc_etx` a setter updates. -/
def etx_word : EtxField → qdma_desc_etx → Nat
  | .unknown0, x => x.bitfield_0
  | .sp_tag, x => x.bitfield_0
  | .oam, x => x.bitfield_0
  | .channel, x => x.bitfield_0
  | .queue, x => x.bitfield_0
  | .ico, x => x.bitfield_1
  | .uco, x => x.bitfield_1
  | .tco, x => x.bitfield_1
  | .sco, x => x.bitfield_1
  | .udf_pmap, x => x.bitfield_1
  | .fport, x => x.bitfield_1
  | .vlan_en, x => x.bitfield_1
  | .vlan_type, x => x.bitfield_1

/-- Width in bits of the member a setter updates. -/
def etx_word_bits : EtxField → Nat
  | .unknown0 => 32
  | .sp_tag => 32
  | .oam => 32
  | .channel => 32
  | .queue => 32
  | .ico => 16
  | .uco => 16
  | .tco => 16
  | .sco => 16
  | .udf_pmap => 16
  | .fport => 16
  | .vlan_en => 16
  | .vlan_type => 16

/-- Lowest bit of each field, from the layout comment of `struct qdma_desc_etx`. -/
def etx_lo : EtxField → Nat
  | .unknown0 => 28
  | .sp_tag => 12
  | .oam => 11
  | .channel => 3
  | .queue => 0
  | .ico => 15
  | .uco => 14
  | .tco => 13
  | .sco => 12
  | .udf_pmap => 6
  | .fport => 3
  | .vlan_en => 2
  | .vlan_type => 0

/-- Number of bits of each field, from the layout comment of `struct qdma_desc_etx`. -/
def etx_width : EtxField → Nat
  | .unknown0 => 4
  | .sp_tag => 16
  | .oam => 1
  | .channel => 8
  | .queue => 3
  | .ico => 1
  | .uco => 1
  | .tco => 1
  | .sco => 1
  | .udf_pmap => 6
  | .fport => 3
  | .vlan_en => 1
  | .vlan_type => 2

/-- Width in bits of the parameter type of each setter of `struct qdma_desc_etx`
(`bool` 1, `u8` 8, `u16` 16, `u32` and the enumerations 32). -/
def etx_arg_bits : EtxField → Nat
  | .unknown0 => 8
  | .sp_tag => 16
  | .oam => 1
  | .channel => 8
  | .queue => 8
  | .ico => 1
  | .uco => 1
  | .tco => 1
  | .sco => 1
  | .udf_pmap => 8
  | .fport => 32
  | .vlan_en => 1
  | .vlan_type => 32

/-- The bit-fields of `struct qdma_desc_erx`, one name per getter/setter pair. -/
inductive ErxField where
  | unknown1
  | ip6
  | ip4
  | ip4f
  | tack
  | l2vld
  | l4f
  | sport
  | crsn
  | ppe_entry
  | unknown2
  | untag
  deriving DecidableEq, Repr

/-- The getter of a bit-field of `struct qdma_desc_erx`; a `bool` result is read as 0 or 1. -/
def erx_get : ErxField → qdma_desc_erx → Nat
  | .unknown1, x => get_erx_unknown1 x
  | .ip6, x => (is_erx_ip6 x).toNat
  | .ip4, x => (is_erx_ip4 x).toNat
  | .ip4f, x => (is_erx_ip4f x).toNat
  | .tack, x => (is_erx_tack x).toNat
  | .l2vld, x => (is_erx_l2vld x).toNat
  | .l4f, x => (is_erx_l4f x).toNat
  | .sport, x => get_erx_sport x
  | .crsn, x => get_erx_crsn x
  | .ppe_entry, x => get_erx_ppe_entry x
  | .unknown2, x => get_erx_unknown2 x
  | .untag, x => (is_erx_untag x).toNat

/-- The setter of a bit-field of `struct qdma_desc_erx`; an argument passed for a `bool`
parameter is converted as C does (non-zero is true). -/
def erx_set : ErxField → qdma_desc_erx → Nat → qdma_desc_erx
  | .unknown1, x, v => set_erx_unknown1 x v
  | .ip6, x, v => set_erx_ip6 x (to_bool v)
  | .ip4, x, v => set_erx_ip4 x (to_bool v)
  | .ip4f, x, v => set_erx_ip4f x (to_bool v)
  | .tack, x, v => set_erx_tack x (to_bool v)
  | .l2vld, x, v => set_erx_l2vld x (to_bool v)
  | .l4f, x, v => set_erx_l4f x (to_bool v)
  | .sport, x, v => set_erx_sport x v
  | .crsn, x, v => set_erx_crsn x v
  | .ppe_entry, x, v => set_erx_ppe_entry x v
  | .unknown2, x, v => set_erx_unknown2 x v
  | .untag, x, v => set_erx_untag x (to_bool v)

/-- The mask macro each setter of `struct qdma_desc_erx` passes to `FIELD_SET`. -/
def erx_mask : ErxField → Nat
  | .unknown1 => ERX_UNKNOWN1_MASK
  | .ip6 => ERX_IP6
  | .ip4 => ERX_IP4
  | .ip4f => ERX_IP4F
  | .tack => ERX_TACK
  | .l2vld => ERX_L2VLD
  | .l4f => ERX_L4F
  | .sport => ERX_SPORT_MASK
  | .crsn => ERX_CRSN_MASK
  | .ppe_entry => ERX_PPE_ENTRY_MASK
  | .unknown2 => ERX_UNKNOWN2_MASK
  | .untag => ERX_UNTAG

/-- The member of `struct qdma_desc_erx` a setter updates. -/
def erx_word : ErxField → qdma_desc_erx → Nat
  | .unknown1, x => x.bitfield_0
  | .ip6, x => x.bitfield_0
  | .ip4, x => x.bitfield_0
  | .ip4f, x => x.bitfield_0
  | .tack, x => x.bitfield_0
  | .l2vld, x => x.bitfield_0
  | .l4f, x => x.bitfield_0
  | .sport, x => x.bitfield_0
  | .crsn, x => x.bitfield_0
  | .ppe_entry, x => x.bitfield_0
  | .unknown2, x => x.bitfield_1
  | .untag, x => x.bitfield_1

/-- Width in bits of the member a setter updates. -/
def erx_word_bits : ErxField → Nat
  | .unknown1 => 32
  | .ip6 => 32
  | .ip4 => 32
  | .ip4f => 32
  | .tack => 32
  | .l2vld => 32
  | .l4f => 32
  | .sport => 32
  | .crsn => 32
  | .ppe_entry => 32
  | .unknown2 => 32
  | .untag => 32

/-- Lowest bit of each field, from the layout comment of `struct qdma_desc_erx`. -/
def erx_lo : ErxField → Nat
  | .unknown1 => 29
  | .ip6 => 28
  | .ip4 => 27
  | .ip4f => 26
  | .tack => 25
  | .l2vld => 24
  | .l4f => 23
  | .sport => 19
  | .crsn => 14
  | .ppe_entry => 0
  | .unknown2 => 1
  | .untag => 0

/-- Number of bits of each field, from the layout comment of `struct qdma_desc_erx`. -/
def erx_width : ErxField → Nat
  | .unknown1 => 3
  | .ip6 => 1
  | .ip4 => 1
  | .ip4f => 1
  | .tack => 1
  | .l2vld => 1
  | .l4f => 1
  | .sport => 4
  | .crsn => 5
  | .ppe_entry => 14
  | .unknown2 => 31
  | .untag => 1

/-- Width in bits of the parameter type of each setter of `struct qdma_desc_erx`
(`bool` 1, `u8` 8, `u16` 16, `u32` and the enumerations 32). -/
def erx_arg_bits : ErxField → Nat
  | .unknown1 => 8
  | .ip6 => 1
  | .ip4 => 1
  | .ip4f => 1
  | .tack => 1
  | .l2vld => 1
  | .l4f => 1
  | .sport => 8
  | .crsn => 8
  | .ppe_entry => 16
  | .unknown2 => 32
  | .untag => 1

/-! ## Ring engine state (`econet_eth1.c`) -/

/-- Register offsets and bits. -/
def MTK_QDMA_INT_STATUS : Nat := 0x4050
def MTK_QDMA_INT_MASK : Nat := 0x4054
def INT_STATUS_HWFWD_DSCP_LOW : Nat := BIT 10
def INT_STATUS_IRQ_FULL : Nat := BIT 9
def INT_STATUS_HWFWD_DSCP_EMPTY : Nat := BIT 8
def INT_STATUS_NO_RX0_CPU_DSCP : Nat := BIT 3
def INT_STATUS_NO_TX0_CPU_DSCP : Nat := BIT 2
def INT_STATUS_RX0_DONE : Nat := BIT 1
def INT_STATUS_TX0_DONE : Nat := BIT 0

def QDMA_CSR_HWFWD_DSCP_BASE : Nat := 0x4020
def QDMA_CSR_HWFWD_BUFF_BASE : Nat := 0x4024
def QDMA_CSR_HWFWD_DSCP_CFG : Nat := 0x4028
def QDMA_CSR_LMGR_INIT_CFG : Nat := 0x4030
def QDMA_CSR_LMGR_START_BIT : Nat := BIT 31

def QDMA_CSR_IRQ_STATUS : Nat := 0x406C
def QDMA_CSR_IRQ_CLEAR_LEN : Nat := 0x4068
def IRQ_STATUS_HEAD_IDX_MASK : Nat := 0xFFF
def IRQ_STATUS_ENTRY_LEN_SHIFT : Nat := 16
def IRQ_STATUS_ENTRY_LEN_MASK : Nat := 0xFFF <<< IRQ_STATUS_ENTRY_LEN_SHIFT
def IRQ_DEF_VALUE : Nat := 0xFFFFFFFF

def QDMA_CSR_IRQ_BASE : Nat := 0x4060
def QDMA_CSR_IRQ_CFG : Nat := 0x4064
def QDMA_IRQ_QUEUE_DEPTH : Nat := 20

def QDMA_HWFWD_DESC_SIZE : Nat := 16
def TX0_DSCP_NUM : Nat := 4
def RX0_DSCP_NUM : Nat := 4
def DSCP_NUM : Nat := TX0_DSCP_NUM + RX0_DSCP_NUM
def HWFWD_DSCP_NUM : Nat := 8

def QDMA_CSR_TX_DSCP_BASE : Nat := 0x4008
def QDMA_CSR_RX_DSCP_BASE : Nat := 0x400C
def QDMA_CSR_RX_RING_CFG : Nat := 0x4100
def QDMA_CSR_RX_RING_THR : Nat := 0x4104
def QDMA_CSR_TX_CPU_IDX : Nat := 0x4010
def QDMA_CSR_TX_DMA_IDX : Nat := 0x4014
def QDMA_CSR_RX_CPU_IDX : Nat := 0x4018
def QDMA_CSR_RX_DMA_IDX : Nat := 0x401C
def QDMA_CSR_GLB_CFG : Nat := 0x4004

/-- Bits of the global configuration register (`econet_eth_regs.h`). -/
def QCFG_RX_DMA_EN : Nat := BIT 2
def QCFG_TX_DMA_EN : Nat := BIT 0

/-- The value of `sizeof(struct qdma_desc)`: 32 bytes. -/
def sizeof_qdma_desc : Nat := 32

/-- Conversion of a `u32` bit pattern to a C `int`. -/
def to_int (x : Nat) : Int :=
  if x % 2 ^ 32 < 2 ^ 31 then ((x % 2 ^ 32 : Nat) : Int) else ((x % 2 ^ 32 : Nat) : Int) - 2 ^ 32

/-- Result of `int` arithmetic, wrapped to 32 bits (the kernel is built with
wrapping signed overflow). -/
def wrap_int (z : Int) : Int := (z + 2 ^ 31) % 2 ^ 32 - 2 ^ 31

/-- Conversion of a C `int` to `u32`. -/
def int_to_u32 (z : Int) : Nat := (z % 2 ^ 32).toNat

/-- Conversion to `dma_addr_t`, a 32-bit type on this target. -/
def to_dma_addr (x : Nat) : Nat := to_u32 x

/-- The fields of `struct sk_buff` the engine looks at: the buffer's identity
(its address), `len`, `data_len` (the paged part, 0 for a linear buffer) and
`data`. -/
structure sk_buff where
  id : Nat
  len : Nat
  data_len : Nat
  data : Nat
  deriving DecidableEq, Repr

/-- Kernel helper `skb_headlen`: `skb->len - skb->data_len`. -/
def skb_headlen (skb : sk_buff) : Nat := skb.len - skb.data_len

/-- Kernel helper `skb_put`: extends the used data area by `n` bytes. The kernel
stops with a panic when the area would pass the end of the buffer; that case is
not modelled. -/
def skb_put (skb : sk_buff) (n : Nat) : sk_buff := { skb with len := to_u32 (skb.len + n) }

/-- Kernel helper `skb_padto`: zero-fills the tail up to `n` bytes; `len` is not
changed. `mtk_tx_map` ignores its result, and its failure case (no memory to
extend the buffer) is not modelled. -/
def skb_padto (skb : sk_buff) (_n : Nat) : sk_buff := skb

/-- The all-zero descriptor left by `memset(dscp_ary, 0, ...)`. -/
def zero_desc : qdma_desc := ⟨0, 0, 0, 0, 0, ⟨0, 0, 0⟩, 0, 0⟩

/-- State of the engine: the register block of `struct mtk_eth` and the file-scope
arrays of `econet_eth1.c`.

* `regs r` is the content of the 32-bit register at offset `r`; `wlog` lists every
  `mtk_w32` as `(reg, val)`, newest first.
* `dscp_ary p` is the descriptor at `dscp_ary[p]` and `dscp_sk_buff_p_ary p` the
  pointer at `dscp_sk_buff_p_ary[p]` (`none` is `NULL`).
* `irq_queue i` is the word at `irq_queue[i]`, also for `i` beyond the 20 words
  that are allocated: the queue is memory of its own, and a write past its end
  reaches no other array of the state.
* `netif_rx_log` lists the buffers handed to the network stack (`eth_type_trans`,
  then `netif_rx`), as they are when handed over; `freed` lists the arguments of
  `dev_kfree_skb`; both newest first.
* `tx_dropped` is `dev->stats.tx_dropped`, `dma_refcnt` is `eth->dma_refcnt`,
  `resetting` is the `MTK_RESETTING` bit of `eth->state`. -/
structure Engine where
  regs : Nat → Nat
  wlog : List (Nat × Nat)
  dscp_ary : Nat → qdma_desc
  dscp_sk_buff_p_ary : Nat → Option sk_buff
  irq_queue : Nat → Nat
  netif_rx_log : List sk_buff
  freed : List (Option sk_buff)
  tx_dropped : Nat
  dma_refcnt : Nat
  resetting : Bool

/-- The function `mtk_w32`. -/
def mtk_w32 (eth : Engine) (val reg : Nat) : Engine :=
  { eth with regs := Function.update eth.regs reg (to_u32 val),
             wlog := (reg, to_u32 val) :: eth.wlog }

/-- The function `mtk_r32`. -/
def mtk_r32 (eth : Engine) (reg : Nat) : Nat := to_u32 (eth.regs reg)

/-- Store through a descriptor pointer: `dscp_ary[p] = d`. -/
def dscp_store (eth : Engine) (p : Nat) (d : qdma_desc) : Engine :=
  { eth with dscp_ary := Function.update eth.dscp_ary p d }

/-- Store into the binding table: `dscp_sk_buff_p_ary[p] = skb`. -/
def skb_store (eth : Engine) (p : Nat) (skb : Option sk_buff) : Engine :=
  { eth with dscp_sk_buff_p_ary := Function.update eth.dscp_sk_buff_p_ary p skb }

/-- The writes to registers made since `eth0`, newest first. -/
def new_writes (eth0 eth : Engine) : List (Nat × Nat) :=
  eth.wlog.take (eth.wlog.length - eth0.wlog.length)

/-! ### TX path -/

/-- The function `tx0_free_skb`; `dscp` is the position of the descriptor in
`dscp_ary`. The DMA call has no effect on the modelled state. -/
def tx0_free_skb (eth : Engine) (idx : Nat) (_dscp : Nat) : Engine :=
  let skb := eth.dscp_sk_buff_p_ary idx
  let eth := skb_store eth idx none
  { eth with freed := skb :: eth.freed }

/-- One iteration of the loop of `tx0_free_some`: returns the state and the new
value of `dscp`. -/
def tx0_free_some_step (eth : Engine) (dscp : Nat) : Engine × Nat :=
  let idx := get_desc_next_idx (eth.dscp_ary dscp)
  let dscp := idx
  let eth :=
    if (eth.dscp_ary dscp).pkt_addr ≠ 0 then
      let eth := tx0_free_skb eth idx dscp
      dscp_store eth dscp { eth.dscp_ary dscp with pkt_addr := 0 }
    else eth
  let eth := dscp_store eth dscp (set_desc_done (eth.dscp_ary dscp) false)
  (eth, dscp)

/-- The function `tx0_free_some`: `for (i = 0; i < 2; i++)`. -/
def tx0_free_some (eth : Engine) (dscp : Nat) : Engine :=
  ((List.range 2).foldl (fun (acc : Engine × Nat) _ => tx0_free_some_step acc.1 acc.2)
    (eth, dscp)).1

/-- The function `tx0_dscp_pkt_addr`; `mapped` is what `dma_map_single` returned
(0 on failure). Returns the state and the `int` result. -/
def tx0_dscp_pkt_addr (eth : Engine) (skb : sk_buff) (idx : Nat) (mapped : Nat) : Engine × Int :=
  let phys := to_dma_addr mapped
  if phys = 0 then (eth, 0)
  else (skb_store eth idx (some skb), to_int phys)

/-- The function `tx0_get_dscp`. -/
def tx0_get_dscp (idx : Nat) : Nat := idx

/-- The padding step of `mtk_tx_map`:
`if (skb->len < 60) { skb_padto(skb, 60); skb_put(skb, 60 - skb->len); }`. -/
def mtk_tx_pad (skb : sk_buff) : sk_buff :=
  if skb.len < 60 then skb_put (skb_padto skb 60) (60 - skb.len) else skb

/-- The function `mtk_tx_map`; `mapped` is what `dma_map_single` returns for the
frame. Returns the state and the `int` result. -/
def mtk_tx_map (eth : Engine) (skb : sk_buff) (mapped : Nat) : Engine × Int :=
  let idx := mtk_r32 eth QDMA_CSR_TX_CPU_IDX % TX0_DSCP_NUM
  let dscp := tx0_get_dscp idx
  let eth := dscp_store eth dscp
    { eth.dscp_ary dscp with t_etx := set_etx_fport (eth.dscp_ary dscp).t_etx 1 }
  let skb := mtk_tx_pad skb
  let r := tx0_dscp_pkt_addr eth skb idx mapped
  let eth := r.1
  let eth := dscp_store eth dscp { eth.dscp_ary dscp with pkt_addr := int_to_u32 r.2 }
  if (eth.dscp_ary dscp).pkt_addr = 0 then (eth, -1)
  else
    let eth := dscp_store eth dscp { eth.dscp_ary dscp with pkt_len := to_u16 (skb_headlen skb) }
    let eth := tx0_free_some eth dscp
    let eth := mtk_w32 eth (get_desc_next_idx (eth.dscp_ary dscp)) QDMA_CSR_TX_CPU_IDX
    (eth, 0)

/-! ### RX path -/

/-- The function `rx0_get_dscp`: position `TX0_DSCP_NUM + idx` of `dscp_ary`. -/
def rx0_get_dscp (idx : Int) : Nat := ((TX0_DSCP_NUM : Int) + idx).toNat

/-- The function `rx0_new_skb`; `new_skb` is what `alloc_skb` returned (`none` is
`NULL`) and `mapped` what `dma_map_single` returned. Returns the state and the
returned pointer. -/
def rx0_new_skb (eth : Engine) (idx : Int) (dscp : Nat) (new_skb : Option sk_buff)
    (mapped : Nat) : Engine × Option sk_buff :=
  match new_skb with
  | none => (eth, none)
  | some b =>
    let phys := to_dma_addr mapped
    if phys = 0 then (eth, none)
    else
      let eth := skb_store eth ((TX0_DSCP_NUM : Int) + idx).toNat (some b)
      let eth := dscp_store eth dscp { eth.dscp_ary dscp with pkt_addr := to_u32 phys }
      (eth, some b)

/-- The function `rx0_pop_skb`. -/
def rx0_pop_skb (eth : Engine) (idx : Int) (dscp : Nat) (new_skb : Option sk_buff)
    (mapped : Nat) : Engine × Option sk_buff :=
  let skb := eth.dscp_sk_buff_p_ary (idx + (TX0_DSCP_NUM : Int)).toNat
  let r := rx0_new_skb eth idx dscp new_skb mapped
  if r.2.isSome then (r.1, skb) else (r.1, none)

/-- The function `rx0_dscp_defaults`. -/
def rx0_dscp_defaults (eth : Engine) (dscp : Nat) : Engine :=
  dscp_store eth dscp { eth.dscp_ary dscp with pkt_len := 1518 }

/-- The slot index `rx0_done` computes from the value read from the RX
hardware-index register: `idx = (val + (RX0_DSCP_NUM - 1)) % RX0_DSCP_NUM`, in
`int` arithmetic. -/
def rx0_done_idx (val : Nat) : Int :=
  Int.tmod (wrap_int (to_int val + ((RX0_DSCP_NUM : Int) - 1))) (RX0_DSCP_NUM : Int)

/-- The delivery branch of `rx0_done`,
`if (skb) { skb_put(skb, dscp->pkt_len); ...; netif_rx(skb); }`: the buffer is
recorded as it is after `skb_put`, when it enters the network-stack interface. -/
def rx0_deliver (eth : Engine) (skb : Option sk_buff) (dscp : Nat) : Engine :=
  match skb with
  | some skb =>
    { eth with netif_rx_log := skb_put skb (eth.dscp_ary dscp).pkt_len :: eth.netif_rx_log }
  | none => eth

/-- The function `rx0_done`; `new_skb` and `mapped` are the results of the
allocation and mapping made for the replacement buffer. -/
def rx0_done (eth : Engine) (new_skb : Option sk_buff) (mapped : Nat) : Engine :=
  let val := mtk_r32 eth QDMA_CSR_RX_DMA_IDX
  let idx := rx0_done_idx val
  let dscp := rx0_get_dscp idx
  let r := rx0_pop_skb eth idx dscp new_skb mapped
  let eth := rx0_deliver r.1 r.2 dscp
  let eth := rx0_dscp_defaults eth dscp
  let eth := dscp_store eth dscp (set_desc_done (eth.dscp_ary dscp) false)
  mtk_w32 eth (int_to_u32 idx) QDMA_CSR_RX_CPU_IDX

/-! ### Completion queue and interrupt dispatcher -/

/-- The entry count `tx0_recycle_if_required` extracts from the IRQ status value:
`(val & IRQ_STATUS_ENTRY_LEN_MASK) >> IRQ_STATUS_ENTRY_LEN_SHIFT`. The mask clears
the sign bit, so the `int` operations act on the bit pattern. -/
def irq_status_entry_len (val : Nat) : Nat :=
  (val &&& IRQ_STATUS_ENTRY_LEN_MASK) >>> IRQ_STATUS_ENTRY_LEN_SHIFT

/-- The function `tx0_recycle_if_required`. -/
def tx0_recycle_if_required (eth : Engine) : Engine :=
  let val := mtk_r32 eth QDMA_CSR_IRQ_STATUS
  let len := irq_status_entry_len val
  let eth := (List.range len).foldl
    (fun (e : Engine) i => { e with irq_queue := Function.update e.irq_queue i IRQ_DEF_VALUE }) eth
  mtk_w32 eth (len &&& 0x7F) QDMA_CSR_IRQ_CLEAR_LEN

/-- The function `mtk_handle_irq`; `new_skb` and `mapped` are the allocation
results the RX path would obtain. -/
def mtk_handle_irq (eth : Engine) (new_skb : Option sk_buff) (mapped : Nat) : Engine :=
  let mask := mtk_r32 eth MTK_QDMA_INT_MASK
  let status := mtk_r32 eth MTK_QDMA_INT_STATUS
  let eth1 :=
    if status &&& INT_STATUS_RX0_DONE ≠ 0 then rx0_done eth new_skb mapped
    else if status &&& INT_STATUS_TX0_DONE ≠ 0 then tx0_recycle_if_required eth
    else eth
  mtk_w32 eth1 (status &&& mask) MTK_QDMA_INT_STATUS

/-! ### Initialization -/

/-- What the environment returns during `qdma_config`: the bus addresses of the
four coherent allocations, the values the line-manager register shows on each
read of the wait loop, and for each RX slot the results of `alloc_skb` and
`dma_map_single`. -/
structure ConfigEnv where
  dscp_phys : Nat
  irq_phys : Nat
  hwfwd_dscp_phys : Nat
  hwfwd_buff_phys : Nat
  lmgr_reads : Nat → Nat
  rx_alloc : Nat → Option sk_buff
  rx_phys : Nat → Nat

/-- The wait loop of `qdma_initialize_hw_fwd`,
`for (i = 0; i < 100; i++) { val = read; if ((val & START_BIT) == 0) break; }`:
`lmgr_wait reads n i` runs it from counter `i` with `n` iterations left, reading
`reads i` at iteration `i`, and returns the counter at exit. -/
def lmgr_wait (reads : Nat → Nat) : Nat → Nat → Nat
  | 0, i => i
  | n + 1, i =>
    if to_u32 (reads i) &&& QDMA_CSR_LMGR_START_BIT = 0 then i
    else lmgr_wait reads n (i + 1)

/-- The function `qdma_initialize_hw_fwd`. The scratch arrays are not looked at by
the driver again and are not part of the state; the wait loop changes no state. -/
def qdma_initialize_hw_fwd (eth : Engine) (env : ConfigEnv) : Engine :=
  let eth := mtk_w32 eth (0x14 <<< 16) QDMA_CSR_LMGR_INIT_CFG
  let eth := mtk_w32 eth env.hwfwd_dscp_phys QDMA_CSR_HWFWD_DSCP_BASE
  let eth := mtk_w32 eth env.hwfwd_buff_phys QDMA_CSR_HWFWD_BUFF_BASE
  let val := mtk_r32 eth QDMA_CSR_LMGR_INIT_CFG
  let eth := mtk_w32 eth (val ||| HWFWD_DSCP_NUM) QDMA_CSR_LMGR_INIT_CFG
  let eth := mtk_w32 eth (0 <<< 28) QDMA_CSR_HWFWD_DSCP_CFG
  let eth := mtk_w32 eth 1 QDMA_CSR_HWFWD_DSCP_CFG
  let val := mtk_r32 eth QDMA_CSR_LMGR_INIT_CFG
  let eth := mtk_w32 eth (val ||| QDMA_CSR_LMGR_START_BIT) QDMA_CSR_LMGR_INIT_CFG
  eth

/-- The function `qdma_initialize_irq_queue`: the 20 words of the queue are filled
with the byte `0xFF`. -/
def qdma_initialize_irq_queue (eth : Engine) (env : ConfigEnv) : Engine :=
  let eth := { eth with irq_queue := fun i =>
    if i < QDMA_IRQ_QUEUE_DEPTH then 0xFFFFFFFF else eth.irq_queue i }
  let eth := mtk_w32 eth env.irq_phys QDMA_CSR_IRQ_BASE
  mtk_w32 eth QDMA_IRQ_QUEUE_DEPTH QDMA_CSR_IRQ_CFG

/-- The function `qdma_initialize_tx_ring`:
`for (i = 0; i < TX0_DSCP_NUM - 1; i++) set_desc_next_idx(&dscp_ary[i], i + 1)`. -/
def qdma_initialize_tx_ring (eth : Engine) : Engine :=
  (List.range (TX0_DSCP_NUM - 1)).foldl
    (fun (e : Engine) i => dscp_store e i (set_desc_next_idx (e.dscp_ary i) (i + 1))) eth

/-- The function `qdma_initialize_rx_ring`. -/
def qdma_initialize_rx_ring (eth : Engine) (env : ConfigEnv) : Engine :=
  (List.range RX0_DSCP_NUM).foldl
    (fun (e : Engine) (i : Nat) =>
      let dscp := rx0_get_dscp (i : Int)
      let e := rx0_dscp_defaults e dscp
      (rx0_new_skb e (i : Int) dscp (env.rx_alloc i) (env.rx_phys i)).1) eth

/-- The value `qdma_config` writes to the global configuration register. -/
def qdma_glb_cfg_value : Nat :=
  (1 <<< 27) ||| (1 <<< 26) ||| (1 <<< 28) ||| (0x3 <<< 4) ||| QCFG_TX_DMA_EN ||| QCFG_RX_DMA_EN |||
    (1 <<< 6) ||| (1 <<< 4) ||| (1 <<< 5) ||| (1 <<< 19)

/-- The interrupt mask `qdma_config` selects. -/
def qdma_int_mask_value : Nat :=
  INT_STATUS_HWFWD_DSCP_LOW ||| INT_STATUS_IRQ_FULL ||| INT_STATUS_HWFWD_DSCP_EMPTY |||
    INT_STATUS_NO_RX0_CPU_DSCP ||| INT_STATUS_NO_TX0_CPU_DSCP ||| INT_STATUS_RX0_DONE

/-- The function `qdma_config`. The descriptor array is allocated and zeroed; the
debug registration is outside the engine state. Returns the state and the `int`
result. -/
def qdma_config (eth : Engine) (env : ConfigEnv) : Engine × Int :=
  let eth := mtk_w32 eth 0 QDMA_CSR_GLB_CFG
  let eth := { eth with dscp_ary := fun p => if p < DSCP_NUM then zero_desc else eth.dscp_ary p }
  let eth := mtk_w32 eth env.dscp_phys QDMA_CSR_TX_DSCP_BASE
  let eth := mtk_w32 eth (env.dscp_phys + sizeof_qdma_desc * TX0_DSCP_NUM) QDMA_CSR_RX_DSCP_BASE
  let eth := mtk_w32 eth (DSCP_NUM - TX0_DSCP_NUM) QDMA_CSR_RX_RING_CFG
  let eth := mtk_w32 eth 0 QDMA_CSR_RX_RING_THR
  let eth := qdma_initialize_irq_queue eth env
  let eth := qdma_initialize_hw_fwd eth env
  let eth := qdma_initialize_tx_ring eth
  let eth := mtk_w32 eth 0 QDMA_CSR_TX_CPU_IDX
  let eth := mtk_w32 eth 0 QDMA_CSR_TX_DMA_IDX
  let eth := qdma_initialize_rx_ring eth env
  let eth := mtk_w32 eth 0 QDMA_CSR_RX_CPU_IDX
  let eth := mtk_w32 eth 0 QDMA_CSR_RX_DMA_IDX
  let eth := mtk_w32 eth RX0_DSCP_NUM QDMA_CSR_RX_CPU_IDX
  let eth := mtk_w32 eth 0 0x4058
  let eth := mtk_w32 eth 0 0x405C
  let eth := mtk_w32 eth qdma_glb_cfg_value QDMA_CSR_GLB_CFG
  let eth := mtk_w32 eth qdma_int_mask_value MTK_QDMA_INT_MASK
  let eth := mtk_w32 eth 0xC0000000 0x500
  let eth := mtk_w32 eth 0x9E30B (0x8000 + 0x3000 + 5 * 0x100)
  let eth := mtk_w32 eth 0x9E30B (0x8000 + 0x3000 + 6 * 0x100)
  let eth := mtk_w32 eth ((0xff <<< 24) ||| (0xff <<< 16) ||| (0xff <<< 8) ||| (1 <<< 7) ||| (6 <<< 4))
    (0x8000 + 0x10)
  (eth, 0)

/-! ### Properties of engine states -/

/-- TX ring linkage: slot `i` of the 4-slot TX ring links to slot `(i + 1) mod 4`. -/
def tx_ring_linked (eth : Engine) : Prop :=
  ∀ i, i < TX0_DSCP_NUM → get_desc_next_idx (eth.dscp_ary i) = (i + 1) % TX0_DSCP_NUM

/-- RX ring occupancy: every one of the 4 RX slots has a bound buffer. -/
def rx_ring_full (eth : Engine) : Prop :=
  ∀ i, i < RX0_DSCP_NUM → eth.dscp_sk_buff_p_ary (TX0_DSCP_NUM + i) ≠ none

/-- States reachable from initialization by the operations of the engine, with the
hardware free to change register contents between them. `rx0_done` is entered
with an in-range RX hardware index. -/
inductive Reachable : Engine → Prop
  | init (eth : Engine) (env : ConfigEnv) : Reachable (qdma_config eth env).1
  | hw_regs (eth : Engine) (regs : Nat → Nat) : Reachable eth → Reachable { eth with regs := regs }
  | tx_map (eth : Engine) (skb : sk_buff) (mapped : Nat) :
      Reachable eth → Reachable (mtk_tx_map eth skb mapped).1
  | free_some (eth : Engine) (dscp : Nat) :
      Reachable eth → dscp < TX0_DSCP_NUM → Reachable (tx0_free_some eth dscp)
  | rx_done (eth : Engine) (new_skb : Option sk_buff) (mapped : Nat) :
      Reachable eth → mtk_r32 eth QDMA_CSR_RX_DMA_IDX < RX0_DSCP_NUM →
      Reachable (rx0_done eth new_skb mapped)
  | recycle (eth : Engine) : Reachable eth → Reachable (tx0_recycle_if_required eth)
  | handle_irq (eth : Engine) (new_skb : Option sk_buff) (mapped : Nat) :
      Reachable eth → mtk_r32 eth QDMA_CSR_RX_DMA_IDX < RX0_DSCP_NUM →
      Reachable (mtk_handle_irq eth new_skb mapped)

/-- The acknowledgement the specification describes for the dispatcher: the bit
of the condition that was serviced (RX-done if it is pending, otherwise TX-done if
it is pending), restricted to the enabled mask. -/
def spec_ack_value (mask status : Nat) : Nat :=
  (if status &&& INT_STATUS_RX0_DONE ≠ 0 then INT_STATUS_RX0_DONE
   else if status &&& INT_STATUS_TX0_DONE ≠ 0 then INT_STATUS_TX0_DONE
   else 0) &&& mask

/-- An engine state with every register, descriptor and queue word zero and no
buffer bound. -/
def zero_engine : Engine :=
  { regs := fun _ => 0, wlog := [], dscp_ary := fun _ => zero_desc,
    dscp_sk_buff_p_ary := fun _ => none, irq_queue := fun _ => 0, netif_rx_log := [],
    freed := [], tx_dropped := 0, dma_refcnt := 0, resetting := false }

/-- An environment in which every allocation and mapping succeeds and the
line-manager start bit is clear on the first read. -/
def good_env : ConfigEnv :=
  { dscp_phys := 0x1000, irq_phys := 0x2000, hwfwd_dscp_phys := 0x3000, hwfwd_buff_phys := 0x4000,
    lmgr_reads := fun _ => 0, rx_alloc := fun i => some ⟨100 + i, 0, 0, 0x8000 + 2048 * i⟩,
    rx_phys := fun i => 0x8000 + 2048 * i }

/-! ### Frame submission entry point and device open -/

/-- The value `NETDEV_TX_OK`. -/
def NETDEV_TX_OK : Nat := 0

/-- The `drop:` label of `mtk_start_xmit`: `stats->tx_dropped++` (an
`unsigned long` counter) and `dev_kfree_skb_any(skb)`. -/
def xmit_drop (eth : Engine) (skb : sk_buff) : Engine × Nat :=
  ({ eth with tx_dropped := to_ulong (eth.tx_dropped + 1), freed := some skb :: eth.freed },
    NETDEV_TX_OK)

/-- The function `mtk_start_xmit`; `mapped` is what `dma_map_single` returns for
the frame. The ring lock is held around the body and is not part of the state.
The frame is padded in place by `mtk_tx_map`, so on the drop path after it the
buffer released is the padded one. -/
def mtk_start_xmit (eth : Engine) (skb : sk_buff) (mapped : Nat) : Engine × Nat :=
  if eth.resetting then xmit_drop eth skb
  else
    let r := mtk_tx_map eth skb mapped
    if r.2 < 0 then xmit_drop r.1 (mtk_tx_pad skb)
    else (r.1, NETDEV_TX_OK)

/-- The value `REFCOUNT_SATURATED`, `INT_MIN / 2`, as a 32-bit pattern. -/
def REFCOUNT_SATURATED : Nat := 0xC0000000

/-- Kernel helper `refcount_inc` on the 32-bit pattern of the counter: add one,
saturating when the old value is zero or negative or the sum is negative. -/
def refcount_inc (refs : Nat) : Nat :=
  if to_int refs = 0 ∨ to_int refs < 0 ∨ wrap_int (to_int refs + 1) < 0 then REFCOUNT_SATURATED
  else int_to_u32 (to_int refs + 1)

/-- The function `mtk_open`. Starting the transmit queue of the net device is
outside the engine state. Returns the state and the `int` result. -/
def mtk_open (eth : Engine) (env : ConfigEnv) : Engine × Int :=
  if to_u32 eth.dma_refcnt = 0 then
    let r := qdma_config eth env
    if r.2 ≠ 0 then (r.1, r.2)
    else ({ r.1 with dma_refcnt := 1 }, 0)
  else ({ eth with dma_refcnt := refcount_inc eth.dma_refcnt }, 0)

/-! ### MAC registration -/

/-- Error numbers. -/
def EINVAL : Int := 22
def ENOMEM : Int := 12

/-- The constant `MTK_MAC_COUNT` of `econet_eth1.h`. -/
def MTK_MAC_COUNT : Int := 2

/-- The members of `struct mtk_mac` set by `mtk_add_mac`: `id` and `of_node`
(`hw` always points back to the owning `struct mtk_eth`). -/
structure mtk_mac where
  id : Int
  of_node : Nat
  deriving DecidableEq, Repr

/-- The tables `eth->netdev[]` and `eth->mac[]` of `struct mtk_eth`, each of
`MTK_MAX_DEVS = 2` pointers (`none` is `NULL`). `netdev i` and `mac i` are the
words at `eth->netdev[i]` and `eth->mac[i]` for any `int` index `i`, so an index
outside 0..1 denotes memory outside the array. A net device is named by its
address. -/
structure MacTables where
  netdev : Int → Option Nat
  mac : Int → Option mtk_mac

/-- The function `mtk_add_mac`; `np` is the device node, `reg` the value of its
`reg` property as `be32_to_cpup` returns it (`none` when the property is missing)
and `alloc` what `alloc_etherdev` returns. The fields set afterwards in the
allocated net device are not part of the tables. Returns the tables and the `int`
result. -/
def mtk_add_mac (eth : MacTables) (np : Nat) (reg : Option Nat) (alloc : Option Nat) :
    MacTables × Int :=
  match reg with
  | none => (eth, -EINVAL)
  | some v =>
    let id : Int := to_int v
    if id ≥ MTK_MAC_COUNT then (eth, -EINVAL)
    else if (eth.netdev id).isSome then (eth, -EINVAL)
    else
      let eth := { eth with netdev := Function.update eth.netdev id alloc }
      if (eth.netdev id).isNone then (eth, -ENOMEM)
      else
        let eth := { eth with mac := Function.update eth.mac id (some ⟨id, np⟩) }
        (eth, 0)

/-! ### The start-bit wait loop, with the values it reads -/

/-- The wait loop of `qdma_initialize_hw_fwd` once more, now returning the values
`mtk_r32` returned, in the order they were read: `lmgr_wait_reads reads n i` runs
the loop from counter `i` with `n` iterations left. -/
def lmgr_wait_reads (reads : Nat → Nat) : Nat → Nat → List Nat
  | 0, _ => []
  | n + 1, i =>
    if to_u32 (reads i) &&& QDMA_CSR_LMGR_START_BIT = 0 then [to_u32 (reads i)]
    else to_u32 (reads i) :: lmgr_wait_reads reads n (i + 1)

/-! ## Specification helpers -/

/-- A mask `m` is the contiguous field of `w` bits starting at bit `s`, inside a
32-bit word, and `__bf_shf` finds its shift. -/
def IsField (m s w : Nat) : Prop :=
  bf_shf m = s ∧ m = (2 ^ w - 1) <<< s ∧ s + w ≤ 32

instance (m s w : Nat) : Decidable (IsField m s w) := by
  unfold IsField; infer_instance

/-- The descriptor `mtk_tx_map` has written into the selected slot when the
mapping succeeded, before the reclaim runs. -/
def tx_written_desc (eth : Engine) (skb : sk_buff) (m : Nat) : qdma_desc :=
  { eth.dscp_ary (mtk_r32 eth QDMA_CSR_TX_CPU_IDX % TX0_DSCP_NUM) with
    t_etx := set_etx_fport (eth.dscp_ary (mtk_r32 eth QDMA_CSR_TX_CPU_IDX % TX0_DSCP_NUM)).t_etx 1,
    pkt_addr := to_dma_addr m,
    pkt_len := to_u16 (skb_headlen (mtk_tx_pad skb)) }

/-- The state `mtk_tx_map` hands to `tx0_free_some` when the mapping succeeded. -/
def tx_written_state (eth : Engine) (skb : sk_buff) (m : Nat) : Engine :=
  dscp_store
    (skb_store eth (mtk_r32 eth QDMA_CSR_TX_CPU_IDX % TX0_DSCP_NUM) (some (mtk_tx_pad skb)))
    (mtk_r32 eth QDMA_CSR_TX_CPU_IDX % TX0_DSCP_NUM) (tx_written_desc eth skb m)

/-- The registers written since `eth0`, newest first. -/
def written_regs (eth0 eth : Engine) : List Nat := (new_writes eth0 eth).map Prod.fst

/-- A state in which the IRQ status register reports 200 completed entries. -/
def drain_state : Engine :=
  { zero_engine with regs := Function.update zero_engine.regs QDMA_CSR_IRQ_STATUS (200 <<< 16) }

/-- A state in which RX-done and TX-done are both pending and both enabled. -/
def irq_both_state : Engine :=
  { zero_engine with
    regs := fun r => if r = MTK_QDMA_INT_STATUS ∨ r = MTK_QDMA_INT_MASK then 3 else 0 }

/-- The state after submitting the frames of a list one after the other with
`mtk_tx_map`, each given with what `dma_map_single` returns for it. -/
def tx_submit_all (eth : Engine) (frames : List (sk_buff × Nat)) : Engine :=
  frames.foldl (fun (e : Engine) f => (mtk_tx_map e f.1 f.2).1) eth

/-- Exclusive ownership in the binding table: no buffer is bound to two slots. -/
def bindings_exclusive (eth : Engine) : Prop :=
  ∀ p q a b, p ≠ q → eth.dscp_sk_buff_p_ary p = some a → eth.dscp_sk_buff_p_ary q = some b →
    a.id ≠ b.id

/-- A buffer returned by the allocator is fresh: it is none of the buffers bound
to a slot. -/
def alloc_fresh (eth : Engine) (new_skb : Option sk_buff) : Prop :=
  ∀ n, new_skb = some n → ∀ p a, eth.dscp_sk_buff_p_ary p = some a → a.id ≠ n.id

/-- An environment in which the start bit of the line-manager register never
clears; everything else is as in `good_env`. -/
def stuck_env : ConfigEnv :=
  { good_env with lmgr_reads := fun _ => 0x80000000 }

/-- Tables with no device registered, also in the memory around them. -/
def empty_tables : MacTables := { netdev := fun _ => none, mac := fun _ => none }

/-- The engine after `qdma_config` in `good_env`, with the RX hardware index at 2
and the hardware-reported length 100 in the descriptor of RX slot 1. -/
def rx_ready_state : Engine :=
  let eth := (qdma_config zero_engine good_env).1
  let eth := dscp_store eth 5 { eth.dscp_ary 5 with pkt_len := 100 }
  { eth with regs := Function.update eth.regs QDMA_CSR_RX_DMA_IDX 2 }

/-- Consistency of the TX half of the ring: the ring is linked, a TX slot has a
non-zero `pkt_addr` exactly when a buffer is bound to it, and the slot the next
submission selects is unbound. -/
def tx_bindings_consistent (eth : Engine) : Prop :=
  tx_ring_linked eth ∧
  (∀ i, i < TX0_DSCP_NUM →
    ((eth.dscp_ary i).pkt_addr ≠ 0 ↔ eth.dscp_sk_buff_p_ary i ≠ none)) ∧
  eth.dscp_sk_buff_p_ary (mtk_r32 eth QDMA_CSR_TX_CPU_IDX % TX0_DSCP_NUM) = none

/-- States reachable from the first initialization (the static binding table
still all `NULL` for the TX slots) by submissions, successful or failed, RX
completions with an in-range hardware index and drains. The hardware may change
any register except the TX cpu-index register, and rewrites no descriptor. -/
inductive TxReachable : Engine → Prop
  | init (eth : Engine) (env : ConfigEnv) :
      (∀ p, p < TX0_DSCP_NUM → eth.dscp_sk_buff_p_ary p = none) →
      TxReachable (qdma_config eth env).1
  | hw_regs (eth : Engine) (regs : Nat → Nat) :
      TxReachable eth → regs QDMA_CSR_TX_CPU_IDX = eth.regs QDMA_CSR_TX_CPU_IDX →
      TxReachable { eth with regs := regs }
  | tx_map (eth : Engine) (skb : sk_buff) (mapped : Nat) :
      TxReachable eth → TxReachable (mtk_tx_map eth skb mapped).1
  | start_xmit (eth : Engine) (skb : sk_buff) (mapped : Nat) :
      TxReachable eth → TxReachable (mtk_start_xmit eth skb mapped).1
  | rx_done (eth : Engine) (new_skb : Option sk_buff) (mapped : Nat) :
      TxReachable eth → mtk_r32 eth QDMA_CSR_RX_DMA_IDX < RX0_DSCP_NUM →
      TxReachable (rx0_done eth new_skb mapped)
  | recycle (eth : Engine) : TxReachable eth → TxReachable (tx0_recycle_if_required eth)
  | handle_irq (eth : Engine) (new_skb : Option sk_buff) (mapped : Nat) :
      TxReachable eth → mtk_r32 eth QDMA_CSR_RX_DMA_IDX < RX0_DSCP_NUM →
      TxReachable (mtk_handle_irq eth new_skb mapped)

/-- The engine after `qdma_config` in `good_env` and one submitted frame (bound to
TX slot 0), with the RX hardware index at 2. -/
def rx_tx_state : Engine :=
  let eth := (mtk_tx_map (qdma_config zero_engine good_env).1 ⟨1, 42, 0, 0x100⟩ 0x9000).1
  { eth with regs := Function.update eth.regs QDMA_CSR_RX_DMA_IDX 2 }

/-- The engine after `qdma_config` in `good_env` and four submitted frames, with
the RX hardware-index register reading `0x80000000`. -/
def rx_bad_index_state : Engine :=
  let eth := tx_submit_all (qdma_config zero_engine good_env).1
    [(⟨1, 42, 0, 0x100⟩, 0x9000), (⟨2, 100, 0, 0x200⟩, 0x9800), (⟨3, 60, 0, 0x300⟩, 0xA000),
     (⟨4, 64, 0, 0x400⟩, 0xA800)]
  { eth with regs := Function.update eth.regs QDMA_CSR_RX_DMA_IDX 0x80000000 }

/-- The engine after `qdma_config` in `good_env` and three submitted frames (the
next submission selects TX slot 3, which is unbound), with the RX hardware-index
register reading `0x80000000`. -/
def tx_rx_clash_state : Engine :=
  let eth := tx_submit_all (qdma_config zero_engine good_env).1
    [(⟨1, 42, 0, 0x100⟩, 0x9000), (⟨2, 100, 0, 0x200⟩, 0x9800), (⟨3, 60, 0, 0x300⟩, 0xA000)]
  { eth with regs := Function.update eth.regs QDMA_CSR_RX_DMA_IDX 0x80000000 }

/-! ## Bit-level facts about the field macros -/

theorem IsField.testBit_mask {m s w : Nat} (h : IsField m s w) (i : Nat) :
    m.testBit i = (decide (s ≤ i) && decide (i < s + w)) := by
  obtain ⟨-, hm, -⟩ := h
  subst hm
  rw [Nat.testBit_shiftLeft, Nat.testBit_two_pow_sub_one]
  by_cases h1 : s ≤ i
  · have : (i - s < w) ↔ (i < s + w) := by omega
    simp [h1, this]
  · simp [h1]

theorem testBit_to_ulong (x i : Nat) :
    (to_ulong x).testBit i = (decide (i < 32) && x.testBit i) := by
  unfold to_ulong BITS_PER_LONG
  exact Nat.testBit_mod_two_pow x 32 i

theorem testBit_ULONG_MAX (i : Nat) : ULONG_MAX.testBit i = decide (i < 32) := by
  unfold ULONG_MAX BITS_PER_LONG
  exact Nat.testBit_two_pow_sub_one 32 i

/-- Bit `i` of `FIELD_PREP(m, v)`: inside the field it is bit `i - s` of `v`,
outside it is clear. -/
theorem testBit_FIELD_PREP {m s w : Nat} (h : IsField m s w) (v i : Nat) :
    (FIELD_PREP m v).testBit i = (decide (s ≤ i ∧ i < s + w) && v.testBit (i - s)) := by
  have hs : bf_shf m = s := h.1
  have h32 : s + w ≤ 32 := h.2.2
  unfold FIELD_PREP
  rw [Nat.testBit_and, h.testBit_mask, testBit_to_ulong, hs, Nat.testBit_shiftLeft,
    testBit_to_ulong]
  by_cases h1 : s ≤ i
  · by_cases h2 : i < s + w
    · have h3 : i < 32 := by omega
      have h4 : i - s < 32 := by omega
      simp [h1, h2, h3, h4]
    · simp [h1, h2]
  · simp [h1]

/-- Bit `i` of `FIELD_SET(cur, m, v)`: inside the field it is bit `i - s` of `v`,
outside it is the bit of `cur` (seen as an `unsigned long`). -/
theorem testBit_FIELD_SET {m s w : Nat} (h : IsField m s w) (cur v i : Nat) :
    (FIELD_SET cur m v).testBit i =
      if s ≤ i ∧ i < s + w then v.testBit (i - s) else (decide (i < 32) && cur.testBit i) := by
  have h32 : s + w ≤ 32 := h.2.2
  unfold FIELD_SET
  rw [Nat.testBit_or, Nat.testBit_and, Nat.testBit_xor, testBit_ULONG_MAX, h.testBit_mask,
    testBit_FIELD_PREP h]
  by_cases h1 : s ≤ i
  · by_cases h2 : i < s + w
    · have h3 : i < 32 := by omega
      simp [h1, h2, h3]
    · simp [h1, h2, Bool.and_comm]
  · simp [h1, Bool.and_comm]

/-- Bit `j` of `FIELD_GET(m, reg)`: bit `s + j` of `reg` for `j` below the field
width, clear above. -/
theorem testBit_FIELD_GET {m s w : Nat} (h : IsField m s w) (reg j : Nat) :
    (FIELD_GET m reg).testBit j = (decide (j < w) && reg.testBit (s + j)) := by
  have hs : bf_shf m = s := h.1
  have h32 : s + w ≤ 32 := h.2.2
  unfold FIELD_GET
  rw [testBit_to_ulong, hs, Nat.testBit_shiftRight, Nat.testBit_and, h.testBit_mask]
  by_cases h1 : j < w
  · have h2 : j < 32 := by omega
    have h3 : s + j < s + w := by omega
    simp [h1, h2, h3]
  · have h3 : ¬ (s + j < s + w) := by omega
    simp [h1, h3]

theorem FIELD_GET_lt {m s w : Nat} (h : IsField m s w) (reg : Nat) :
    FIELD_GET m reg < 2 ^ w := by
  apply Nat.lt_pow_two_of_testBit
  intro i hi
  rw [testBit_FIELD_GET h]
  have : ¬ i < w := by omega
  simp [this]

/-- Reading a field back from a word of `W` bits into which it was just stored
gives the stored value, truncated to the field width. -/
theorem FIELD_GET_FIELD_SET {m s w : Nat} (h : IsField m s w) (W : Nat) (hW : s + w ≤ W)
    (cur v : Nat) : FIELD_GET m (FIELD_SET cur m v % 2 ^ W) = v % 2 ^ w := by
  apply Nat.eq_of_testBit_eq
  intro j
  rw [testBit_FIELD_GET h, Nat.testBit_mod_two_pow, testBit_FIELD_SET h, Nat.testBit_mod_two_pow]
  by_cases h1 : j < w
  · have h2 : s + j < W := by omega
    have h3 : s ≤ s + j ∧ s + j < s + w := by omega
    have h4 : s + j - s = j := by omega
    simp [h1, h2, h3, h4]
  · simp [h1]

/-- Storing into one field does not change what is read from a disjoint field of
the same `W`-bit word. -/
theorem FIELD_GET_FIELD_SET_other {m s w m2 s2 w2 : Nat} (h : IsField m s w)
    (h2 : IsField m2 s2 w2) (hd : s + w ≤ s2 ∨ s2 + w2 ≤ s) (W : Nat) (hW : s2 + w2 ≤ W)
    (cur v : Nat) : FIELD_GET m2 (FIELD_SET cur m v % 2 ^ W) = FIELD_GET m2 cur := by
  have h32 : s2 + w2 ≤ 32 := h2.2.2
  apply Nat.eq_of_testBit_eq
  intro j
  rw [testBit_FIELD_GET h2, testBit_FIELD_GET h2, Nat.testBit_mod_two_pow, testBit_FIELD_SET h]
  by_cases h1 : j < w2
  · have h3 : s2 + j < W := by omega
    have h4 : ¬ (s ≤ s2 + j ∧ s2 + j < s + w) := by omega
    have h5 : s2 + j < 32 := by omega
    simp [h1, h3, h4, h5]
  · simp [h1]

/-- A getter applied after its own setter: the casts of the getter's return type
(`c` bits) and of the stored member (`W` bits) lose nothing of a value that fits
the field. -/
theorem roundtrip_nat {m s w : Nat} (h : IsField m s w) (W c : Nat) (hW : s + w ≤ W)
    (hc : w ≤ c) (cur v : Nat) (hv : v < 2 ^ w) :
    FIELD_GET m (FIELD_SET cur m v % 2 ^ W) % 2 ^ c = v := by
  rw [FIELD_GET_FIELD_SET h W hW, Nat.mod_eq_of_lt hv]
  exact Nat.mod_eq_of_lt (lt_of_lt_of_le hv (Nat.pow_le_pow_right (by decide) hc))

/-- A `bool` getter applied after its own setter. -/
theorem roundtrip_bool {m s : Nat} (h : IsField m s 1) (W : Nat) (hW : s + 1 ≤ W)
    (cur : Nat) (v : Bool) :
    to_bool (FIELD_GET m (FIELD_SET cur m v.toNat % 2 ^ W)) = v := by
  rw [FIELD_GET_FIELD_SET h W hW]
  cases v <;> decide

/-! ### The fields are the documented bit ranges -/

theorem DESC_DONE_isField : IsField DESC_DONE 15 1 := by decide
theorem DESC_DROPPED_isField : IsField DESC_DROPPED 14 1 := by decide
theorem DESC_NLS_isField : IsField DESC_NLS 13 1 := by decide
theorem DESC_UNKNOWN1_MASK_isField : IsField DESC_UNKNOWN1_MASK 0 13 := by decide
theorem DESC_UNKNOWN2_MASK_isField : IsField DESC_UNKNOWN2_MASK 12 20 := by decide
theorem DESC_NEXT_IDX_MASK_isField : IsField DESC_NEXT_IDX_MASK 0 12 := by decide
theorem ETX_UNKNOWN0_MASK_isField : IsField ETX_UNKNOWN0_MASK 28 4 := by decide
theorem ETX_SP_TAG_MASK_isField : IsField ETX_SP_TAG_MASK 12 16 := by decide
theorem ETX_OAM_isField : IsField ETX_OAM 11 1 := by decide
theorem ETX_CHANNEL_MASK_isField : IsField ETX_CHANNEL_MASK 3 8 := by decide
theorem ETX_QUEUE_MASK_isField : IsField ETX_QUEUE_MASK 0 3 := by decide
theorem ETX_ICO_isField : IsField ETX_ICO 15 1 := by decide
theorem ETX_UCO_isField : IsField ETX_UCO 14 1 := by decide
theorem ETX_TCO_isField : IsField ETX_TCO 13 1 := by decide
theorem ETX_SCO_isField : IsField ETX_SCO 12 1 := by decide
theorem ETX_UDF_PMAP_MASK_isField : IsField ETX_UDF_PMAP_MASK 6 6 := by decide
theorem ETX_FPORT_MASK_isField : IsField ETX_FPORT_MASK 3 3 := by decide
theorem ETX_VLAN_EN_isField : IsField ETX_VLAN_EN 2 1 := by decide
theorem ETX_VLAN_TYPE_MASK_isField : IsField ETX_VLAN_TYPE_MASK 0 2 := by decide
theorem ERX_UNKNOWN1_MASK_isField : IsField ERX_UNKNOWN1_MASK 29 3 := by decide
theorem ERX_IP6_isField : IsField ERX_IP6 28 1 := by decide
theorem ERX_IP4_isField : IsField ERX_IP4 27 1 := by decide
theorem ERX_IP4F_isField : IsField ERX_IP4F 26 1 := by decide
theorem ERX_TACK_isField : IsField ERX_TACK 25 1 := by decide
theorem ERX_L2VLD_isField : IsField ERX_L2VLD 24 1 := by decide
theorem ERX_L4F_isField : IsField ERX_L4F 23 1 := by decide
theorem ERX_SPORT_MASK_isField : IsField ERX_SPORT_MASK 19 4 := by decide
theorem ERX_CRSN_MASK_isField : IsField ERX_CRSN_MASK 14 5 := by decide
theorem ERX_PPE_ENTRY_MASK_isField : IsField ERX_PPE_ENTRY_MASK 0 14 := by decide
theorem ERX_UNKNOWN2_MASK_isField : IsField ERX_UNKNOWN2_MASK 1 31 := by decide
theorem ERX_UNTAG_isField : IsField ERX_UNTAG 0 1 := by decide

/-- Clearing the `done` flag makes `is_desc_done` false. -/
theorem codec_done_cleared (d : qdma_desc) : is_desc_done (set_desc_done d false) = false :=
  roundtrip_bool DESC_DONE_isField 16 (by decide) d.bitfield_0 false

/-! ## Descriptor codec: round trip -/

/-- C1. Codec round trip: for every getter/setter pair of `qdma_desc.h`, every
record `x` and every value `v` that fits the field's bit width (any `bool` for a
one-bit flag), the getter applied to the result of the setter called with `v`
returns `v`. -/
theorem codec_round_trip :
   ((∀ (x : qdma_desc) (v : Bool), is_desc_done (set_desc_done x v) = v) ∧
    (∀ (x : qdma_desc) (v : Bool), is_desc_dropped (set_desc_dropped x v) = v) ∧
    (∀ (x : qdma_desc) (v : Bool), is_desc_nls (set_desc_nls x v) = v) ∧
    (∀ (x : qdma_desc) (v : Nat), v < 2 ^ 13 → get_desc_unknown1 (set_desc_unknown1 x v) = v) ∧
    (∀ (x : qdma_desc) (v : Nat), v < 2 ^ 20 → get_desc_unknown2 (set_desc_unknown2 x v) = v) ∧
    (∀ (x : qdma_desc) (v : Nat), v < 2 ^ 12 → get_desc_next_idx (set_desc_next_idx x v) = v)) ∧
   ((∀ (x : qdma_desc_etx) (v : Nat), v < 2 ^ 4 → get_etx_unknown0 (set_etx_unknown0 x v) = v) ∧
    (∀ (x : qdma_desc_etx) (v : Nat), v < 2 ^ 16 → get_etx_sp_tag (set_etx_sp_tag x v) = v) ∧
    (∀ (x : qdma_desc_etx) (v : Bool), is_etx_oam (set_etx_oam x v) = v) ∧
    (∀ (x : qdma_desc_etx) (v : Nat), v < 2 ^ 8 → get_etx_channel (set_etx_channel x v) = v) ∧
    (∀ (x : qdma_desc_etx) (v : Nat), v < 2 ^ 3 → get_etx_queue (set_etx_queue x v) = v) ∧
    (∀ (x : qdma_desc_etx) (v : Bool), is_etx_ico (set_etx_ico x v) = v) ∧
    (∀ (x : qdma_desc_etx) (v : Bool), is_etx_uco (set_etx_uco x v) = v) ∧
    (∀ (x : qdma_desc_etx) (v : Bool), is_etx_tco (set_etx_tco x v) = v) ∧
    (∀ (x : qdma_desc_etx) (v : Bool), is_etx_sco (set_etx_sco x v) = v) ∧
    (∀ (x : qdma_desc_etx) (v : Nat), v < 2 ^ 6 → get_etx_udf_pmap (set_etx_udf_pmap x v) = v) ∧
    (∀ (x : qdma_desc_etx) (v : Nat), v < 2 ^ 3 → get_etx_fport (set_etx_fport x v) = v) ∧
    (∀ (x : qdma_desc_etx) (v : Bool), is_etx_vlan_en (set_etx_vlan_en x v) = v) ∧
    (∀ (x : qdma_desc_etx) (v : Nat), v < 2 ^ 2 → get_etx_vlan_type (set_etx_vlan_type x v) = v)) ∧
   ((∀ (x : qdma_desc_erx) (v : Nat), v < 2 ^ 3 → get_erx_unknown1 (set_erx_unknown1 x v) = v) ∧
    (∀ (x : qdma_desc_erx) (v : Bool), is_erx_ip6 (set_erx_ip6 x v) = v) ∧
    (∀ (x : qdma_desc_erx) (v : Bool), is_erx_ip4 (set_erx_ip4 x v) = v) ∧
    (∀ (x : qdma_desc_erx) (v : Bool), is_erx_ip4f (set_erx_ip4f x v) = v) ∧
    (∀ (x : qdma_desc_erx) (v : Bool), is_erx_tack (set_erx_tack x v) = v) ∧
    (∀ (x : qdma_desc_erx) (v : Bool), is_erx_l2vld (set_erx_l2vld x v) = v) ∧
    (∀ (x : qdma_desc_erx) (v : Bool), is_erx_l4f (set_erx_l4f x v) = v) ∧
    (∀ (x : qdma_desc_erx) (v : Nat), v < 2 ^ 4 → get_erx_sport (set_erx_sport x v) = v) ∧
    (∀ (x : qdma_desc_erx) (v : Nat), v < 2 ^ 5 → get_erx_crsn (set_erx_crsn x v) = v) ∧
    (∀ (x : qdma_desc_erx) (v : Nat), v < 2 ^ 14 → get_erx_ppe_entry (set_erx_ppe_entry x v) = v) ∧
    (∀ (x : qdma_desc_erx) (v : Nat), v < 2 ^ 31 → get_erx_unknown2 (set_erx_unknown2 x v) = v) ∧
    (∀ (x : qdma_desc_erx) (v : Bool), is_erx_untag (set_erx_untag x v) = v))
  :=
  ⟨⟨fun x v => roundtrip_bool DESC_DONE_isField 16 (by decide) x.bitfield_0 v,
   fun x v => roundtrip_bool DESC_DROPPED_isField 16 (by decide) x.bitfield_0 v,
   fun x v => roundtrip_bool DESC_NLS_isField 16 (by decide) x.bitfield_0 v,
   fun x v hv => roundtrip_nat DESC_UNKNOWN1_MASK_isField 16 16 (by decide) (by decide) x.bitfield_0 v hv,
   fun x v hv => roundtrip_nat DESC_UNKNOWN2_MASK_isField 32 32 (by decide) (by decide) x.bitfield_1 v hv,
   fun x v hv => roundtrip_nat DESC_NEXT_IDX_MASK_isField 32 16 (by decide) (by decide) x.bitfield_1 v hv⟩,
  ⟨fun x v hv => roundtrip_nat ETX_UNKNOWN0_MASK_isField 32 8 (by decide) (by decide) x.bitfield_0 v hv,
   fun x v hv => roundtrip_nat ETX_SP_TAG_MASK_isField 32 16 (by decide) (by decide) x.bitfield_0 v hv,
   fun x v => roundtrip_bool ETX_OAM_isField 32 (by decide) x.bitfield_0 v,
   fun x v hv => roundtrip_nat ETX_CHANNEL_MASK_isField 32 8 (by decide) (by decide) x.bitfield_0 v hv,
   fun x v hv => roundtrip_nat ETX_QUEUE_MASK_isField 32 8 (by decide) (by decide) x.bitfield_0 v hv,
   fun x v => roundtrip_bool ETX_ICO_isField 16 (by decide) x.bitfield_1 v,
   fun x v => roundtrip_bool ETX_UCO_isField 16 (by decide) x.bitfield_1 v,
   fun x v => roundtrip_bool ETX_TCO_isField 16 (by decide) x.bitfield_1 v,
   fun x v => roundtrip_bool ETX_SCO_isField 16 (by decide) x.bitfield_1 v,
   fun x v hv => roundtrip_nat ETX_UDF_PMAP_MASK_isField 16 8 (by decide) (by decide) x.bitfield_1 v hv,
   fun x v hv => roundtrip_nat ETX_FPORT_MASK_isField 16 32 (by decide) (by decide) x.bitfield_1 v hv,
   fun x v => roundtrip_bool ETX_VLAN_EN_isField 16 (by decide) x.bitfield_1 v,
   fun x v hv => roundtrip_nat ETX_VLAN_TYPE_MASK_isField 16 32 (by decide) (by decide) x.bitfield_1 v hv⟩,
  ⟨fun x v hv => roundtrip_nat ERX_UNKNOWN1_MASK_isField 32 8 (by decide) (by decide) x.bitfield_0 v hv,
   fun x v => roundtrip_bool ERX_IP6_isField 32 (by decide) x.bitfield_0 v,
   fun x v => roundtrip_bool ERX_IP4_isField 32 (by decide) x.bitfield_0 v,
   fun x v => roundtrip_bool ERX_IP4F_isField 32 (by decide) x.bitfield_0 v,
   fun x v => roundtrip_bool ERX_TACK_isField 32 (by decide) x.bitfield_0 v,
   fun x v => roundtrip_bool ERX_L2VLD_isField 32 (by decide) x.bitfield_0 v,
   fun x v => roundtrip_bool ERX_L4F_isField 32 (by decide) x.bitfield_0 v,
   fun x v hv => roundtrip_nat ERX_SPORT_MASK_isField 32 8 (by decide) (by decide) x.bitfield_0 v hv,
   fun x v hv => roundtrip_nat ERX_CRSN_MASK_isField 32 8 (by decide) (by decide) x.bitfield_0 v hv,
   fun x v hv => roundtrip_nat ERX_PPE_ENTRY_MASK_isField 32 16 (by decide) (by decide) x.bitfield_0 v hv,
   fun x v hv => roundtrip_nat ERX_UNKNOWN2_MASK_isField 32 32 (by decide) (by decide) x.bitfield_1 v hv,
   fun x v => roundtrip_bool ERX_UNTAG_isField 32 (by decide) x.bitfield_1 v⟩⟩

/-- C1 at a concrete input: writing 5 into the 13-bit reserved sub-field of a
descriptor whose flag word is all ones and reading it back. -/
theorem codec_round_trip_witness :
    (5 : Nat) < 2 ^ 13 ∧
    get_desc_unknown1 (set_desc_unknown1 ⟨0, 0xFFFF, 0, 0, 0, ⟨0, 0, 0⟩, 0, 0⟩ 5) = 5 :=
  ⟨by decide, codec_round_trip.1.2.2.2.1 ⟨0, 0xFFFF, 0, 0, 0, ⟨0, 0, 0⟩, 0, 0⟩ 5 (by decide)⟩

theorem desc_isField (F : DescField) : IsField (desc_mask F) (desc_lo F) (desc_width F) := by
  cases F <;> decide

theorem desc_independent (F G : DescField) (x : qdma_desc) (v : Nat) (hne : F ≠ G) :
    desc_get G (desc_set F x v) = desc_get G x := by
  have hF := desc_isField F
  have hG := desc_isField G
  cases F <;> cases G <;>
    first
    | exact absurd rfl hne
    | rfl
    | (simp only [desc_mask, desc_lo, desc_width] at hF hG
       simp only [
         desc_get, desc_set, is_desc_done, set_desc_done, is_desc_dropped, set_desc_dropped,
         is_desc_nls, set_desc_nls, get_desc_unknown1, set_desc_unknown1, get_desc_unknown2,
         set_desc_unknown2, get_desc_next_idx, set_desc_next_idx, to_u8, to_u16, to_u32]
       rw [FIELD_GET_FIELD_SET_other hF hG (by decide) _ (by decide)])

theorem etx_isField (F : EtxField) : IsField (etx_mask F) (etx_lo F) (etx_width F) := by
  cases F <;> decide

theorem etx_independent (F G : EtxField) (x : qdma_desc_etx) (v : Nat) (hne : F ≠ G) :
    etx_get G (etx_set F x v) = etx_get G x := by
  have hF := etx_isField F
  have hG := etx_isField G
  cases F <;> cases G <;>
    first
    | exact absurd rfl hne
    | rfl
    | (simp only [etx_mask, etx_lo, etx_width] at hF hG
       simp only [
         etx_get, etx_set, get_etx_unknown0, set_etx_unknown0, get_etx_sp_tag, set_etx_sp_tag,
         is_etx_oam, set_etx_oam, get_etx_channel, set_etx_channel, get_etx_queue, set_etx_queue,
         is_etx_ico, set_etx_ico, is_etx_uco, set_etx_uco, is_etx_tco, set_etx_tco, is_etx_sco,
         set_etx_sco, get_etx_udf_pmap, set_etx_udf_pmap, get_etx_fport, set_etx_fport,
         is_etx_vlan_en, set_etx_vlan_en, get_etx_vlan_type, set_etx_vlan_type, to_u8, to_u16,
         to_u32]
       rw [FIELD_GET_FIELD_SET_other hF hG (by decide) _ (by decide)])

theorem erx_isField (F : ErxField) : IsField (erx_mask F) (erx_lo F) (erx_width F) := by
  cases F <;> decide

theorem erx_independent (F G : ErxField) (x : qdma_desc_erx) (v : Nat) (hne : F ≠ G) :
    erx_get G (erx_set F x v) = erx_get G x := by
  have hF := erx_isField F
  have hG := erx_isField G
  cases F <;> cases G <;>
    first
    | exact absurd rfl hne
    | rfl
    | (simp only [erx_mask, erx_lo, erx_width] at hF hG
       simp only [
         erx_get, erx_set, get_erx_unknown1, set_erx_unknown1, is_erx_ip6, set_erx_ip6,
         is_erx_ip4, set_erx_ip4, is_erx_ip4f, set_erx_ip4f, is_erx_tack, set_erx_tack,
         is_erx_l2vld, set_erx_l2vld, is_erx_l4f, set_erx_l4f, get_erx_sport, set_erx_sport,
         get_erx_crsn, set_erx_crsn, get_erx_ppe_entry, set_erx_ppe_entry, get_erx_unknown2,
         set_erx_unknown2, is_erx_untag, set_erx_untag, to_u8, to_u16, to_u32]
       rw [FIELD_GET_FIELD_SET_other hF hG (by decide) _ (by decide)])

/-- C2. Codec field independence: for each of `qdma_desc`, `qdma_desc_etx` and
`qdma_desc_erx`, every record `x`, every bit-field `F` and every argument `v`,
after the setter of `F` the getter of every other bit-field `G ≠ F` of the record
returns what it returned on `x`, and the plain members (`unknown0`, `pkt_len`,
`pkt_addr` and the payload of `qdma_desc`; `vlan_tag` of the TX variant;
`unknown0`, `sp_tag`, `tci` of the RX variant) are unchanged. -/
theorem codec_field_independence :
    (∀ (F G : DescField) (x : qdma_desc) (v : Nat), F ≠ G →
      desc_get G (desc_set F x v) = desc_get G x) ∧
    (∀ (F : DescField) (x : qdma_desc) (v : Nat),
      (desc_set F x v).unknown0 = x.unknown0 ∧ (desc_set F x v).pkt_len = x.pkt_len ∧
      (desc_set F x v).pkt_addr = x.pkt_addr ∧ (desc_set F x v).t_etx = x.t_etx ∧
      (desc_set F x v).t_raw2 = x.t_raw2 ∧ (desc_set F x v).t_raw3 = x.t_raw3) ∧
    (∀ (F G : EtxField) (x : qdma_desc_etx) (v : Nat), F ≠ G →
      etx_get G (etx_set F x v) = etx_get G x) ∧
    (∀ (F : EtxField) (x : qdma_desc_etx) (v : Nat), (etx_set F x v).vlan_tag = x.vlan_tag) ∧
    (∀ (F G : ErxField) (x : qdma_desc_erx) (v : Nat), F ≠ G →
      erx_get G (erx_set F x v) = erx_get G x) ∧
    (∀ (F : ErxField) (x : qdma_desc_erx) (v : Nat),
      (erx_set F x v).unknown0 = x.unknown0 ∧ (erx_set F x v).sp_tag = x.sp_tag ∧
      (erx_set F x v).tci = x.tci) := by
  refine ⟨fun F G x v h => desc_independent F G x v h, ?_,
    fun F G x v h => etx_independent F G x v h, ?_,
    fun F G x v h => erx_independent F G x v h, ?_⟩
  · intro F x v
    cases F <;> exact ⟨rfl, rfl, rfl, rfl, rfl, rfl⟩
  · intro F x v
    cases F <;> rfl
  · intro F x v
    cases F <;> exact ⟨rfl, rfl, rfl⟩

/-- C2 at a concrete input: writing the too-wide value 9 into `fport` of a TX
record whose words are all ones leaves `vlan_en`, the neighbour just below,
as it was. -/
theorem codec_field_independence_witness :
    EtxField.fport ≠ EtxField.vlan_en ∧
    etx_get .vlan_en (etx_set .fport ⟨0xFFFFFFFF, 0xFFFF, 7⟩ 9)
      = etx_get .vlan_en ⟨0xFFFFFFFF, 0xFFFF, 7⟩ :=
  ⟨by decide,
   codec_field_independence.2.2.1 .fport .vlan_en ⟨0xFFFFFFFF, 0xFFFF, 7⟩ 9 (by decide)⟩

/-- A C `bool` argument is 0 or 1, and converting it to `bool` and back to an
integer does not change it. -/
theorem to_bool_toNat (v : Nat) (hv : v < 2 ^ 1) : (to_bool v).toNat = v := by
  have h2 : v < 2 := hv
  interval_cases v <;> rfl

/-- What `FIELD_SET`, followed by the store into a `W`-bit member, does to the
member: bits outside the mask keep their value, and the bits inside the mask are
the argument truncated to the field width, at the field's position. -/
theorem confinement {m s w : Nat} (h : IsField m s w) (W : Nat) (hW : s + w ≤ W)
    (hW32 : W ≤ 32) (cur v : Nat) (hcur : cur < 2 ^ W) :
    (∀ i, m.testBit i = false → (FIELD_SET cur m v % 2 ^ W).testBit i = cur.testBit i) ∧
    FIELD_SET cur m v % 2 ^ W &&& m = (v % 2 ^ w) <<< s := by
  constructor
  · intro i hi
    rw [h.testBit_mask] at hi
    have hout : ¬ (s ≤ i ∧ i < s + w) := by
      intro hc
      simp [hc.1, hc.2] at hi
    rw [Nat.testBit_mod_two_pow, testBit_FIELD_SET h, if_neg hout]
    by_cases h1 : i < W
    · have h2 : i < 32 := by omega
      simp [h1, h2]
    · have h3 : cur.testBit i = false :=
        Nat.testBit_lt_two_pow (lt_of_lt_of_le hcur (Nat.pow_le_pow_right (by decide) (by omega)))
      simp [h1, h3]
  · apply Nat.eq_of_testBit_eq
    intro i
    rw [Nat.testBit_and, Nat.testBit_mod_two_pow, testBit_FIELD_SET h, h.testBit_mask,
      Nat.testBit_shiftLeft, Nat.testBit_mod_two_pow]
    by_cases h1 : s ≤ i
    · by_cases h2 : i < s + w
      · have h3 : i < W := by omega
        have h4 : i - s < w := by omega
        simp [h1, h2, h3, h4]
      · have h4 : ¬ i - s < w := by omega
        simp [h1, h2, h4]
    · simp [h1]

theorem desc_confined (F : DescField) (x : qdma_desc) (v : Nat)
    (hx : desc_word F x < 2 ^ desc_word_bits F) (hv : v < 2 ^ desc_arg_bits F) :
    (∀ i, (desc_mask F).testBit i = false →
        (desc_word F (desc_set F x v)).testBit i = (desc_word F x).testBit i) ∧
    desc_word F (desc_set F x v) &&& desc_mask F = (v % 2 ^ desc_width F) <<< desc_lo F := by
  have hF := desc_isField F
  cases F <;>
    simp only [desc_word, desc_set, desc_mask, desc_lo, desc_width, desc_word_bits, desc_arg_bits,
      to_u16, to_u32,
      set_desc_done, set_desc_dropped, set_desc_nls, set_desc_unknown1, set_desc_unknown2,
      set_desc_next_idx] at hx hv hF ⊢ <;>
    first
    | (have hb : (to_bool v).toNat = v := to_bool_toNat v hv
       have h := confinement hF _ (by decide) (by decide) _ (to_bool v).toNat hx
       exact ⟨h.1, h.2.trans (by rw [hb])⟩)
    | exact confinement hF _ (by decide) (by decide) _ v hx

theorem etx_confined (F : EtxField) (x : qdma_desc_etx) (v : Nat)
    (hx : etx_word F x < 2 ^ etx_word_bits F) (hv : v < 2 ^ etx_arg_bits F) :
    (∀ i, (etx_mask F).testBit i = false →
        (etx_word F (etx_set F x v)).testBit i = (etx_word F x).testBit i) ∧
    etx_word F (etx_set F x v) &&& etx_mask F = (v % 2 ^ etx_width F) <<< etx_lo F := by
  have hF := etx_isField F
  cases F <;>
    simp only [etx_word, etx_set, etx_mask, etx_lo, etx_width, etx_word_bits, etx_arg_bits,
      to_u16, to_u32,
      set_etx_unknown0, set_etx_sp_tag, set_etx_oam, set_etx_channel, set_etx_queue, set_etx_ico,
      set_etx_uco, set_etx_tco, set_etx_sco, set_etx_udf_pmap, set_etx_fport, set_etx_vlan_en,
      set_etx_vlan_type] at hx hv hF ⊢ <;>
    first
    | (have hb : (to_bool v).toNat = v := to_bool_toNat v hv
       have h := confinement hF _ (by decide) (by decide) _ (to_bool v).toNat hx
       exact ⟨h.1, h.2.trans (by rw [hb])⟩)
    | exact confinement hF _ (by decide) (by decide) _ v hx

theorem erx_confined (F : ErxField) (x : qdma_desc_erx) (v : Nat)
    (hx : erx_word F x < 2 ^ erx_word_bits F) (hv : v < 2 ^ erx_arg_bits F) :
    (∀ i, (erx_mask F).testBit i = false →
        (erx_word F (erx_set F x v)).testBit i = (erx_word F x).testBit i) ∧
    erx_word F (erx_set F x v) &&& erx_mask F = (v % 2 ^ erx_width F) <<< erx_lo F := by
  have hF := erx_isField F
  cases F <;>
    simp only [erx_word, erx_set, erx_mask, erx_lo, erx_width, erx_word_bits, erx_arg_bits,
      to_u16, to_u32,
      set_erx_unknown1, set_erx_ip6, set_erx_ip4, set_erx_ip4f, set_erx_tack, set_erx_l2vld,
      set_erx_l4f, set_erx_sport, set_erx_crsn, set_erx_ppe_entry, set_erx_unknown2,
      set_erx_untag] at hx hv hF ⊢ <;>
    first
    | (have hb : (to_bool v).toNat = v := to_bool_toNat v hv
       have h := confinement hF _ (by decide) (by decide) _ (to_bool v).toNat hx
       exact ⟨h.1, h.2.trans (by rw [hb])⟩)
    | exact confinement hF _ (by decide) (by decide) _ v hx

/-- C3. Mask confinement: for every setter of `qdma_desc.h`, every prior value
of the member it updates (a value of that member's width) and every argument `v`
of its parameter type, also one wider than the field: the mask is the documented
bit range (`width` bits from bit `lo`), the member after the setter agrees with
the prior value on every bit outside the mask, and inside the mask it holds `v`
truncated to the field width, shifted to the field's position. -/
theorem codec_mask_confinement :
    (∀ (F : DescField) (x : qdma_desc) (v : Nat),
      desc_word F x < 2 ^ desc_word_bits F → v < 2 ^ desc_arg_bits F →
      desc_mask F = (2 ^ desc_width F - 1) <<< desc_lo F ∧
      (∀ i, (desc_mask F).testBit i = false →
        (desc_word F (desc_set F x v)).testBit i = (desc_word F x).testBit i) ∧
      desc_word F (desc_set F x v) &&& desc_mask F = (v % 2 ^ desc_width F) <<< desc_lo F) ∧
    (∀ (F : EtxField) (x : qdma_desc_etx) (v : Nat),
      etx_word F x < 2 ^ etx_word_bits F → v < 2 ^ etx_arg_bits F →
      etx_mask F = (2 ^ etx_width F - 1) <<< etx_lo F ∧
      (∀ i, (etx_mask F).testBit i = false →
        (etx_word F (etx_set F x v)).testBit i = (etx_word F x).testBit i) ∧
      etx_word F (etx_set F x v) &&& etx_mask F = (v % 2 ^ etx_width F) <<< etx_lo F) ∧
    (∀ (F : ErxField) (x : qdma_desc_erx) (v : Nat),
      erx_word F x < 2 ^ erx_word_bits F → v < 2 ^ erx_arg_bits F →
      erx_mask F = (2 ^ erx_width F - 1) <<< erx_lo F ∧
      (∀ i, (erx_mask F).testBit i = false →
        (erx_word F (erx_set F x v)).testBit i = (erx_word F x).testBit i) ∧
      erx_word F (erx_set F x v) &&& erx_mask F = (v % 2 ^ erx_width F) <<< erx_lo F) :=
  ⟨fun F x v hx hv => ⟨(desc_isField F).2.1, desc_confined F x v hx hv⟩,
   fun F x v hx hv => ⟨(etx_isField F).2.1, etx_confined F x v hx hv⟩,
   fun F x v hx hv => ⟨(erx_isField F).2.1, erx_confined F x v hx hv⟩⟩

/-- C3 at a concrete input: the too-wide value 9 written into the 3-bit `fport`
field (bits 5..3) of an all-zero TX record is stored as `9 mod 8 = 1` at bit 3. -/
theorem codec_mask_confinement_witness :
    (set_etx_fport ⟨0, 0, 0⟩ 9).bitfield_1 &&& ETX_FPORT_MASK = (9 % 2 ^ 3) <<< 3 ∧
    (set_etx_fport ⟨0, 0, 0⟩ 9).bitfield_1 = 8 :=
  ⟨(codec_mask_confinement.2.1 .fport ⟨0, 0, 0⟩ 9 (by decide) (by decide)).2.2, by decide⟩

/-! ## Frame facts about the engine operations -/

@[simp]
theorem mtk_w32_dscp_ary (eth : Engine) (v r : Nat) :
    (mtk_w32 eth v r).dscp_ary = eth.dscp_ary := rfl

@[simp]
theorem mtk_w32_skb (eth : Engine) (v r : Nat) :
    (mtk_w32 eth v r).dscp_sk_buff_p_ary = eth.dscp_sk_buff_p_ary := rfl

@[simp]
theorem mtk_w32_irq_queue (eth : Engine) (v r : Nat) :
    (mtk_w32 eth v r).irq_queue = eth.irq_queue := rfl

@[simp]
theorem mtk_w32_wlog (eth : Engine) (v r : Nat) :
    (mtk_w32 eth v r).wlog = (r, to_u32 v) :: eth.wlog := rfl

@[simp]
theorem dscp_store_skb (eth : Engine) (p : Nat) (d : qdma_desc) :
    (dscp_store eth p d).dscp_sk_buff_p_ary = eth.dscp_sk_buff_p_ary := rfl

@[simp]
theorem dscp_store_regs (eth : Engine) (p : Nat) (d : qdma_desc) :
    (dscp_store eth p d).regs = eth.regs := rfl

@[simp]
theorem dscp_store_wlog (eth : Engine) (p : Nat) (d : qdma_desc) :
    (dscp_store eth p d).wlog = eth.wlog := rfl

theorem dscp_store_dscp_ary (eth : Engine) (p q : Nat) (d : qdma_desc) :
    (dscp_store eth p d).dscp_ary q = if q = p then d else eth.dscp_ary q := by
  unfold dscp_store
  by_cases h : q = p
  · subst h; simp
  · simp [h]

@[simp]
theorem skb_store_dscp_ary (eth : Engine) (p : Nat) (b : Option sk_buff) :
    (skb_store eth p b).dscp_ary = eth.dscp_ary := rfl

@[simp]
theorem skb_store_regs (eth : Engine) (p : Nat) (b : Option sk_buff) :
    (skb_store eth p b).regs = eth.regs := rfl

@[simp]
theorem skb_store_wlog (eth : Engine) (p : Nat) (b : Option sk_buff) :
    (skb_store eth p b).wlog = eth.wlog := rfl

theorem skb_store_skb (eth : Engine) (p q : Nat) (b : Option sk_buff) :
    (skb_store eth p b).dscp_sk_buff_p_ary q = if q = p then b else eth.dscp_sk_buff_p_ary q := by
  unfold skb_store
  by_cases h : q = p
  · subst h; simp
  · simp [h]

theorem set_desc_done_bitfield_1 (d : qdma_desc) (v : Bool) :
    (set_desc_done d v).bitfield_1 = d.bitfield_1 := rfl

theorem set_desc_done_pkt_len (d : qdma_desc) (v : Bool) :
    (set_desc_done d v).pkt_len = d.pkt_len := rfl

theorem get_desc_next_idx_congr {d d' : qdma_desc} (h : d'.bitfield_1 = d.bitfield_1) :
    get_desc_next_idx d' = get_desc_next_idx d := by
  unfold get_desc_next_idx
  rw [h]

/-- One reclaim iteration changes neither the link word nor the length of any
descriptor. -/
theorem tx0_free_some_step_frame (eth : Engine) (dscp p : Nat) :
    ((tx0_free_some_step eth dscp).1.dscp_ary p).bitfield_1 = (eth.dscp_ary p).bitfield_1 ∧
    ((tx0_free_some_step eth dscp).1.dscp_ary p).pkt_len = (eth.dscp_ary p).pkt_len := by
  unfold tx0_free_some_step
  by_cases ha : (eth.dscp_ary (get_desc_next_idx (eth.dscp_ary dscp))).pkt_addr ≠ 0
  · by_cases hp : p = get_desc_next_idx (eth.dscp_ary dscp)
    · simp [ha, hp, dscp_store_dscp_ary, tx0_free_skb, set_desc_done_bitfield_1,
        set_desc_done_pkt_len]
    · simp [ha, hp, dscp_store_dscp_ary, tx0_free_skb]
  · by_cases hp : p = get_desc_next_idx (eth.dscp_ary dscp)
    · simp [ha, hp, dscp_store_dscp_ary, set_desc_done_bitfield_1, set_desc_done_pkt_len]
    · simp [ha, hp, dscp_store_dscp_ary]

theorem tx0_free_some_frame (eth : Engine) (dscp p : Nat) :
    ((tx0_free_some eth dscp).dscp_ary p).bitfield_1 = (eth.dscp_ary p).bitfield_1 ∧
    ((tx0_free_some eth dscp).dscp_ary p).pkt_len = (eth.dscp_ary p).pkt_len := by
  have h1 := tx0_free_some_step_frame eth dscp p
  have h2 := tx0_free_some_step_frame (tx0_free_some_step eth dscp).1
    (tx0_free_some_step eth dscp).2 p
  have hr : List.range 2 = [0, 1] := by decide
  unfold tx0_free_some
  rw [hr]
  simp only [List.foldl]
  exact ⟨h2.1.trans h1.1, h2.2.trans h1.2⟩

theorem int_to_u32_to_int (x : Nat) : int_to_u32 (to_int x) = x % 2 ^ 32 := by
  unfold int_to_u32 to_int
  norm_num
  split <;> omega

theorem to_dma_addr_lt (x : Nat) : to_dma_addr x < 2 ^ 32 := by
  unfold to_dma_addr to_u32
  exact Nat.mod_lt _ (by decide)

theorem to_u32_of_lt {x : Nat} (h : x < 2 ^ 32) : to_u32 x = x := Nat.mod_eq_of_lt h

/-! ### RX path, state after each function -/

theorem rx0_new_skb_dscp_ary (eth : Engine) (idx : Int) (dscp : Nat) (b : Option sk_buff)
    (m p : Nat) :
    (rx0_new_skb eth idx dscp b m).1.dscp_ary p =
      if b.isSome = true ∧ to_dma_addr m ≠ 0 ∧ p = dscp then
        { eth.dscp_ary dscp with pkt_addr := to_dma_addr m }
      else eth.dscp_ary p := by
  unfold rx0_new_skb
  cases b with
  | none => simp
  | some b =>
    by_cases hm : to_dma_addr m = 0
    · simp [hm]
    · by_cases hp : p = dscp
      · simp [hm, hp, dscp_store_dscp_ary, to_u32_of_lt (to_dma_addr_lt m)]
      · simp [hm, hp, dscp_store_dscp_ary]

/-- The function `rx0_new_skb` changes neither the link word nor the length of any
descriptor. -/
theorem rx0_new_skb_frame (eth : Engine) (idx : Int) (dscp : Nat) (b : Option sk_buff)
    (m p : Nat) :
    ((rx0_new_skb eth idx dscp b m).1.dscp_ary p).bitfield_1 = (eth.dscp_ary p).bitfield_1 ∧
    ((rx0_new_skb eth idx dscp b m).1.dscp_ary p).pkt_len = (eth.dscp_ary p).pkt_len := by
  rw [rx0_new_skb_dscp_ary]
  split
  · next h => rw [h.2.2]; exact ⟨rfl, rfl⟩
  · exact ⟨rfl, rfl⟩

theorem rx0_new_skb_skb (eth : Engine) (idx : Int) (dscp : Nat) (b : Option sk_buff)
    (m p : Nat) :
    (rx0_new_skb eth idx dscp b m).1.dscp_sk_buff_p_ary p =
      if b.isSome = true ∧ to_dma_addr m ≠ 0 ∧ p = ((TX0_DSCP_NUM : Int) + idx).toNat then b
      else eth.dscp_sk_buff_p_ary p := by
  unfold rx0_new_skb
  cases b with
  | none => simp
  | some b =>
    by_cases hm : to_dma_addr m = 0
    · simp [hm]
    · by_cases hp : p = ((TX0_DSCP_NUM : Int) + idx).toNat
      · simp [hm, hp, skb_store_skb]
      · simp [hm, hp, skb_store_skb]

theorem rx0_new_skb_other (eth : Engine) (idx : Int) (dscp : Nat) (b : Option sk_buff) (m : Nat) :
    (rx0_new_skb eth idx dscp b m).1.regs = eth.regs ∧
    (rx0_new_skb eth idx dscp b m).1.wlog = eth.wlog ∧
    (rx0_new_skb eth idx dscp b m).1.irq_queue = eth.irq_queue := by
  unfold rx0_new_skb
  cases b with
  | none => simp
  | some b =>
    by_cases hm : to_dma_addr m = 0
    · simp [hm]
    · simp [hm, dscp_store, skb_store]

theorem rx0_pop_skb_fst (eth : Engine) (idx : Int) (dscp : Nat) (b : Option sk_buff) (m : Nat) :
    (rx0_pop_skb eth idx dscp b m).1 = (rx0_new_skb eth idx dscp b m).1 := by
  unfold rx0_pop_skb
  simp only []
  split <;> rfl

@[simp]
theorem rx0_deliver_dscp_ary (eth : Engine) (s : Option sk_buff) (d : Nat) :
    (rx0_deliver eth s d).dscp_ary = eth.dscp_ary := by
  cases s <;> rfl

@[simp]
theorem rx0_deliver_skb (eth : Engine) (s : Option sk_buff) (d : Nat) :
    (rx0_deliver eth s d).dscp_sk_buff_p_ary = eth.dscp_sk_buff_p_ary := by
  cases s <;> rfl

@[simp]
theorem rx0_deliver_wlog (eth : Engine) (s : Option sk_buff) (d : Nat) :
    (rx0_deliver eth s d).wlog = eth.wlog := by
  cases s <;> rfl

@[simp]
theorem rx0_deliver_regs (eth : Engine) (s : Option sk_buff) (d : Nat) :
    (rx0_deliver eth s d).regs = eth.regs := by
  cases s <;> rfl

/-- Descriptor array after `rx0_done`: only the descriptor of the completed slot is
rewritten. -/
theorem rx0_done_dscp_ary (eth : Engine) (b : Option sk_buff) (m p : Nat) :
    (rx0_done eth b m).dscp_ary p =
      if p = rx0_get_dscp (rx0_done_idx (mtk_r32 eth QDMA_CSR_RX_DMA_IDX)) then
        set_desc_done
          { (rx0_new_skb eth (rx0_done_idx (mtk_r32 eth QDMA_CSR_RX_DMA_IDX))
              (rx0_get_dscp (rx0_done_idx (mtk_r32 eth QDMA_CSR_RX_DMA_IDX))) b m).1.dscp_ary p
            with pkt_len := 1518 } false
      else eth.dscp_ary p := by
  unfold rx0_done rx0_dscp_defaults
  simp only [mtk_w32_dscp_ary, dscp_store_dscp_ary, rx0_deliver_dscp_ary, rx0_pop_skb_fst]
  by_cases hp : p = rx0_get_dscp (rx0_done_idx (mtk_r32 eth QDMA_CSR_RX_DMA_IDX))
  · simp [hp]
  · simp [hp, rx0_new_skb_dscp_ary]

/-- Binding table after `rx0_done`. -/
theorem rx0_done_skb (eth : Engine) (b : Option sk_buff) (m : Nat) :
    (rx0_done eth b m).dscp_sk_buff_p_ary =
      (rx0_new_skb eth (rx0_done_idx (mtk_r32 eth QDMA_CSR_RX_DMA_IDX))
        (rx0_get_dscp (rx0_done_idx (mtk_r32 eth QDMA_CSR_RX_DMA_IDX))) b m).1.dscp_sk_buff_p_ary := by
  unfold rx0_done rx0_dscp_defaults
  simp only [mtk_w32_skb, dscp_store_skb, rx0_deliver_skb, rx0_pop_skb_fst]

/-- The function `rx0_done` leaves the link word of every descriptor unchanged. -/
theorem rx0_done_links (eth : Engine) (b : Option sk_buff) (m p : Nat) :
    ((rx0_done eth b m).dscp_ary p).bitfield_1 = (eth.dscp_ary p).bitfield_1 := by
  rw [rx0_done_dscp_ary]
  split
  · rw [set_desc_done_bitfield_1, rx0_new_skb_dscp_ary]
    split <;> simp_all
  · rfl

/-! ### Completion queue, state after the drain -/

theorem recycle_fold_other (l : List Nat) (eth : Engine) :
    (l.foldl (fun (e : Engine) i =>
      { e with irq_queue := Function.update e.irq_queue i IRQ_DEF_VALUE }) eth).dscp_ary
      = eth.dscp_ary ∧
    (l.foldl (fun (e : Engine) i =>
      { e with irq_queue := Function.update e.irq_queue i IRQ_DEF_VALUE }) eth).dscp_sk_buff_p_ary
      = eth.dscp_sk_buff_p_ary ∧
    (l.foldl (fun (e : Engine) i =>
      { e with irq_queue := Function.update e.irq_queue i IRQ_DEF_VALUE }) eth).wlog
      = eth.wlog ∧
    (l.foldl (fun (e : Engine) i =>
      { e with irq_queue := Function.update e.irq_queue i IRQ_DEF_VALUE }) eth).regs
      = eth.regs := by
  induction l generalizing eth with
  | nil => exact ⟨rfl, rfl, rfl, rfl⟩
  | cons a t ih =>
    simp only [List.foldl]
    exact ih _

/-- The completion-queue drain leaves the descriptor array unchanged. -/
theorem tx0_recycle_dscp_ary (eth : Engine) :
    (tx0_recycle_if_required eth).dscp_ary = eth.dscp_ary := by
  unfold tx0_recycle_if_required
  simp only [mtk_w32_dscp_ary]
  exact (recycle_fold_other _ eth).1

/-! ### TX path, state after `mtk_tx_map` -/

/-- Result of `mtk_tx_map` when the mapping failed. -/
theorem mtk_tx_map_fail (eth : Engine) (skb : sk_buff) (m : Nat) (hm : to_dma_addr m = 0) :
    mtk_tx_map eth skb m =
      (dscp_store
        (dscp_store eth (mtk_r32 eth QDMA_CSR_TX_CPU_IDX % TX0_DSCP_NUM)
          { eth.dscp_ary (mtk_r32 eth QDMA_CSR_TX_CPU_IDX % TX0_DSCP_NUM) with
            t_etx := set_etx_fport
              (eth.dscp_ary (mtk_r32 eth QDMA_CSR_TX_CPU_IDX % TX0_DSCP_NUM)).t_etx 1 })
        (mtk_r32 eth QDMA_CSR_TX_CPU_IDX % TX0_DSCP_NUM)
        { eth.dscp_ary (mtk_r32 eth QDMA_CSR_TX_CPU_IDX % TX0_DSCP_NUM) with
          t_etx := set_etx_fport
            (eth.dscp_ary (mtk_r32 eth QDMA_CSR_TX_CPU_IDX % TX0_DSCP_NUM)).t_etx 1,
          pkt_addr := 0 }, -1) := by
  unfold mtk_tx_map tx0_dscp_pkt_addr tx0_get_dscp
  simp [hm, dscp_store_dscp_ary, int_to_u32]

/-- Result of `mtk_tx_map` when the mapping succeeded. -/
theorem mtk_tx_map_ok (eth : Engine) (skb : sk_buff) (m : Nat) (hm : to_dma_addr m ≠ 0) :
    mtk_tx_map eth skb m =
      (mtk_w32
        (tx0_free_some (tx_written_state eth skb m) (mtk_r32 eth QDMA_CSR_TX_CPU_IDX % TX0_DSCP_NUM))
        (get_desc_next_idx
          ((tx0_free_some (tx_written_state eth skb m)
            (mtk_r32 eth QDMA_CSR_TX_CPU_IDX % TX0_DSCP_NUM)).dscp_ary
            (mtk_r32 eth QDMA_CSR_TX_CPU_IDX % TX0_DSCP_NUM)))
        QDMA_CSR_TX_CPU_IDX, 0) := by
  have h32 : to_dma_addr m % 2 ^ 32 = to_dma_addr m := Nat.mod_eq_of_lt (to_dma_addr_lt m)
  have hst : ∀ (e : Engine) (p : Nat) (d d' : qdma_desc),
      dscp_store (dscp_store e p d) p d' = dscp_store e p d' := by
    intro e p d d'
    unfold dscp_store
    simp
  unfold mtk_tx_map tx0_dscp_pkt_addr tx0_get_dscp
  simp only [hm, if_false, int_to_u32_to_int, h32, dscp_store_dscp_ary, skb_store_dscp_ary,
    if_true]
  unfold tx_written_state tx_written_desc
  simp only [hst]
  have hsw : ∀ (e : Engine) (p q : Nat) (d : qdma_desc) (b : Option sk_buff),
      skb_store (dscp_store e p d) q b = dscp_store (skb_store e q b) p d := by
    intro e p q d b
    rfl
  simp only [hsw, hst]

/-! ## TX ring linkage -/

theorem mtk_tx_map_links (eth : Engine) (skb : sk_buff) (m p : Nat) :
    (((mtk_tx_map eth skb m).1).dscp_ary p).bitfield_1 = (eth.dscp_ary p).bitfield_1 := by
  by_cases hm : to_dma_addr m = 0
  · rw [mtk_tx_map_fail eth skb m hm]
    simp only [dscp_store_dscp_ary]
    split
    · next h => rw [h]
    · rfl
  · rw [mtk_tx_map_ok eth skb m hm]
    simp only [mtk_w32_dscp_ary]
    rw [(tx0_free_some_frame _ _ p).1]
    unfold tx_written_state tx_written_desc
    simp only [dscp_store_dscp_ary, skb_store_dscp_ary]
    split
    · next h => rw [h]
    · rfl

theorem mtk_handle_irq_links (eth : Engine) (b : Option sk_buff) (m p : Nat) :
    ((mtk_handle_irq eth b m).dscp_ary p).bitfield_1 = (eth.dscp_ary p).bitfield_1 := by
  unfold mtk_handle_irq
  simp only [mtk_w32_dscp_ary]
  split
  · exact rx0_done_links eth b m p
  · split
    · rw [tx0_recycle_dscp_ary]
    · rfl

/-- Any state whose descriptors have the link words of a linked state is linked. -/
theorem tx_ring_linked_of_links {eth eth2 : Engine}
    (h : ∀ p, (eth2.dscp_ary p).bitfield_1 = (eth.dscp_ary p).bitfield_1)
    (hl : tx_ring_linked eth) : tx_ring_linked eth2 := by
  intro i hi
  rw [get_desc_next_idx_congr (h i)]
  exact hl i hi

/-- Linking a zeroed descriptor array gives the ring 0 → 1 → 2 → 3 → 0. -/
theorem qdma_initialize_tx_ring_linked (eth : Engine)
    (hz : ∀ p, p < DSCP_NUM → eth.dscp_ary p = zero_desc) :
    tx_ring_linked (qdma_initialize_tx_ring eth) := by
  have hr : List.range (TX0_DSCP_NUM - 1) = [0, 1, 2] := by decide
  have h0 := hz 0 (by decide)
  have h1 := hz 1 (by decide)
  have h2 := hz 2 (by decide)
  have h3 := hz 3 (by decide)
  intro i hi
  unfold qdma_initialize_tx_ring
  rw [hr]
  simp only [List.foldl, dscp_store_dscp_ary]
  have hi4 : i < 4 := hi
  interval_cases i <;> simp [h0, h1, h2, h3] <;> decide

/-- The RX ring initialization leaves the link word of every descriptor unchanged. -/
theorem qdma_initialize_rx_ring_links (eth : Engine) (env : ConfigEnv) (p : Nat) :
    ((qdma_initialize_rx_ring eth env).dscp_ary p).bitfield_1 = (eth.dscp_ary p).bitfield_1 := by
  unfold qdma_initialize_rx_ring
  generalize List.range RX0_DSCP_NUM = l
  induction l generalizing eth with
  | nil => rfl
  | cons a t ih =>
    simp only [List.foldl]
    rw [ih]
    rw [(rx0_new_skb_frame _ _ _ _ _ p).1]
    unfold rx0_dscp_defaults
    rw [dscp_store_dscp_ary]
    split
    · next h => rw [h]
    · rfl

/-- The TX ring is linked when `qdma_config` returns. -/
theorem qdma_config_linked (eth : Engine) (env : ConfigEnv) :
    tx_ring_linked (qdma_config eth env).1 := by
  unfold qdma_config
  simp only [mtk_w32_dscp_ary]
  refine tx_ring_linked_of_links (qdma_initialize_rx_ring_links _ env) ?_
  have hz : tx_ring_linked (qdma_initialize_tx_ring
      { eth with dscp_ary := fun p => if p < DSCP_NUM then zero_desc else eth.dscp_ary p }) := by
    apply qdma_initialize_tx_ring_linked
    intro p hp
    simp [hp]
  exact tx_ring_linked_of_links (fun p => rfl) hz

/-- C4. TX ring linkage: (1) after the descriptor array is zeroed and
`qdma_initialize_tx_ring` has run, `get_desc_next_idx` of TX slot `i` is
`(i + 1) mod 4` for every `i` in 0..3; (2) the linkage is preserved by
`mtk_tx_map` (whatever the mapping returns), by `tx0_free_some`, by `rx0_done`,
by `tx0_recycle_if_required` and by `mtk_handle_irq`; (3) it holds in every
state reachable from `qdma_config`. -/
theorem tx_ring_linkage :
    (∀ eth : Engine, (∀ p, p < DSCP_NUM → eth.dscp_ary p = zero_desc) →
      ∀ i, i < 4 → get_desc_next_idx ((qdma_initialize_tx_ring eth).dscp_ary i) = (i + 1) % 4) ∧
    (∀ eth : Engine, tx_ring_linked eth →
      (∀ skb mapped, tx_ring_linked (mtk_tx_map eth skb mapped).1) ∧
      (∀ dscp, tx_ring_linked (tx0_free_some eth dscp)) ∧
      (∀ new_skb mapped, tx_ring_linked (rx0_done eth new_skb mapped)) ∧
      tx_ring_linked (tx0_recycle_if_required eth) ∧
      (∀ new_skb mapped, tx_ring_linked (mtk_handle_irq eth new_skb mapped))) ∧
    (∀ eth : Engine, Reachable eth → tx_ring_linked eth) := by
  have hpres : ∀ eth : Engine, tx_ring_linked eth →
      (∀ skb mapped, tx_ring_linked (mtk_tx_map eth skb mapped).1) ∧
      (∀ dscp, tx_ring_linked (tx0_free_some eth dscp)) ∧
      (∀ new_skb mapped, tx_ring_linked (rx0_done eth new_skb mapped)) ∧
      tx_ring_linked (tx0_recycle_if_required eth) ∧
      (∀ new_skb mapped, tx_ring_linked (mtk_handle_irq eth new_skb mapped)) := by
    intro eth hl
    refine ⟨?_, ?_, ?_, ?_, ?_⟩
    · intro skb m
      exact tx_ring_linked_of_links (mtk_tx_map_links eth skb m) hl
    · intro dscp
      exact tx_ring_linked_of_links (fun p => (tx0_free_some_frame eth dscp p).1) hl
    · intro b m
      exact tx_ring_linked_of_links (rx0_done_links eth b m) hl
    · exact tx_ring_linked_of_links (fun p => by rw [tx0_recycle_dscp_ary]) hl
    · intro b m
      exact tx_ring_linked_of_links (mtk_handle_irq_links eth b m) hl
  refine ⟨fun eth hz => qdma_initialize_tx_ring_linked eth hz, hpres, ?_⟩
  intro eth hr
  induction hr with
  | init e env => exact qdma_config_linked e env
  | hw_regs e regs _ ih => exact ih
  | tx_map e skb m _ ih => exact (hpres e ih).1 skb m
  | free_some e dscp _ _ ih => exact (hpres e ih).2.1 dscp
  | rx_done e b m _ _ ih => exact (hpres e ih).2.2.1 b m
  | recycle e _ ih => exact (hpres e ih).2.2.2.1
  | handle_irq e b m _ _ ih => exact (hpres e ih).2.2.2.2 b m

/-- C4 at a concrete state: the ring is still linked after `qdma_config`, a
submission of a 42-byte frame and an RX completion with a failed allocation. -/
theorem tx_ring_linkage_witness :
    tx_ring_linked
      (rx0_done (mtk_tx_map (qdma_config zero_engine good_env).1 ⟨1, 42, 0, 0x100⟩ 0x9000).1
        none 0) :=
  tx_ring_linkage.2.2 _
    (Reachable.rx_done _ none 0
      (Reachable.tx_map _ ⟨1, 42, 0, 0x100⟩ 0x9000 (Reachable.init zero_engine good_env))
      (by decide))

/-! ## RX completion -/

theorem rx0_done_idx_in_range (h : Nat) (hh : h < 4) :
    rx0_done_idx h = ((h + 3) % 4 : Nat) ∧ rx0_get_dscp (rx0_done_idx h) = 4 + (h + 3) % 4 := by
  interval_cases h <;> exact ⟨by decide, by decide⟩

/-- C5. RX completed-slot formula: when the RX hardware-index register reads
`h` in 0..3, the slot index `rx0_done` computes is `(h + 3) mod 4`, the slot just
before `h` in ring order; the descriptor and binding it works on are those at
position `4 + (h + 3) mod 4` of the arrays: every other descriptor and binding is
left unchanged, and that descriptor gets the default length 1518 and a cleared
`done` flag. In particular `h = 2` gives slot 1 and `h = 0` gives slot 3. -/
theorem rx_completed_slot (eth : Engine) (new_skb : Option sk_buff) (mapped h : Nat)
    (hh : h < 4) (hr : mtk_r32 eth QDMA_CSR_RX_DMA_IDX = h) :
    rx0_done_idx h = ((h + 3) % 4 : Nat) ∧
    ((h + 3) % 4 + 1) % 4 = h ∧
    rx0_get_dscp (rx0_done_idx h) = TX0_DSCP_NUM + (h + 3) % 4 ∧
    (∀ p, p ≠ TX0_DSCP_NUM + (h + 3) % 4 →
      (rx0_done eth new_skb mapped).dscp_ary p = eth.dscp_ary p ∧
      (rx0_done eth new_skb mapped).dscp_sk_buff_p_ary p = eth.dscp_sk_buff_p_ary p) ∧
    ((rx0_done eth new_skb mapped).dscp_ary (TX0_DSCP_NUM + (h + 3) % 4)).pkt_len = 1518 ∧
    is_desc_done ((rx0_done eth new_skb mapped).dscp_ary (TX0_DSCP_NUM + (h + 3) % 4)) = false ∧
    rx0_done_idx 2 = 1 ∧ rx0_done_idx 0 = 3 := by
  obtain ⟨hidx, hpos⟩ := rx0_done_idx_in_range h hh
  have hpos2 : ((TX0_DSCP_NUM : Int) + rx0_done_idx h).toNat = TX0_DSCP_NUM + (h + 3) % 4 := hpos
  have hT : TX0_DSCP_NUM = 4 := rfl
  refine ⟨hidx, by omega, hpos, ?_, ?_, ?_, by decide, by decide⟩
  · intro p hp
    constructor
    · rw [rx0_done_dscp_ary, hr, hpos, if_neg (by rw [hT] at hp; exact hp)]
    · rw [rx0_done_skb, rx0_new_skb_skb, hr, hpos2, if_neg]
      intro hc
      exact hp hc.2.2
  · rw [rx0_done_dscp_ary, hr, hpos, hT, if_pos rfl]
    rfl
  · rw [rx0_done_dscp_ary, hr, hpos, hT, if_pos rfl]
    exact codec_done_cleared _

/-- C5 at a concrete state: after `qdma_config` the hardware index reads 2, and
`rx0_done` works on slot 1, position 5 of the arrays. -/
theorem rx_completed_slot_witness :
    rx0_done_idx 2 = ((2 + 3) % 4 : Nat) ∧
    ((rx0_done { (qdma_config zero_engine good_env).1 with
        regs := Function.update (qdma_config zero_engine good_env).1.regs QDMA_CSR_RX_DMA_IDX 2 }
      none 0).dscp_ary (TX0_DSCP_NUM + (2 + 3) % 4)).pkt_len = 1518 :=
  have h := rx_completed_slot
    { (qdma_config zero_engine good_env).1 with
      regs := Function.update (qdma_config zero_engine good_env).1.regs QDMA_CSR_RX_DMA_IDX 2 }
    none 0 2 (by decide) (by decide)
  ⟨h.1, h.2.2.2.2.1⟩

/-! ## RX ring occupancy -/

/-- The function `rx0_new_skb` never unbinds a slot. -/
theorem rx0_new_skb_keeps_bound (eth : Engine) (idx : Int) (dscp : Nat) (b : Option sk_buff)
    (m p : Nat) (h : eth.dscp_sk_buff_p_ary p ≠ none) :
    (rx0_new_skb eth idx dscp b m).1.dscp_sk_buff_p_ary p ≠ none := by
  rw [rx0_new_skb_skb]
  split
  · next hc =>
    intro hb
    rw [hb] at hc
    exact absurd hc.1 (by decide)
  · exact h

/-- A successful `rx0_new_skb` binds the slot it was called for. -/
theorem rx0_new_skb_binds (eth : Engine) (i : Nat) (dscp : Nat) (b : Option sk_buff) (m : Nat)
    (hb : b ≠ none) (hm : to_dma_addr m ≠ 0) :
    (rx0_new_skb eth (i : Int) dscp b m).1.dscp_sk_buff_p_ary (TX0_DSCP_NUM + i) ≠ none := by
  have hpos : ((TX0_DSCP_NUM : Int) + (i : Int)).toNat = TX0_DSCP_NUM + i := by
    rw [← Nat.cast_add]
    exact Int.toNat_natCast _
  have hs : b.isSome = true := by
    cases b with
    | none => exact absurd rfl hb
    | some x => rfl
  rw [rx0_new_skb_skb, hpos, if_pos ⟨hs, hm, rfl⟩]
  exact hb

/-- Filling the RX ring over a list of slots binds each listed slot whose
allocation and mapping succeed, and keeps bound what was bound. -/
theorem rx_ring_fill_bound (env : ConfigEnv) (l : List Nat) (eth : Engine) (j : Nat)
    (hok : ∀ i, i ∈ l → env.rx_alloc i ≠ none ∧ to_dma_addr (env.rx_phys i) ≠ 0)
    (hj : j ∈ l ∨ eth.dscp_sk_buff_p_ary (TX0_DSCP_NUM + j) ≠ none) :
    (l.foldl
      (fun (e : Engine) (i : Nat) =>
        let dscp := rx0_get_dscp (i : Int)
        let e := rx0_dscp_defaults e dscp
        (rx0_new_skb e (i : Int) dscp (env.rx_alloc i) (env.rx_phys i)).1) eth).dscp_sk_buff_p_ary
      (TX0_DSCP_NUM + j) ≠ none := by
  induction l generalizing eth with
  | nil =>
    rcases hj with hj | hj
    · exact absurd hj (List.not_mem_nil j)
    · exact hj
  | cons a t ih =>
    simp only [List.foldl]
    apply ih
    · intro i hi
      exact hok i (List.mem_cons_of_mem a hi)
    · by_cases hjt : j ∈ t
      · exact Or.inl hjt
      · right
        rcases hj with hj | hj
        · have hja : j = a := by
            rcases List.mem_cons.mp hj with h | h
            · exact h
            · exact absurd h hjt
          subst hja
          exact rx0_new_skb_binds _ j _ _ _ (hok j (List.mem_cons_self j t)).1
            (hok j (List.mem_cons_self j t)).2
        · exact rx0_new_skb_keeps_bound _ _ _ _ _ _ hj

theorem qdma_initialize_rx_ring_full (eth : Engine) (env : ConfigEnv)
    (hok : ∀ i, i < RX0_DSCP_NUM → env.rx_alloc i ≠ none ∧ to_dma_addr (env.rx_phys i) ≠ 0) :
    rx_ring_full (qdma_initialize_rx_ring eth env) := by
  intro j hj
  unfold qdma_initialize_rx_ring
  apply rx_ring_fill_bound
  · intro i hi
    exact hok i (List.mem_range.mp hi)
  · exact Or.inl (List.mem_range.mpr hj)

/-- C6. RX ring occupancy: (1) if every allocation and mapping made by
`qdma_initialize_rx_ring` succeeds, all 4 RX slots have a bound buffer after it,
and still have one when `qdma_config` returns; (2) `rx0_done`, entered with an
in-range hardware index, preserves this whatever the replacement allocation and
mapping return (success or failure). -/
theorem rx_ring_occupancy :
    (∀ (eth : Engine) (env : ConfigEnv),
      (∀ i, i < RX0_DSCP_NUM → env.rx_alloc i ≠ none ∧ to_dma_addr (env.rx_phys i) ≠ 0) →
      rx_ring_full (qdma_initialize_rx_ring eth env) ∧ rx_ring_full (qdma_config eth env).1) ∧
    (∀ (eth : Engine) (new_skb : Option sk_buff) (mapped : Nat),
      rx_ring_full eth → mtk_r32 eth QDMA_CSR_RX_DMA_IDX < RX0_DSCP_NUM →
      rx_ring_full (rx0_done eth new_skb mapped)) := by
  constructor
  · intro eth env hok
    refine ⟨qdma_initialize_rx_ring_full eth env hok, ?_⟩
    unfold qdma_config
    simp only [mtk_w32_skb]
    exact qdma_initialize_rx_ring_full _ env hok
  · intro eth b m hfull _ j hj
    rw [rx0_done_skb]
    exact rx0_new_skb_keeps_bound _ _ _ _ _ _ (hfull j hj)

/-- C6 at a concrete state: after a `qdma_config` in which every allocation
succeeds, an RX completion whose replacement allocation fails leaves all 4 RX
slots bound. -/
theorem rx_ring_occupancy_witness :
    rx_ring_full (rx0_done (qdma_config zero_engine good_env).1 none 0) :=
  rx_ring_occupancy.2 _ none 0
    ((rx_ring_occupancy.1 zero_engine good_env (by
      intro i hi
      have hi4 : i < 4 := hi
      interval_cases i <;> exact ⟨by decide, by decide⟩)).2)
    (by decide)

/-! ## TX minimum length -/

/-- Head length of a linear frame after the padding step. -/
theorem mtk_tx_pad_headlen (skb : sk_buff) (hlin : skb.data_len = 0) (hlen : skb.len ≤ 65535) :
    to_u16 (skb_headlen (mtk_tx_pad skb)) = max skb.len 60 := by
  unfold mtk_tx_pad skb_headlen skb_put skb_padto to_u16 to_u32
  by_cases h : skb.len < 60
  · simp only [h, if_true, hlin]
    have h1 : skb.len + (60 - skb.len) = 60 := by omega
    rw [h1, max_eq_right (by omega)]
    decide
  · simp only [h, if_false, hlin]
    rw [max_eq_left (by omega), Nat.sub_zero]
    exact Nat.mod_eq_of_lt (by omega)

/-- C7. TX minimum length: for every linear outbound frame of length
`L ≤ 65535` whose mapping succeeds, `mtk_tx_map` returns 0 and the descriptor of
the selected slot (TX cpu-index register mod 4) holds `pkt_len = max L 60` when it
returns. -/
theorem tx_minimum_length (eth : Engine) (skb : sk_buff) (mapped : Nat)
    (hlin : skb.data_len = 0) (hlen : skb.len ≤ 65535) (hmap : to_dma_addr mapped ≠ 0) :
    (mtk_tx_map eth skb mapped).2 = 0 ∧
    ((mtk_tx_map eth skb mapped).1.dscp_ary
      (mtk_r32 eth QDMA_CSR_TX_CPU_IDX % TX0_DSCP_NUM)).pkt_len = max skb.len 60 := by
  rw [mtk_tx_map_ok eth skb mapped hmap]
  refine ⟨rfl, ?_⟩
  simp only [mtk_w32_dscp_ary]
  rw [(tx0_free_some_frame _ _ _).2]
  unfold tx_written_state
  rw [dscp_store_dscp_ary, if_pos rfl]
  exact mtk_tx_pad_headlen skb hlin hlen

/-- C7 at concrete frames: after `qdma_config`, a 42-byte frame is recorded with
length 60 and a 100-byte frame with length 100. -/
theorem tx_minimum_length_witness :
    ((mtk_tx_map (qdma_config zero_engine good_env).1 ⟨1, 42, 0, 0x100⟩ 0x9000).1.dscp_ary 0).pkt_len
      = 60 ∧
    ((mtk_tx_map (qdma_config zero_engine good_env).1 ⟨1, 100, 0, 0x100⟩ 0x9000).1.dscp_ary 0).pkt_len
      = 100 :=
  ⟨(tx_minimum_length (qdma_config zero_engine good_env).1 ⟨1, 42, 0, 0x100⟩ 0x9000 rfl
      (by decide) (by decide)).2,
   (tx_minimum_length (qdma_config zero_engine good_env).1 ⟨1, 100, 0, 0x100⟩ 0x9000 rfl
      (by decide) (by decide)).2⟩

/-! ## Completion-queue drain -/

/-- The entry count is the 12-bit field at bits 27..16 of the status value. -/
theorem irq_status_entry_len_eq (val : Nat) :
    irq_status_entry_len val = val / 2 ^ 16 % 2 ^ 12 := by
  unfold irq_status_entry_len IRQ_STATUS_ENTRY_LEN_MASK IRQ_STATUS_ENTRY_LEN_SHIFT
  apply Nat.eq_of_testBit_eq
  intro j
  have hm : (0xFFF : Nat) = 2 ^ 12 - 1 := by decide
  rw [Nat.testBit_shiftRight, Nat.testBit_and, Nat.testBit_shiftLeft, hm,
    Nat.testBit_two_pow_sub_one, Nat.testBit_mod_two_pow, ← Nat.shiftRight_eq_div_pow,
    Nat.testBit_shiftRight]
  have h1 : 16 + j - 16 = j := by omega
  have h2 : 16 + j ≥ 16 := by omega
  simp [h1, h2, Bool.and_comm]

/-- The queue after the fill loop over `0 .. len - 1`. -/
theorem recycle_fold_irq_queue (len : Nat) (eth : Engine) (i : Nat) :
    ((List.range len).foldl (fun (e : Engine) i =>
      { e with irq_queue := Function.update e.irq_queue i IRQ_DEF_VALUE }) eth).irq_queue i
      = if i < len then IRQ_DEF_VALUE else eth.irq_queue i := by
  induction len with
  | zero => simp
  | succ n ih =>
    rw [List.range_succ, List.foldl_append]
    simp only [List.foldl]
    by_cases hi : i = n
    · subst hi
      simp
    · rw [Function.update_noteq hi, ih]
      have : (i < n + 1) ↔ (i < n) := by omega
      simp [this]

/-- C8. Completion-queue drain: for every value of the IRQ status register, with
`len` its entry-count field (bits 27..16), `tx0_recycle_if_required` leaves the
sentinel `0xFFFFFFFF` in the `len` queue words `irq_queue[0 .. len-1]`, leaves
every other queue word unchanged, and makes exactly one register write, of
`len & 0x7F` (that is `len mod 128`) to the clear-length register. -/
theorem completion_queue_drain (eth : Engine) :
    irq_status_entry_len (mtk_r32 eth QDMA_CSR_IRQ_STATUS)
      = mtk_r32 eth QDMA_CSR_IRQ_STATUS / 2 ^ 16 % 2 ^ 12 ∧
    (∀ i, i < irq_status_entry_len (mtk_r32 eth QDMA_CSR_IRQ_STATUS) →
      (tx0_recycle_if_required eth).irq_queue i = 0xFFFFFFFF) ∧
    (∀ i, irq_status_entry_len (mtk_r32 eth QDMA_CSR_IRQ_STATUS) ≤ i →
      (tx0_recycle_if_required eth).irq_queue i = eth.irq_queue i) ∧
    (tx0_recycle_if_required eth).wlog =
      (QDMA_CSR_IRQ_CLEAR_LEN, irq_status_entry_len (mtk_r32 eth QDMA_CSR_IRQ_STATUS) &&& 0x7F)
        :: eth.wlog ∧
    irq_status_entry_len (mtk_r32 eth QDMA_CSR_IRQ_STATUS) &&& 0x7F
      = irq_status_entry_len (mtk_r32 eth QDMA_CSR_IRQ_STATUS) % 128 := by
  have hmask : ∀ n : Nat, n &&& 0x7F = n % 128 := by
    intro n
    have h7 : (0x7F : Nat) = 2 ^ 7 - 1 := by decide
    rw [h7, Nat.and_pow_two_sub_one_eq_mod]
  refine ⟨irq_status_entry_len_eq _, ?_, ?_, ?_, hmask _⟩
  · intro i hi
    unfold tx0_recycle_if_required
    simp only [mtk_w32_irq_queue]
    rw [recycle_fold_irq_queue, if_pos hi]
    rfl
  · intro i hi
    unfold tx0_recycle_if_required
    simp only [mtk_w32_irq_queue]
    rw [recycle_fold_irq_queue, if_neg (by omega)]
  · unfold tx0_recycle_if_required
    simp only [mtk_w32_wlog]
    rw [(recycle_fold_other _ eth).2.2.1, hmask]
    congr 2
    unfold to_u32
    exact Nat.mod_eq_of_lt (lt_of_lt_of_le (Nat.mod_lt _ (by decide)) (by decide))

/-- C8 at a concrete state: with an entry count of 200, beyond the 7-bit
clear-length field, words 0..199 hold the sentinel, word 200 is untouched and
`200 & 0x7F = 72` is written to the clear-length register. -/
theorem completion_queue_drain_witness :
    (tx0_recycle_if_required drain_state).irq_queue 199 = 0xFFFFFFFF ∧
    (tx0_recycle_if_required drain_state).irq_queue 200 = 0 ∧
    (tx0_recycle_if_required drain_state).wlog = [(QDMA_CSR_IRQ_CLEAR_LEN, 72)] :=
  ⟨(completion_queue_drain drain_state).2.1 199 (by decide),
   (completion_queue_drain drain_state).2.2.1 200 (by decide),
   (completion_queue_drain drain_state).2.2.2.1⟩

/-! ## Interrupt dispatcher -/

theorem and_BIT_ne_zero (x k : Nat) (hk : k < 32) : x &&& BIT k ≠ 0 ↔ x.testBit k = true := by
  have hb : BIT k = 2 ^ k := by
    unfold BIT to_ulong BITS_PER_LONG
    rw [Nat.one_shiftLeft]
    exact Nat.mod_eq_of_lt (Nat.pow_lt_pow_right (by decide) hk)
  rw [hb, Nat.and_two_pow]
  cases x.testBit k <;> simp

theorem new_writes_of_append {eth0 eth : Engine} (l : List (Nat × Nat))
    (h : eth.wlog = l ++ eth0.wlog) : new_writes eth0 eth = l := by
  unfold new_writes
  rw [h, List.length_append, Nat.add_sub_cancel]
  exact List.take_left l eth0.wlog

theorem rx0_done_wlog (eth : Engine) (b : Option sk_buff) (m : Nat) :
    (rx0_done eth b m).wlog =
      (QDMA_CSR_RX_CPU_IDX, to_u32 (int_to_u32 (rx0_done_idx (mtk_r32 eth QDMA_CSR_RX_DMA_IDX))))
        :: eth.wlog := by
  unfold rx0_done rx0_dscp_defaults
  simp only [mtk_w32_wlog, dscp_store_wlog, rx0_deliver_wlog, rx0_pop_skb_fst]
  rw [(rx0_new_skb_other _ _ _ _ _).2.1]

theorem tx0_recycle_wlog (eth : Engine) :
    (tx0_recycle_if_required eth).wlog =
      (QDMA_CSR_IRQ_CLEAR_LEN,
        to_u32 (irq_status_entry_len (mtk_r32 eth QDMA_CSR_IRQ_STATUS) &&& 0x7F)) :: eth.wlog := by
  unfold tx0_recycle_if_required
  simp only [mtk_w32_wlog]
  rw [(recycle_fold_other _ eth).2.2.1]

/-- The three branches of `mtk_handle_irq`, by the RX-done and TX-done bits. -/
theorem mtk_handle_irq_cases (eth : Engine) (b : Option sk_buff) (m : Nat) :
    ((mtk_r32 eth MTK_QDMA_INT_STATUS).testBit 1 = true →
      mtk_handle_irq eth b m =
        mtk_w32 (rx0_done eth b m)
          (mtk_r32 eth MTK_QDMA_INT_STATUS &&& mtk_r32 eth MTK_QDMA_INT_MASK)
          MTK_QDMA_INT_STATUS) ∧
    ((mtk_r32 eth MTK_QDMA_INT_STATUS).testBit 1 = false →
      (mtk_r32 eth MTK_QDMA_INT_STATUS).testBit 0 = true →
      mtk_handle_irq eth b m =
        mtk_w32 (tx0_recycle_if_required eth)
          (mtk_r32 eth MTK_QDMA_INT_STATUS &&& mtk_r32 eth MTK_QDMA_INT_MASK)
          MTK_QDMA_INT_STATUS) ∧
    ((mtk_r32 eth MTK_QDMA_INT_STATUS).testBit 1 = false →
      (mtk_r32 eth MTK_QDMA_INT_STATUS).testBit 0 = false →
      mtk_handle_irq eth b m =
        mtk_w32 eth (mtk_r32 eth MTK_QDMA_INT_STATUS &&& mtk_r32 eth MTK_QDMA_INT_MASK)
          MTK_QDMA_INT_STATUS) := by
  have h1 := and_BIT_ne_zero (mtk_r32 eth MTK_QDMA_INT_STATUS) 1 (by decide)
  have h0 := and_BIT_ne_zero (mtk_r32 eth MTK_QDMA_INT_STATUS) 0 (by decide)
  refine ⟨?_, ?_, ?_⟩
  · intro hb
    unfold mtk_handle_irq INT_STATUS_RX0_DONE
    simp only [if_pos (h1.mpr hb)]
  · intro hb1 hb0
    have hn1 : ¬ (mtk_r32 eth MTK_QDMA_INT_STATUS &&& BIT 1 ≠ 0) := by
      rw [h1, hb1]; decide
    unfold mtk_handle_irq INT_STATUS_RX0_DONE INT_STATUS_TX0_DONE
    simp only [if_neg hn1, if_pos (h0.mpr hb0)]
  · intro hb1 hb0
    have hn1 : ¬ (mtk_r32 eth MTK_QDMA_INT_STATUS &&& BIT 1 ≠ 0) := by
      rw [h1, hb1]; decide
    have hn0 : ¬ (mtk_r32 eth MTK_QDMA_INT_STATUS &&& BIT 0 ≠ 0) := by
      rw [h0, hb0]; decide
    unfold mtk_handle_irq INT_STATUS_RX0_DONE INT_STATUS_TX0_DONE
    simp only [if_neg hn1, if_neg hn0]

/-- The registers `mtk_handle_irq` writes, newest first, in each of its branches. -/
theorem mtk_handle_irq_written (eth : Engine) (b : Option sk_buff) (m : Nat) :
    ((mtk_r32 eth MTK_QDMA_INT_STATUS).testBit 1 = true →
      written_regs eth (mtk_handle_irq eth b m) = [MTK_QDMA_INT_STATUS, QDMA_CSR_RX_CPU_IDX]) ∧
    ((mtk_r32 eth MTK_QDMA_INT_STATUS).testBit 1 = false →
      (mtk_r32 eth MTK_QDMA_INT_STATUS).testBit 0 = true →
      written_regs eth (mtk_handle_irq eth b m) = [MTK_QDMA_INT_STATUS, QDMA_CSR_IRQ_CLEAR_LEN]) ∧
    ((mtk_r32 eth MTK_QDMA_INT_STATUS).testBit 1 = false →
      (mtk_r32 eth MTK_QDMA_INT_STATUS).testBit 0 = false →
      written_regs eth (mtk_handle_irq eth b m) = [MTK_QDMA_INT_STATUS]) := by
  obtain ⟨hrx, htx, hno⟩ := mtk_handle_irq_cases eth b m
  refine ⟨?_, ?_, ?_⟩
  · intro hb
    unfold written_regs
    rw [new_writes_of_append [_, _] (by rw [hrx hb, mtk_w32_wlog, rx0_done_wlog]; rfl)]
    rfl
  · intro hb1 hb0
    unfold written_regs
    rw [new_writes_of_append [_, _] (by rw [htx hb1 hb0, mtk_w32_wlog, tx0_recycle_wlog]; rfl)]
    rfl
  · intro hb1 hb0
    unfold written_regs
    rw [new_writes_of_append [_] (by rw [hno hb1 hb0, mtk_w32_wlog]; rfl)]
    rfl

/-- C9. Dispatcher routing with RX priority: for every status register value,
`mtk_handle_irq` is `rx0_done` followed by the acknowledgement when the RX-done
bit (bit 1) is set, `tx0_recycle_if_required` followed by the acknowledgement when
RX-done is clear and TX-done (bit 0) is set, and the acknowledgement alone when
both are clear. Seen on the register writes it makes: the RX cpu-index register
(written by the RX path) is written iff RX-done is set, the clear-length register
(written by the drain) is written iff RX-done is clear and TX-done is set, and
never both in one invocation. -/
theorem dispatcher_routing (eth : Engine) (new_skb : Option sk_buff) (mapped : Nat) :
    ((mtk_r32 eth MTK_QDMA_INT_STATUS).testBit 1 = true →
      mtk_handle_irq eth new_skb mapped =
        mtk_w32 (rx0_done eth new_skb mapped)
          (mtk_r32 eth MTK_QDMA_INT_STATUS &&& mtk_r32 eth MTK_QDMA_INT_MASK)
          MTK_QDMA_INT_STATUS) ∧
    ((mtk_r32 eth MTK_QDMA_INT_STATUS).testBit 1 = false →
      (mtk_r32 eth MTK_QDMA_INT_STATUS).testBit 0 = true →
      mtk_handle_irq eth new_skb mapped =
        mtk_w32 (tx0_recycle_if_required eth)
          (mtk_r32 eth MTK_QDMA_INT_STATUS &&& mtk_r32 eth MTK_QDMA_INT_MASK)
          MTK_QDMA_INT_STATUS) ∧
    ((mtk_r32 eth MTK_QDMA_INT_STATUS).testBit 1 = false →
      (mtk_r32 eth MTK_QDMA_INT_STATUS).testBit 0 = false →
      mtk_handle_irq eth new_skb mapped =
        mtk_w32 eth (mtk_r32 eth MTK_QDMA_INT_STATUS &&& mtk_r32 eth MTK_QDMA_INT_MASK)
          MTK_QDMA_INT_STATUS) ∧
    (QDMA_CSR_RX_CPU_IDX ∈ written_regs eth (mtk_handle_irq eth new_skb mapped) ↔
      (mtk_r32 eth MTK_QDMA_INT_STATUS).testBit 1 = true) ∧
    (QDMA_CSR_IRQ_CLEAR_LEN ∈ written_regs eth (mtk_handle_irq eth new_skb mapped) ↔
      ((mtk_r32 eth MTK_QDMA_INT_STATUS).testBit 1 = false ∧
        (mtk_r32 eth MTK_QDMA_INT_STATUS).testBit 0 = true)) ∧
    ¬ (QDMA_CSR_RX_CPU_IDX ∈ written_regs eth (mtk_handle_irq eth new_skb mapped) ∧
       QDMA_CSR_IRQ_CLEAR_LEN ∈ written_regs eth (mtk_handle_irq eth new_skb mapped)) := by
  obtain ⟨hrx, htx, hno⟩ := mtk_handle_irq_cases eth new_skb mapped
  obtain ⟨wrx, wtx, wno⟩ := mtk_handle_irq_written eth new_skb mapped
  refine ⟨hrx, htx, hno, ?_, ?_, ?_⟩
  all_goals
    cases hb1 : (mtk_r32 eth MTK_QDMA_INT_STATUS).testBit 1 <;>
    cases hb0 : (mtk_r32 eth MTK_QDMA_INT_STATUS).testBit 0 <;>
    first
    | (rw [wrx hb1]; decide)
    | (rw [wtx hb1 hb0]; decide)
    | (rw [wno hb1 hb0]; decide)

/-- C9 at a concrete state: with RX-done and TX-done both pending, only the RX
path runs. -/
theorem dispatcher_routing_witness :
    mtk_handle_irq irq_both_state none 0 =
      mtk_w32 (rx0_done irq_both_state none 0)
        (mtk_r32 irq_both_state MTK_QDMA_INT_STATUS &&& mtk_r32 irq_both_state MTK_QDMA_INT_MASK)
        MTK_QDMA_INT_STATUS :=
  (dispatcher_routing irq_both_state none 0).1 (by decide)

theorem mtk_r32_lt (eth : Engine) (r : Nat) : mtk_r32 eth r < 2 ^ 32 := by
  unfold mtk_r32 to_u32
  exact Nat.mod_lt _ (by decide)

theorem mtk_handle_irq_wlog_head (eth : Engine) (b : Option sk_buff) (m : Nat) :
    (mtk_handle_irq eth b m).wlog.head? =
      some (MTK_QDMA_INT_STATUS,
        mtk_r32 eth MTK_QDMA_INT_STATUS &&& mtk_r32 eth MTK_QDMA_INT_MASK) := by
  have hlt : mtk_r32 eth MTK_QDMA_INT_STATUS &&& mtk_r32 eth MTK_QDMA_INT_MASK < 2 ^ 32 :=
    lt_of_le_of_lt Nat.and_le_left (mtk_r32_lt eth _)
  unfold mtk_handle_irq
  simp only [mtk_w32_wlog, List.head?_cons, to_u32_of_lt hlt]

/-- C10 as stated fails: with RX-done and TX-done both pending and enabled
(status = mask = 3), only the RX path runs (the registers written are the RX
cpu-index and the interrupt status, the clear-length register is not written),
yet the value written back to the interrupt status register is 3, which
acknowledges the TX-done bit that was not serviced; the specification's
acknowledgement would be 2. -/
theorem irq_ack_counterexample :
    written_regs irq_both_state (mtk_handle_irq irq_both_state none 0)
      = [MTK_QDMA_INT_STATUS, QDMA_CSR_RX_CPU_IDX] ∧
    (mtk_handle_irq irq_both_state none 0).wlog.head? = some (MTK_QDMA_INT_STATUS, 3) ∧
    spec_ack_value (mtk_r32 irq_both_state MTK_QDMA_INT_MASK)
      (mtk_r32 irq_both_state MTK_QDMA_INT_STATUS) = 2 ∧
    (mtk_handle_irq irq_both_state none 0).wlog.head? ≠
      some (MTK_QDMA_INT_STATUS,
        spec_ack_value (mtk_r32 irq_both_state MTK_QDMA_INT_MASK)
          (mtk_r32 irq_both_state MTK_QDMA_INT_STATUS)) := by
  decide

/-- C10, amended. For every pair of mask and status register values, the last
register write of `mtk_handle_irq` is to the interrupt status register and its
value is `status AND mask`: bit `i` is acknowledged iff it is pending and enabled,
whether or not its condition was serviced. It contains every bit of the
specification's acknowledgement (the serviced condition's bit, when enabled). -/
theorem irq_ack_pending_enabled (eth : Engine) (new_skb : Option sk_buff) (mapped : Nat) :
    (mtk_handle_irq eth new_skb mapped).wlog.head? =
      some (MTK_QDMA_INT_STATUS,
        mtk_r32 eth MTK_QDMA_INT_STATUS &&& mtk_r32 eth MTK_QDMA_INT_MASK) ∧
    (∀ i, (mtk_r32 eth MTK_QDMA_INT_STATUS &&& mtk_r32 eth MTK_QDMA_INT_MASK).testBit i =
      ((mtk_r32 eth MTK_QDMA_INT_STATUS).testBit i && (mtk_r32 eth MTK_QDMA_INT_MASK).testBit i)) ∧
    (∀ i, (spec_ack_value (mtk_r32 eth MTK_QDMA_INT_MASK)
        (mtk_r32 eth MTK_QDMA_INT_STATUS)).testBit i = true →
      (mtk_r32 eth MTK_QDMA_INT_STATUS &&& mtk_r32 eth MTK_QDMA_INT_MASK).testBit i = true) := by
  refine ⟨mtk_handle_irq_wlog_head eth new_skb mapped, fun i => Nat.testBit_and _ _ i, ?_⟩
  intro i hi
  have h1 := and_BIT_ne_zero (mtk_r32 eth MTK_QDMA_INT_STATUS) 1 (by decide)
  have h0 := and_BIT_ne_zero (mtk_r32 eth MTK_QDMA_INT_STATUS) 0 (by decide)
  have hB1 : BIT 1 = 2 ^ 1 := by decide
  have hB0 : BIT 0 = 2 ^ 0 := by decide
  unfold spec_ack_value INT_STATUS_RX0_DONE INT_STATUS_TX0_DONE at hi
  rw [Nat.testBit_and] at hi ⊢
  by_cases hrx : mtk_r32 eth MTK_QDMA_INT_STATUS &&& BIT 1 ≠ 0
  · rw [if_pos hrx, hB1, Nat.testBit_two_pow] at hi
    have hi1 : i = 1 := by
      by_contra hne
      have : decide (1 = i) = false := by simp [Ne.symm hne]
      rw [this] at hi
      simp at hi
    subst hi1
    rw [h1.mp hrx]
    simpa using hi
  · rw [if_neg hrx] at hi
    by_cases htx : mtk_r32 eth MTK_QDMA_INT_STATUS &&& BIT 0 ≠ 0
    · rw [if_pos htx, hB0, Nat.testBit_two_pow] at hi
      have hi0 : i = 0 := by
        by_contra hne
        have : decide (0 = i) = false := by simp [Ne.symm hne]
        rw [this] at hi
        simp at hi
      subst hi0
      rw [h0.mp htx]
      simpa using hi
    · rw [if_neg htx] at hi
      simp at hi

/-! ## TX mapping failure -/

theorem xmit_drop_fields (eth : Engine) (skb : sk_buff) :
    (xmit_drop eth skb).1.tx_dropped = to_ulong (eth.tx_dropped + 1) ∧
    (xmit_drop eth skb).1.dscp_sk_buff_p_ary = eth.dscp_sk_buff_p_ary ∧
    (xmit_drop eth skb).1.wlog = eth.wlog ∧
    (xmit_drop eth skb).1.freed = some skb :: eth.freed ∧
    (xmit_drop eth skb).2 = NETDEV_TX_OK :=
  ⟨rfl, rfl, rfl, rfl, rfl⟩

/-- What a failed `mtk_tx_map` leaves behind: no register write, no binding, no
change of the counters and logs. -/
theorem mtk_tx_map_fail_fields (eth : Engine) (skb : sk_buff) (m : Nat)
    (hm : to_dma_addr m = 0) :
    (mtk_tx_map eth skb m).2 = -1 ∧
    (mtk_tx_map eth skb m).1.wlog = eth.wlog ∧
    (mtk_tx_map eth skb m).1.regs = eth.regs ∧
    (mtk_tx_map eth skb m).1.dscp_sk_buff_p_ary = eth.dscp_sk_buff_p_ary ∧
    (mtk_tx_map eth skb m).1.tx_dropped = eth.tx_dropped ∧
    (mtk_tx_map eth skb m).1.freed = eth.freed := by
  rw [mtk_tx_map_fail eth skb m hm]
  exact ⟨rfl, rfl, rfl, rfl, rfl, rfl⟩

/-- C11. TX mapping failure: whenever the mapper returns 0 for the outbound
frame, `mtk_tx_map` returns a negative value (-1), writes no register (so not the
TX cpu-index register, whose content stays as it was) and leaves the binding
table unchanged; `mtk_start_xmit` then leaves the binding table and the
registers unchanged, releases the frame, returns `NETDEV_TX_OK` and increments
`tx_dropped` by one (in `unsigned long` arithmetic: exactly one unless the
counter was at its maximum). -/
theorem tx_mapping_failure (eth : Engine) (skb : sk_buff) (mapped : Nat)
    (hfail : to_dma_addr mapped = 0) :
    (mtk_tx_map eth skb mapped).2 < 0 ∧
    (mtk_tx_map eth skb mapped).1.wlog = eth.wlog ∧
    mtk_r32 (mtk_tx_map eth skb mapped).1 QDMA_CSR_TX_CPU_IDX = mtk_r32 eth QDMA_CSR_TX_CPU_IDX ∧
    (mtk_tx_map eth skb mapped).1.dscp_sk_buff_p_ary = eth.dscp_sk_buff_p_ary ∧
    (mtk_start_xmit eth skb mapped).1.tx_dropped = to_ulong (eth.tx_dropped + 1) ∧
    (eth.tx_dropped + 1 < 2 ^ 32 →
      (mtk_start_xmit eth skb mapped).1.tx_dropped = eth.tx_dropped + 1) ∧
    (mtk_start_xmit eth skb mapped).1.dscp_sk_buff_p_ary = eth.dscp_sk_buff_p_ary ∧
    (mtk_start_xmit eth skb mapped).1.wlog = eth.wlog ∧
    (mtk_start_xmit eth skb mapped).1.freed.length = eth.freed.length + 1 ∧
    (mtk_start_xmit eth skb mapped).2 = NETDEV_TX_OK := by
  obtain ⟨hr, hw, hregs, hb, hd, hf⟩ := mtk_tx_map_fail_fields eth skb mapped hfail
  have hneg : (mtk_tx_map eth skb mapped).2 < 0 := by rw [hr]; decide
  have hx : (mtk_start_xmit eth skb mapped).1.tx_dropped = to_ulong (eth.tx_dropped + 1) ∧
      (mtk_start_xmit eth skb mapped).1.dscp_sk_buff_p_ary = eth.dscp_sk_buff_p_ary ∧
      (mtk_start_xmit eth skb mapped).1.wlog = eth.wlog ∧
      (mtk_start_xmit eth skb mapped).1.freed.length = eth.freed.length + 1 ∧
      (mtk_start_xmit eth skb mapped).2 = NETDEV_TX_OK := by
    unfold mtk_start_xmit
    by_cases hres : eth.resetting = true
    · rw [if_pos hres]
      exact ⟨rfl, rfl, rfl, rfl, rfl⟩
    · rw [if_neg hres]
      simp only [if_pos hneg]
      obtain ⟨h1, h2, h3, h4, h5⟩ := xmit_drop_fields (mtk_tx_map eth skb mapped).1 (mtk_tx_pad skb)
      refine ⟨?_, ?_, ?_, ?_, h5⟩
      · rw [h1, hd]
      · rw [h2, hb]
      · rw [h3, hw]
      · rw [h4, List.length_cons, hf]
  refine ⟨hneg, hw, ?_, hb, hx.1, ?_, hx.2.1, hx.2.2.1, hx.2.2.2.1, hx.2.2.2.2⟩
  · unfold mtk_r32
    rw [hregs]
  · intro hlt
    rw [hx.1]
    unfold to_ulong BITS_PER_LONG
    exact Nat.mod_eq_of_lt hlt

/-- C11 at a concrete state: after `qdma_config`, a 42-byte frame whose mapping
fails is not bound to slot 0, the TX cpu-index register is not written and the
drop counter goes from 0 to 1. -/
theorem tx_mapping_failure_witness :
    (mtk_tx_map (qdma_config zero_engine good_env).1 ⟨1, 42, 0, 0x100⟩ 0).2 < 0 ∧
    (mtk_tx_map (qdma_config zero_engine good_env).1 ⟨1, 42, 0, 0x100⟩ 0).1.dscp_sk_buff_p_ary 0
      = none ∧
    (mtk_start_xmit (qdma_config zero_engine good_env).1 ⟨1, 42, 0, 0x100⟩ 0).1.tx_dropped = 1 :=
  have h := tx_mapping_failure (qdma_config zero_engine good_env).1 ⟨1, 42, 0, 0x100⟩ 0
    (by decide)
  ⟨h.1, by rw [h.2.2.2.1]; decide, h.2.2.2.2.2.1 (by decide)⟩

/-! ### Registers and reclaim, state after each function -/

theorem mtk_w32_regs (eth : Engine) (v r q : Nat) :
    (mtk_w32 eth v r).regs q = if q = r then to_u32 v else eth.regs q := by
  unfold mtk_w32
  by_cases h : q = r
  · subst h; simp
  · simp [h]

theorem mtk_r32_mtk_w32 (eth : Engine) (v r q : Nat) :
    mtk_r32 (mtk_w32 eth v r) q = if q = r then to_u32 v else mtk_r32 eth q := by
  unfold mtk_r32
  rw [mtk_w32_regs]
  split
  · unfold to_u32
    exact Nat.mod_mod _ _
  · rfl

/-- State after one iteration of the reclaim loop: the slot visited is the one the
current descriptor links to; its descriptor gets `pkt_addr = 0` and a cleared
`done` flag, its binding is released when it held a buffer, and nothing else
changes. -/
theorem tx0_free_some_step_eq (eth : Engine) (dscp : Nat) :
    (tx0_free_some_step eth dscp).2 = get_desc_next_idx (eth.dscp_ary dscp) ∧
    (∀ p, (tx0_free_some_step eth dscp).1.dscp_ary p =
      if p = get_desc_next_idx (eth.dscp_ary dscp) then
        set_desc_done { eth.dscp_ary p with pkt_addr := 0 } false
      else eth.dscp_ary p) ∧
    (∀ p, (tx0_free_some_step eth dscp).1.dscp_sk_buff_p_ary p =
      if p = get_desc_next_idx (eth.dscp_ary dscp) ∧ (eth.dscp_ary p).pkt_addr ≠ 0 then none
      else eth.dscp_sk_buff_p_ary p) ∧
    (tx0_free_some_step eth dscp).1.regs = eth.regs ∧
    (tx0_free_some_step eth dscp).1.wlog = eth.wlog ∧
    (tx0_free_some_step eth dscp).1.freed =
      if (eth.dscp_ary (get_desc_next_idx (eth.dscp_ary dscp))).pkt_addr ≠ 0 then
        eth.dscp_sk_buff_p_ary (get_desc_next_idx (eth.dscp_ary dscp)) :: eth.freed
      else eth.freed := by
  unfold tx0_free_some_step
  by_cases ha : (eth.dscp_ary (get_desc_next_idx (eth.dscp_ary dscp))).pkt_addr ≠ 0
  · refine ⟨rfl, ?_, ?_, ?_, ?_, ?_⟩
    · intro p
      by_cases hp : p = get_desc_next_idx (eth.dscp_ary dscp)
      · subst hp
        simp [ha, dscp_store_dscp_ary, tx0_free_skb]
      · simp [ha, hp, dscp_store_dscp_ary, tx0_free_skb]
    · intro p
      by_cases hp : p = get_desc_next_idx (eth.dscp_ary dscp)
      · subst hp
        simp [ha, tx0_free_skb, skb_store_skb]
      · simp [ha, hp, tx0_free_skb, skb_store_skb]
    · simp [ha, tx0_free_skb]
    · simp [ha, tx0_free_skb]
    · simp [ha, tx0_free_skb, dscp_store, skb_store]
  · have ha0 : (eth.dscp_ary (get_desc_next_idx (eth.dscp_ary dscp))).pkt_addr = 0 :=
      not_not.mp ha
    refine ⟨rfl, ?_, ?_, ?_, ?_, ?_⟩
    · intro p
      by_cases hp : p = get_desc_next_idx (eth.dscp_ary dscp)
      · subst hp
        have hd : ({ eth.dscp_ary (get_desc_next_idx (eth.dscp_ary dscp)) with pkt_addr := 0 }
            : qdma_desc) = eth.dscp_ary (get_desc_next_idx (eth.dscp_ary dscp)) := by
          rw [← ha0]
        simp [ha0, dscp_store_dscp_ary, hd]
      · simp [ha0, hp, dscp_store_dscp_ary]
    · intro p
      by_cases hp : p = get_desc_next_idx (eth.dscp_ary dscp)
      · subst hp
        simp [ha0]
      · simp [ha0, hp]
    · simp [ha0]
    · simp [ha0]
    · simp [ha0, dscp_store]

/-- The reclaim loop is two iterations. -/
theorem tx0_free_some_eq (eth : Engine) (dscp : Nat) :
    tx0_free_some eth dscp =
      (tx0_free_some_step (tx0_free_some_step eth dscp).1 (tx0_free_some_step eth dscp).2).1 := by
  have hr : List.range 2 = [0, 1] := by decide
  unfold tx0_free_some
  rw [hr]
  rfl

theorem tx0_free_some_regs (eth : Engine) (dscp : Nat) :
    (tx0_free_some eth dscp).regs = eth.regs ∧ (tx0_free_some eth dscp).wlog = eth.wlog := by
  rw [tx0_free_some_eq]
  obtain ⟨-, -, -, h1, h2, -⟩ := tx0_free_some_step_eq eth dscp
  obtain ⟨-, -, -, h3, h4, -⟩ :=
    tx0_free_some_step_eq (tx0_free_some_step eth dscp).1 (tx0_free_some_step eth dscp).2
  exact ⟨h3.trans h1, h4.trans h2⟩

/-! ### Registers after initialization -/

theorem qdma_initialize_tx_ring_regs (eth : Engine) :
    (qdma_initialize_tx_ring eth).regs = eth.regs := by
  have hr : List.range (TX0_DSCP_NUM - 1) = [0, 1, 2] := by decide
  unfold qdma_initialize_tx_ring
  rw [hr]
  rfl

theorem qdma_initialize_rx_ring_regs (eth : Engine) (env : ConfigEnv) :
    (qdma_initialize_rx_ring eth env).regs = eth.regs := by
  unfold qdma_initialize_rx_ring
  generalize List.range RX0_DSCP_NUM = l
  induction l generalizing eth with
  | nil => rfl
  | cons a t ih =>
    simp only [List.foldl]
    rw [ih, (rx0_new_skb_other _ _ _ _ _).1]
    rfl

/-- The ring registers when `qdma_config` returns, over a register file in which a
read returns the last value written. -/
theorem qdma_config_ring_regs (eth : Engine) (env : ConfigEnv) :
    mtk_r32 (qdma_config eth env).1 QDMA_CSR_TX_CPU_IDX = 0 ∧
    mtk_r32 (qdma_config eth env).1 QDMA_CSR_TX_DMA_IDX = 0 ∧
    mtk_r32 (qdma_config eth env).1 QDMA_CSR_RX_CPU_IDX = RX0_DSCP_NUM ∧
    mtk_r32 (qdma_config eth env).1 QDMA_CSR_RX_DMA_IDX = 0 ∧
    mtk_r32 (qdma_config eth env).1 QDMA_CSR_RX_RING_CFG = RX0_DSCP_NUM ∧
    mtk_r32 (qdma_config eth env).1 QDMA_CSR_TX_DSCP_BASE = to_u32 env.dscp_phys ∧
    mtk_r32 (qdma_config eth env).1 QDMA_CSR_RX_DSCP_BASE =
      to_u32 (env.dscp_phys + sizeof_qdma_desc * TX0_DSCP_NUM) := by
  unfold qdma_config qdma_initialize_irq_queue qdma_initialize_hw_fwd
  simp only [mtk_r32_mtk_w32]
  unfold mtk_r32
  simp only [qdma_initialize_rx_ring_regs, qdma_initialize_tx_ring_regs, mtk_w32_regs]
  refine ⟨?_, ?_, ?_, ?_, ?_, ?_, ?_⟩ <;> simp [QDMA_CSR_TX_CPU_IDX, QDMA_CSR_TX_DMA_IDX,
    QDMA_CSR_RX_CPU_IDX, QDMA_CSR_RX_DMA_IDX, QDMA_CSR_RX_RING_CFG, QDMA_CSR_TX_DSCP_BASE,
    QDMA_CSR_RX_DSCP_BASE, QDMA_CSR_GLB_CFG, MTK_QDMA_INT_MASK, QDMA_CSR_LMGR_INIT_CFG,
    QDMA_CSR_HWFWD_DSCP_CFG, QDMA_CSR_HWFWD_BUFF_BASE, QDMA_CSR_HWFWD_DSCP_BASE, QDMA_CSR_IRQ_CFG,
    QDMA_CSR_IRQ_BASE, QDMA_CSR_RX_RING_THR, to_u32, RX0_DSCP_NUM, DSCP_NUM, TX0_DSCP_NUM]

/-! ## TX index advance -/

theorem get_desc_next_idx_lt (d : qdma_desc) : get_desc_next_idx d < 2 ^ 16 := by
  unfold get_desc_next_idx to_u16
  exact Nat.mod_lt _ (by decide)

/-- After a successful `mtk_tx_map` the TX cpu-index register holds the next-index
of the selected slot. -/
theorem mtk_tx_map_cpu_idx (eth : Engine) (skb : sk_buff) (m : Nat) (hm : to_dma_addr m ≠ 0) :
    mtk_r32 (mtk_tx_map eth skb m).1 QDMA_CSR_TX_CPU_IDX =
      get_desc_next_idx (eth.dscp_ary (mtk_r32 eth QDMA_CSR_TX_CPU_IDX % TX0_DSCP_NUM)) := by
  have hl := mtk_tx_map_links eth skb m (mtk_r32 eth QDMA_CSR_TX_CPU_IDX % TX0_DSCP_NUM)
  rw [← get_desc_next_idx_congr hl, mtk_tx_map_ok eth skb m hm]
  simp only [mtk_r32_mtk_w32, if_pos, mtk_w32_dscp_ary]
  exact to_u32_of_lt (lt_trans (get_desc_next_idx_lt _) (by decide))

/-- Consecutive successful submissions on a linked ring advance the TX cpu-index
register by one slot each, modulo 4, and keep the ring linked. -/
theorem tx_submit_all_cpu_idx (frames : List (sk_buff × Nat)) (eth : Engine) (n : Nat)
    (hl : tx_ring_linked eth) (hr : mtk_r32 eth QDMA_CSR_TX_CPU_IDX = n % 4)
    (hok : ∀ f, f ∈ frames → to_dma_addr f.2 ≠ 0) :
    mtk_r32 (tx_submit_all eth frames) QDMA_CSR_TX_CPU_IDX = (n + frames.length) % 4 ∧
    tx_ring_linked (tx_submit_all eth frames) := by
  induction frames generalizing eth n with
  | nil => exact ⟨by simpa [tx_submit_all] using hr, hl⟩
  | cons f t ih =>
    have hf : to_dma_addr f.2 ≠ 0 := hok f (List.mem_cons_self f t)
    have hl1 : tx_ring_linked (mtk_tx_map eth f.1 f.2).1 :=
      tx_ring_linked_of_links (mtk_tx_map_links eth f.1 f.2) hl
    have hlt : n % 4 % TX0_DSCP_NUM < TX0_DSCP_NUM := Nat.mod_lt _ (by decide)
    have hr1 : mtk_r32 (mtk_tx_map eth f.1 f.2).1 QDMA_CSR_TX_CPU_IDX = (n + 1) % 4 := by
      rw [mtk_tx_map_cpu_idx eth f.1 f.2 hf, hr, hl _ hlt]
      have hT : TX0_DSCP_NUM = 4 := rfl
      rw [hT]
      omega
    have h := ih (mtk_tx_map eth f.1 f.2).1 (n + 1) hl1 hr1
      (fun g hg => hok g (List.mem_cons_of_mem f hg))
    have hlen : n + (f :: t).length = n + 1 + t.length := by
      rw [List.length_cons]
      omega
    rw [hlen]
    exact h

/-- C12. TX index advance: after a successful `mtk_tx_map` that selected slot
`i` (the TX cpu-index register value mod 4), the TX cpu-index register holds the
next-index of slot `i`, which on a linked ring is `(i + 1) mod 4`; and `k`
consecutive successful submissions starting from the ring as `qdma_config` leaves
it put the register at `k mod 4`. -/
theorem tx_index_advance :
    (∀ (eth : Engine) (skb : sk_buff) (mapped : Nat), to_dma_addr mapped ≠ 0 →
      mtk_r32 (mtk_tx_map eth skb mapped).1 QDMA_CSR_TX_CPU_IDX =
        get_desc_next_idx (eth.dscp_ary (mtk_r32 eth QDMA_CSR_TX_CPU_IDX % TX0_DSCP_NUM)) ∧
      (mtk_tx_map eth skb mapped).1.wlog.head? =
        some (QDMA_CSR_TX_CPU_IDX,
          get_desc_next_idx (eth.dscp_ary (mtk_r32 eth QDMA_CSR_TX_CPU_IDX % TX0_DSCP_NUM))) ∧
      (tx_ring_linked eth →
        mtk_r32 (mtk_tx_map eth skb mapped).1 QDMA_CSR_TX_CPU_IDX =
          (mtk_r32 eth QDMA_CSR_TX_CPU_IDX % TX0_DSCP_NUM + 1) % 4)) ∧
    (∀ (eth : Engine) (env : ConfigEnv) (frames : List (sk_buff × Nat)),
      (∀ f, f ∈ frames → to_dma_addr f.2 ≠ 0) →
      mtk_r32 (tx_submit_all (qdma_config eth env).1 frames) QDMA_CSR_TX_CPU_IDX =
        frames.length % 4) := by
  constructor
  · intro eth skb m hm
    have h1 := mtk_tx_map_cpu_idx eth skb m hm
    refine ⟨h1, ?_, ?_⟩
    · have hl := mtk_tx_map_links eth skb m (mtk_r32 eth QDMA_CSR_TX_CPU_IDX % TX0_DSCP_NUM)
      rw [← get_desc_next_idx_congr hl, mtk_tx_map_ok eth skb m hm]
      simp only [mtk_w32_wlog, mtk_w32_dscp_ary, List.head?_cons]
      rw [to_u32_of_lt (lt_trans (get_desc_next_idx_lt _) (by decide))]
    · intro hl
      rw [h1]
      exact hl _ (Nat.mod_lt _ (by decide))
  · intro eth env frames hok
    have h := tx_submit_all_cpu_idx frames (qdma_config eth env).1 0
      (qdma_config_linked eth env) (qdma_config_ring_regs eth env).1 hok
    rw [Nat.zero_add] at h
    exact h.1

/-- C12 at a concrete run: five successful submissions after `qdma_config` leave
the TX cpu-index register at `5 mod 4 = 1`. -/
theorem tx_index_advance_witness :
    mtk_r32
      (tx_submit_all (qdma_config zero_engine good_env).1
        [(⟨1, 42, 0, 0x100⟩, 0x9000), (⟨2, 100, 0, 0x200⟩, 0x9800), (⟨3, 60, 0, 0x300⟩, 0xA000),
         (⟨4, 1514, 0, 0x400⟩, 0xA800), (⟨5, 64, 0, 0x500⟩, 0xB000)])
      QDMA_CSR_TX_CPU_IDX = 1 :=
  tx_index_advance.2 zero_engine good_env
    [(⟨1, 42, 0, 0x100⟩, 0x9000), (⟨2, 100, 0, 0x200⟩, 0x9800), (⟨3, 60, 0, 0x300⟩, 0xA000),
     (⟨4, 1514, 0, 0x400⟩, 0xA800), (⟨5, 64, 0, 0x500⟩, 0xB000)]
    (by decide)

/-! ## TX lazy reclaim -/

/-- The reclaim on a linked ring, started from slot `i`: it visits slot
`(i + 1) mod 4` and then slot `(i + 2) mod 4`. -/
theorem tx0_free_some_linked (eth : Engine) (i : Nat) (hl : tx_ring_linked eth) (hi : i < 4) :
    (tx0_free_some_step eth i).2 = (i + 1) % 4 ∧
    (tx0_free_some_step (tx0_free_some_step eth i).1 (tx0_free_some_step eth i).2).2
      = (i + 2) % 4 ∧
    (∀ p, (tx0_free_some eth i).dscp_ary p =
      if p = (i + 1) % 4 ∨ p = (i + 2) % 4 then
        set_desc_done { eth.dscp_ary p with pkt_addr := 0 } false
      else eth.dscp_ary p) ∧
    (∀ p, (tx0_free_some eth i).dscp_sk_buff_p_ary p =
      if (p = (i + 1) % 4 ∨ p = (i + 2) % 4) ∧ (eth.dscp_ary p).pkt_addr ≠ 0 then none
      else eth.dscp_sk_buff_p_ary p) ∧
    (tx0_free_some eth i).freed =
      (if (eth.dscp_ary ((i + 2) % 4)).pkt_addr ≠ 0 then
          [eth.dscp_sk_buff_p_ary ((i + 2) % 4)] else []) ++
      ((if (eth.dscp_ary ((i + 1) % 4)).pkt_addr ≠ 0 then
          [eth.dscp_sk_buff_p_ary ((i + 1) % 4)] else []) ++ eth.freed) := by
  have hT : TX0_DSCP_NUM = 4 := rfl
  obtain ⟨h2, hd, hb, -, -, hf⟩ := tx0_free_some_step_eq eth i
  have hj1 : get_desc_next_idx (eth.dscp_ary i) = (i + 1) % 4 := hl i hi
  have hj1lt : (i + 1) % 4 < 4 := Nat.mod_lt _ (by decide)
  rw [hj1] at h2 hd hb hf
  obtain ⟨g2, gd, gb, -, -, gf⟩ :=
    tx0_free_some_step_eq (tx0_free_some_step eth i).1 (tx0_free_some_step eth i).2
  have hne : (i + 2) % 4 ≠ (i + 1) % 4 := by omega
  have hj2 : get_desc_next_idx ((tx0_free_some_step eth i).1.dscp_ary (tx0_free_some_step eth i).2)
      = (i + 2) % 4 := by
    rw [h2, hd, if_pos rfl]
    have e1 : get_desc_next_idx (set_desc_done { eth.dscp_ary ((i + 1) % 4) with pkt_addr := 0 } false)
        = get_desc_next_idx (eth.dscp_ary ((i + 1) % 4)) := get_desc_next_idx_congr rfl
    rw [e1, hl _ hj1lt, hT]
    omega
  rw [hj2] at g2 gd gb gf
  have hd2 : (tx0_free_some_step eth i).1.dscp_ary ((i + 2) % 4) = eth.dscp_ary ((i + 2) % 4) := by
    rw [hd, if_neg hne]
  have hb2 : (tx0_free_some_step eth i).1.dscp_sk_buff_p_ary ((i + 2) % 4)
      = eth.dscp_sk_buff_p_ary ((i + 2) % 4) := by
    rw [hb, if_neg (fun hc => hne hc.1)]
  refine ⟨h2, g2, ?_, ?_, ?_⟩
  · intro p
    rw [tx0_free_some_eq, gd]
    by_cases hp2 : p = (i + 2) % 4
    · subst hp2
      rw [if_pos rfl, if_pos (Or.inr rfl), hd2]
    · rw [if_neg hp2, hd]
      by_cases hp1 : p = (i + 1) % 4
      · rw [if_pos hp1, if_pos (Or.inl hp1)]
      · rw [if_neg hp1, if_neg (by rintro (h | h) <;> contradiction)]
  · intro p
    rw [tx0_free_some_eq, gb]
    by_cases hp2 : p = (i + 2) % 4
    · subst hp2
      rw [hd2, hb2]
      by_cases ha : (eth.dscp_ary ((i + 2) % 4)).pkt_addr ≠ 0
      · rw [if_pos ⟨rfl, ha⟩, if_pos ⟨Or.inr rfl, ha⟩]
      · rw [if_neg (fun hc => ha hc.2), if_neg (fun hc => ha hc.2)]
    · rw [if_neg (fun hc => hp2 hc.1), hb]
      by_cases hp1 : p = (i + 1) % 4
      · subst hp1
        by_cases ha : (eth.dscp_ary ((i + 1) % 4)).pkt_addr ≠ 0
        · rw [if_pos ⟨rfl, ha⟩, if_pos ⟨Or.inl rfl, ha⟩]
        · rw [if_neg (fun hc => ha hc.2), if_neg (fun hc => ha hc.2)]
      · rw [if_neg (fun hc => hp1 hc.1),
          if_neg (fun hc => by rcases hc.1 with h | h <;> contradiction)]
  · rw [tx0_free_some_eq, gf, hd2, hb2, hf]
    by_cases ha2 : (eth.dscp_ary ((i + 2) % 4)).pkt_addr ≠ 0
    · rw [if_pos ha2, if_pos ha2]
      by_cases ha1 : (eth.dscp_ary ((i + 1) % 4)).pkt_addr ≠ 0
      · rw [if_pos ha1, if_pos ha1]; rfl
      · rw [if_neg ha1, if_neg ha1]; rfl
    · rw [if_neg ha2, if_neg ha2]
      by_cases ha1 : (eth.dscp_ary ((i + 1) % 4)).pkt_addr ≠ 0
      · rw [if_pos ha1, if_pos ha1]; rfl
      · rw [if_neg ha1, if_neg ha1]; rfl

/-- The state `mtk_tx_map` hands to the reclaim has the link words of the state
on entry. -/
theorem tx_written_state_links (eth : Engine) (skb : sk_buff) (m p : Nat) :
    ((tx_written_state eth skb m).dscp_ary p).bitfield_1 = (eth.dscp_ary p).bitfield_1 := by
  unfold tx_written_state tx_written_desc
  rw [dscp_store_dscp_ary]
  split
  · next h => rw [h]
  · rfl

/-- C13. TX lazy reclaim. (1) On a correctly linked ring, `tx0_free_some` called
for slot `i` visits slot `(i + 1) mod 4` and then slot `(i + 2) mod 4`: each of
the two ends with `pkt_addr = 0` and `done = 0` and otherwise the descriptor it
had; its binding is released if it held a buffer (non-zero `pkt_addr`) and kept
otherwise; the buffers released are exactly those of the visited slots that held
one; every other descriptor and binding, among them those of slot `i` and of
slot `(i + 3) mod 4`, is unchanged. (2) A successful `mtk_tx_map` on a linked
ring runs this reclaim for the selected slot `i` on a linked state, so when it
returns slot `i` holds the descriptor and frame just written and slot
`(i + 3) mod 4` is as on entry. -/
theorem tx_lazy_reclaim :
    (∀ (eth : Engine) (i : Nat), tx_ring_linked eth → i < 4 →
      (tx0_free_some_step eth i).2 = (i + 1) % 4 ∧
      (tx0_free_some_step (tx0_free_some_step eth i).1 (tx0_free_some_step eth i).2).2
        = (i + 2) % 4 ∧
      (∀ j, j = (i + 1) % 4 ∨ j = (i + 2) % 4 →
        j ≠ i ∧
        (tx0_free_some eth i).dscp_ary j
          = set_desc_done { eth.dscp_ary j with pkt_addr := 0 } false ∧
        ((tx0_free_some eth i).dscp_ary j).pkt_addr = 0 ∧
        is_desc_done ((tx0_free_some eth i).dscp_ary j) = false ∧
        ((eth.dscp_ary j).pkt_addr ≠ 0 → (tx0_free_some eth i).dscp_sk_buff_p_ary j = none) ∧
        ((eth.dscp_ary j).pkt_addr = 0 →
          (tx0_free_some eth i).dscp_sk_buff_p_ary j = eth.dscp_sk_buff_p_ary j)) ∧
      (∀ p, p ≠ (i + 1) % 4 → p ≠ (i + 2) % 4 →
        (tx0_free_some eth i).dscp_ary p = eth.dscp_ary p ∧
        (tx0_free_some eth i).dscp_sk_buff_p_ary p = eth.dscp_sk_buff_p_ary p) ∧
      (tx0_free_some eth i).dscp_ary i = eth.dscp_ary i ∧
      (tx0_free_some eth i).dscp_sk_buff_p_ary i = eth.dscp_sk_buff_p_ary i ∧
      (tx0_free_some eth i).dscp_ary ((i + 3) % 4) = eth.dscp_ary ((i + 3) % 4) ∧
      (tx0_free_some eth i).dscp_sk_buff_p_ary ((i + 3) % 4)
        = eth.dscp_sk_buff_p_ary ((i + 3) % 4) ∧
      (tx0_free_some eth i).freed =
        (if (eth.dscp_ary ((i + 2) % 4)).pkt_addr ≠ 0 then
            [eth.dscp_sk_buff_p_ary ((i + 2) % 4)] else []) ++
        ((if (eth.dscp_ary ((i + 1) % 4)).pkt_addr ≠ 0 then
            [eth.dscp_sk_buff_p_ary ((i + 1) % 4)] else []) ++ eth.freed)) ∧
    (∀ (eth : Engine) (skb : sk_buff) (mapped : Nat),
      tx_ring_linked eth → to_dma_addr mapped ≠ 0 →
      tx_ring_linked (tx_written_state eth skb mapped) ∧
      (mtk_tx_map eth skb mapped).1.dscp_ary =
        (tx0_free_some (tx_written_state eth skb mapped)
          (mtk_r32 eth QDMA_CSR_TX_CPU_IDX % TX0_DSCP_NUM)).dscp_ary ∧
      (mtk_tx_map eth skb mapped).1.dscp_sk_buff_p_ary =
        (tx0_free_some (tx_written_state eth skb mapped)
          (mtk_r32 eth QDMA_CSR_TX_CPU_IDX % TX0_DSCP_NUM)).dscp_sk_buff_p_ary ∧
      (mtk_tx_map eth skb mapped).1.dscp_ary (mtk_r32 eth QDMA_CSR_TX_CPU_IDX % TX0_DSCP_NUM)
        = tx_written_desc eth skb mapped ∧
      (mtk_tx_map eth skb mapped).1.dscp_sk_buff_p_ary
        (mtk_r32 eth QDMA_CSR_TX_CPU_IDX % TX0_DSCP_NUM) = some (mtk_tx_pad skb) ∧
      (mtk_tx_map eth skb mapped).1.dscp_ary
        ((mtk_r32 eth QDMA_CSR_TX_CPU_IDX % TX0_DSCP_NUM + 3) % 4)
        = eth.dscp_ary ((mtk_r32 eth QDMA_CSR_TX_CPU_IDX % TX0_DSCP_NUM + 3) % 4) ∧
      (mtk_tx_map eth skb mapped).1.dscp_sk_buff_p_ary
        ((mtk_r32 eth QDMA_CSR_TX_CPU_IDX % TX0_DSCP_NUM + 3) % 4)
        = eth.dscp_sk_buff_p_ary ((mtk_r32 eth QDMA_CSR_TX_CPU_IDX % TX0_DSCP_NUM + 3) % 4)) := by
  have hA : ∀ (eth : Engine) (i : Nat), tx_ring_linked eth → i < 4 →
      (∀ p, p ≠ (i + 1) % 4 → p ≠ (i + 2) % 4 →
        (tx0_free_some eth i).dscp_ary p = eth.dscp_ary p ∧
        (tx0_free_some eth i).dscp_sk_buff_p_ary p = eth.dscp_sk_buff_p_ary p) := by
    intro eth i hl hi p hp1 hp2
    obtain ⟨-, -, hd, hb, -⟩ := tx0_free_some_linked eth i hl hi
    constructor
    · rw [hd, if_neg (by rintro (h | h) <;> contradiction)]
    · rw [hb, if_neg (fun hc => by rcases hc.1 with h | h <;> contradiction)]
  constructor
  · intro eth i hl hi
    obtain ⟨h1, h2, hd, hb, hf⟩ := tx0_free_some_linked eth i hl hi
    have hi1 : i ≠ (i + 1) % 4 := by omega
    have hi2 : i ≠ (i + 2) % 4 := by omega
    have hk1 : (i + 3) % 4 ≠ (i + 1) % 4 := by omega
    have hk2 : (i + 3) % 4 ≠ (i + 2) % 4 := by omega
    refine ⟨h1, h2, ?_, hA eth i hl hi, (hA eth i hl hi i hi1 hi2).1, (hA eth i hl hi i hi1 hi2).2,
      (hA eth i hl hi _ hk1 hk2).1, (hA eth i hl hi _ hk1 hk2).2, hf⟩
    intro j hj
    have hji : j ≠ i := by
      rcases hj with h | h <;> omega
    have hdj : (tx0_free_some eth i).dscp_ary j
        = set_desc_done { eth.dscp_ary j with pkt_addr := 0 } false := by
      rw [hd, if_pos hj]
    refine ⟨hji, hdj, ?_, ?_, ?_, ?_⟩
    · rw [hdj]; rfl
    · rw [hdj]; exact codec_done_cleared _
    · intro ha
      rw [hb, if_pos ⟨hj, ha⟩]
    · intro ha
      rw [hb, if_neg (fun hc => hc.2 ha)]
  · intro eth skb m hl hm
    have hT : TX0_DSCP_NUM = 4 := rfl
    have hlw : tx_ring_linked (tx_written_state eth skb m) :=
      tx_ring_linked_of_links (tx_written_state_links eth skb m) hl
    have hi : mtk_r32 eth QDMA_CSR_TX_CPU_IDX % TX0_DSCP_NUM < 4 := Nat.mod_lt _ (by decide)
    have hi1 : mtk_r32 eth QDMA_CSR_TX_CPU_IDX % TX0_DSCP_NUM
        ≠ (mtk_r32 eth QDMA_CSR_TX_CPU_IDX % TX0_DSCP_NUM + 1) % 4 := by omega
    have hi2 : mtk_r32 eth QDMA_CSR_TX_CPU_IDX % TX0_DSCP_NUM
        ≠ (mtk_r32 eth QDMA_CSR_TX_CPU_IDX % TX0_DSCP_NUM + 2) % 4 := by omega
    have hk0 : (mtk_r32 eth QDMA_CSR_TX_CPU_IDX % TX0_DSCP_NUM + 3) % 4
        ≠ mtk_r32 eth QDMA_CSR_TX_CPU_IDX % TX0_DSCP_NUM := by omega
    have hk1 : (mtk_r32 eth QDMA_CSR_TX_CPU_IDX % TX0_DSCP_NUM + 3) % 4
        ≠ (mtk_r32 eth QDMA_CSR_TX_CPU_IDX % TX0_DSCP_NUM + 1) % 4 := by omega
    have hk2 : (mtk_r32 eth QDMA_CSR_TX_CPU_IDX % TX0_DSCP_NUM + 3) % 4
        ≠ (mtk_r32 eth QDMA_CSR_TX_CPU_IDX % TX0_DSCP_NUM + 2) % 4 := by omega
    have hself := hA (tx_written_state eth skb m) _ hlw hi _ hi1 hi2
    have hprev := hA (tx_written_state eth skb m) _ hlw hi _ hk1 hk2
    rw [mtk_tx_map_ok eth skb m hm]
    simp only [mtk_w32_dscp_ary, mtk_w32_skb]
    refine ⟨hlw, trivial, trivial, ?_, ?_, ?_, ?_⟩
    · rw [hself.1]
      unfold tx_written_state
      rw [dscp_store_dscp_ary, if_pos rfl]
    · rw [hself.2]
      unfold tx_written_state
      rw [dscp_store_skb, skb_store_skb, if_pos rfl]
    · rw [hprev.1]
      unfold tx_written_state
      rw [dscp_store_dscp_ary, if_neg hk0, skb_store_dscp_ary]
    · rw [hprev.2]
      unfold tx_written_state
      rw [dscp_store_skb, skb_store_skb, if_neg hk0]

/-- C13 at a concrete run: after `qdma_config` and three submissions (slots 0,
1, 2), the reclaim for slot 3 visits slots 0 and 1: it releases the frame of
slot 1 and leaves the frame of slot 2 bound. -/
theorem tx_lazy_reclaim_witness :
    (tx0_free_some
      (tx_submit_all (qdma_config zero_engine good_env).1
        [(⟨1, 42, 0, 0x100⟩, 0x9000), (⟨2, 100, 0, 0x200⟩, 0x9800), (⟨3, 60, 0, 0x300⟩, 0xA000)])
      3).dscp_sk_buff_p_ary 1 = none ∧
    (tx0_free_some
      (tx_submit_all (qdma_config zero_engine good_env).1
        [(⟨1, 42, 0, 0x100⟩, 0x9000), (⟨2, 100, 0, 0x200⟩, 0x9800), (⟨3, 60, 0, 0x300⟩, 0xA000)])
      3).dscp_sk_buff_p_ary 2 = some ⟨3, 60, 0, 0x300⟩ :=
  have hl : tx_ring_linked
      (tx_submit_all (qdma_config zero_engine good_env).1
        [(⟨1, 42, 0, 0x100⟩, 0x9000), (⟨2, 100, 0, 0x200⟩, 0x9800), (⟨3, 60, 0, 0x300⟩, 0xA000)]) :=
    (tx_submit_all_cpu_idx _ _ 0 (qdma_config_linked zero_engine good_env) (by decide)
      (by decide)).2
  have h := tx_lazy_reclaim.1 _ 3 hl (by decide)
  ⟨(h.2.2.1 1 (Or.inr (by decide))).2.2.2.2.1 (by decide),
   by rw [h.2.2.2.2.2.2.2.1]; decide⟩

/-! ## RX index advance -/

theorem rx0_done_regs (eth : Engine) (b : Option sk_buff) (m q : Nat) :
    (rx0_done eth b m).regs q =
      if q = QDMA_CSR_RX_CPU_IDX then
        to_u32 (int_to_u32 (rx0_done_idx (mtk_r32 eth QDMA_CSR_RX_DMA_IDX)))
      else eth.regs q := by
  unfold rx0_done rx0_dscp_defaults
  simp only [mtk_w32_regs, dscp_store_regs, rx0_deliver_regs, rx0_pop_skb_fst]
  rw [(rx0_new_skb_other _ _ _ _ _).1]

/-- C14. RX index advance: for every hardware index `h` in 0..3, after
`rx0_done` the RX cpu-index register holds `(h + 3) mod 4`, the index of the slot
just completed and reposted, whatever the replacement allocation and mapping
returned (so whether or not a frame was delivered); this is the only register
`rx0_done` writes. -/
theorem rx_index_advance (eth : Engine) (new_skb : Option sk_buff) (mapped h : Nat)
    (hh : h < 4) (hr : mtk_r32 eth QDMA_CSR_RX_DMA_IDX = h) :
    mtk_r32 (rx0_done eth new_skb mapped) QDMA_CSR_RX_CPU_IDX = (h + 3) % 4 ∧
    (rx0_done eth new_skb mapped).wlog = (QDMA_CSR_RX_CPU_IDX, (h + 3) % 4) :: eth.wlog ∧
    (∀ q, q ≠ QDMA_CSR_RX_CPU_IDX → (rx0_done eth new_skb mapped).regs q = eth.regs q) := by
  have hv : to_u32 (int_to_u32 (rx0_done_idx h)) = (h + 3) % 4 := by
    interval_cases h <;> decide
  refine ⟨?_, ?_, ?_⟩
  · unfold mtk_r32
    rw [rx0_done_regs, if_pos rfl, hr, hv]
    interval_cases h <;> decide
  · rw [rx0_done_wlog, hr, hv]
  · intro q hq
    rw [rx0_done_regs, if_neg hq]

/-- C14 at a concrete state: after `qdma_config` with the hardware index at 2,
an RX completion leaves 1 in the RX cpu-index register, with a delivered frame
and with a failed allocation alike. -/
theorem rx_index_advance_witness :
    mtk_r32 (rx0_done rx_ready_state (some ⟨7, 0, 0, 0xC000⟩) 0xC000) QDMA_CSR_RX_CPU_IDX = 1 ∧
    mtk_r32 (rx0_done rx_ready_state none 0) QDMA_CSR_RX_CPU_IDX = 1 :=
  ⟨(rx_index_advance rx_ready_state (some ⟨7, 0, 0, 0xC000⟩) 0xC000 2 (by decide) (by decide)).1,
   (rx_index_advance rx_ready_state none 0 2 (by decide) (by decide)).1⟩

/-! ## RX delivery -/

theorem rx0_new_skb_snd_isSome (eth : Engine) (idx : Int) (dscp : Nat) (b : Option sk_buff)
    (m : Nat) :
    (rx0_new_skb eth idx dscp b m).2.isSome = true ↔ (b.isSome = true ∧ to_dma_addr m ≠ 0) := by
  unfold rx0_new_skb
  cases b with
  | none => simp
  | some b =>
    by_cases hm : to_dma_addr m = 0
    · simp [hm]
    · simp [hm]

theorem rx0_new_skb_netif_rx_log (eth : Engine) (idx : Int) (dscp : Nat) (b : Option sk_buff)
    (m : Nat) : (rx0_new_skb eth idx dscp b m).1.netif_rx_log = eth.netif_rx_log := by
  unfold rx0_new_skb
  cases b with
  | none => rfl
  | some b =>
    by_cases hm : to_dma_addr m = 0
    · simp [hm]
    · simp [hm, dscp_store, skb_store]

/-- The delivery log after `rx0_done`: the buffer that was bound to the completed
slot, extended by the length its descriptor held on entry, when the replacement
was allocated and mapped; nothing otherwise. -/
theorem rx0_done_netif_rx_log (eth : Engine) (b : Option sk_buff) (m : Nat) :
    (rx0_done eth b m).netif_rx_log =
      if b.isSome = true ∧ to_dma_addr m ≠ 0 then
        match eth.dscp_sk_buff_p_ary
          (rx0_get_dscp (rx0_done_idx (mtk_r32 eth QDMA_CSR_RX_DMA_IDX))) with
        | some old =>
          skb_put old
            (eth.dscp_ary (rx0_get_dscp (rx0_done_idx (mtk_r32 eth QDMA_CSR_RX_DMA_IDX)))).pkt_len
            :: eth.netif_rx_log
        | none => eth.netif_rx_log
      else eth.netif_rx_log := by
  have hpos : ∀ idx : Int, (idx + (TX0_DSCP_NUM : Int)).toNat = rx0_get_dscp idx := by
    intro idx
    unfold rx0_get_dscp
    rw [Int.add_comm]
  have hlen := (rx0_new_skb_frame eth (rx0_done_idx (mtk_r32 eth QDMA_CSR_RX_DMA_IDX))
    (rx0_get_dscp (rx0_done_idx (mtk_r32 eth QDMA_CSR_RX_DMA_IDX))) b m
    (rx0_get_dscp (rx0_done_idx (mtk_r32 eth QDMA_CSR_RX_DMA_IDX)))).2
  have hs := rx0_new_skb_snd_isSome eth (rx0_done_idx (mtk_r32 eth QDMA_CSR_RX_DMA_IDX))
    (rx0_get_dscp (rx0_done_idx (mtk_r32 eth QDMA_CSR_RX_DMA_IDX))) b m
  have hlog := rx0_new_skb_netif_rx_log eth (rx0_done_idx (mtk_r32 eth QDMA_CSR_RX_DMA_IDX))
    (rx0_get_dscp (rx0_done_idx (mtk_r32 eth QDMA_CSR_RX_DMA_IDX))) b m
  have hout : ∀ (e : Engine) (v r p : Nat) (d1 d2 : qdma_desc),
      (mtk_w32 (dscp_store (rx0_dscp_defaults e p) p d2) v r).netif_rx_log = e.netif_rx_log := by
    intro e v r p d1 d2
    rfl
  unfold rx0_done
  simp only []
  rw [hout _ _ _ _ zero_desc]
  unfold rx0_pop_skb
  simp only [hpos]
  by_cases hok : b.isSome = true ∧ to_dma_addr m ≠ 0
  · rw [if_pos (hs.mpr hok), if_pos hok]
    cases hb : eth.dscp_sk_buff_p_ary
      (rx0_get_dscp (rx0_done_idx (mtk_r32 eth QDMA_CSR_RX_DMA_IDX))) with
    | none => simp only [rx0_deliver]; exact hlog
    | some old => simp only [rx0_deliver]; rw [hlen, hlog]
  · rw [if_neg (fun hc => hok (hs.mp hc)), if_neg hok]
    simp only [rx0_deliver]
    exact hlog

/-- C15. RX delivery length: with the RX hardware index `h` in 0..3 and
`pos = 4 + (h + 3) mod 4` the completed slot, (1) `rx0_done` hands at most one
buffer to the network stack; (2) whenever it hands over a buffer `d`, a buffer
`old` was bound to the slot on entry and `d` is `old` (same identity and data
area) after `skb_put(old, pkt_len)` with the `pkt_len` the descriptor held on
entry, so for a buffer as `alloc_skb` returned it (`len = 0`) the delivered
length is that `pkt_len`, while the descriptor itself is reset to 1518; (3) it
does hand over the bound buffer whenever the replacement is allocated and
mapped. -/
theorem rx_delivery_length (eth : Engine) (new_skb : Option sk_buff) (mapped h : Nat)
    (hh : h < 4) (hr : mtk_r32 eth QDMA_CSR_RX_DMA_IDX = h) :
    ((rx0_done eth new_skb mapped).netif_rx_log = eth.netif_rx_log ∨
      ∃ d, (rx0_done eth new_skb mapped).netif_rx_log = d :: eth.netif_rx_log) ∧
    (∀ d, (rx0_done eth new_skb mapped).netif_rx_log = d :: eth.netif_rx_log →
      ∃ old, eth.dscp_sk_buff_p_ary (TX0_DSCP_NUM + (h + 3) % 4) = some old ∧
        d = skb_put old (eth.dscp_ary (TX0_DSCP_NUM + (h + 3) % 4)).pkt_len ∧
        d.id = old.id ∧ d.data = old.data ∧
        (old.len = 0 → (eth.dscp_ary (TX0_DSCP_NUM + (h + 3) % 4)).pkt_len < 2 ^ 16 →
          d.len = (eth.dscp_ary (TX0_DSCP_NUM + (h + 3) % 4)).pkt_len) ∧
        ((rx0_done eth new_skb mapped).dscp_ary (TX0_DSCP_NUM + (h + 3) % 4)).pkt_len = 1518) ∧
    (∀ old, eth.dscp_sk_buff_p_ary (TX0_DSCP_NUM + (h + 3) % 4) = some old →
      new_skb.isSome = true → to_dma_addr mapped ≠ 0 →
      (rx0_done eth new_skb mapped).netif_rx_log =
        skb_put old (eth.dscp_ary (TX0_DSCP_NUM + (h + 3) % 4)).pkt_len :: eth.netif_rx_log) := by
  have hpos : rx0_get_dscp (rx0_done_idx h) = TX0_DSCP_NUM + (h + 3) % 4 :=
    (rx0_done_idx_in_range h hh).2
  have hlog := rx0_done_netif_rx_log eth new_skb mapped
  rw [hr, hpos] at hlog
  have hdef : ((rx0_done eth new_skb mapped).dscp_ary (TX0_DSCP_NUM + (h + 3) % 4)).pkt_len
      = 1518 := by
    rw [rx0_done_dscp_ary, hr, hpos, if_pos rfl]
    rfl
  refine ⟨?_, ?_, ?_⟩
  · rw [hlog]
    split
    · split
      · exact Or.inr ⟨_, rfl⟩
      · exact Or.inl rfl
    · exact Or.inl rfl
  · intro d hd
    rw [hlog] at hd
    split at hd
    · split at hd
      · next old hold =>
        have hdd : skb_put old (eth.dscp_ary (TX0_DSCP_NUM + (h + 3) % 4)).pkt_len = d :=
          List.head_eq_of_cons_eq hd
        refine ⟨old, hold, hdd.symm, ?_, ?_, ?_, hdef⟩
        · rw [← hdd]; rfl
        · rw [← hdd]; rfl
        · intro hz hlt
          rw [← hdd]
          unfold skb_put to_u32
          simp only [hz, Nat.zero_add]
          exact Nat.mod_eq_of_lt (lt_trans hlt (by decide))
      · exact absurd hd.symm (List.cons_ne_self _ _)
    · exact absurd hd.symm (List.cons_ne_self _ _)
  · intro old hold hb hm
    rw [hlog, if_pos ⟨hb, hm⟩, hold]

/-- C15 at a concrete state: the buffer bound to RX slot 1 by `qdma_config`
(identity 101, empty) is delivered with the hardware-reported length 100, not
1518. -/
theorem rx_delivery_length_witness :
    (rx0_done rx_ready_state (some ⟨7, 0, 0, 0xC000⟩) 0xC000).netif_rx_log
      = [⟨101, 100, 0, 0x8800⟩] :=
  (rx_delivery_length rx_ready_state (some ⟨7, 0, 0, 0xC000⟩) 0xC000 2 (by decide)
    (by decide)).2.2 ⟨101, 0, 0, 0x8800⟩ (by decide) rfl (by decide)

/-! ## RX replacement failure -/

theorem rx0_new_skb_failed (eth : Engine) (idx : Int) (dscp : Nat) (b : Option sk_buff) (m : Nat)
    (hf : b = none ∨ to_dma_addr m = 0) : rx0_new_skb eth idx dscp b m = (eth, none) := by
  unfold rx0_new_skb
  cases b with
  | none => rfl
  | some b =>
    rcases hf with h | h
    · exact absurd h (by simp)
    · simp [h]

theorem rx0_done_tx_dropped (eth : Engine) (b : Option sk_buff) (m : Nat) :
    (rx0_done eth b m).tx_dropped = eth.tx_dropped := by
  have hn : ∀ (idx : Int) (dscp : Nat),
      (rx0_new_skb eth idx dscp b m).1.tx_dropped = eth.tx_dropped := by
    intro idx dscp
    unfold rx0_new_skb
    cases b with
    | none => rfl
    | some b =>
      by_cases hm : to_dma_addr m = 0
      · simp [hm]
      · simp [hm, dscp_store, skb_store]
  have hd : ∀ (e : Engine) (s : Option sk_buff) (d : Nat),
      (rx0_deliver e s d).tx_dropped = e.tx_dropped := by
    intro e s d
    cases s <;> rfl
  have hout : ∀ (e : Engine) (v r p : Nat) (d2 : qdma_desc),
      (mtk_w32 (dscp_store (rx0_dscp_defaults e p) p d2) v r).tx_dropped = e.tx_dropped := by
    intro e v r p d2
    rfl
  unfold rx0_done
  simp only []
  rw [hout, hd, rx0_pop_skb_fst, hn]

theorem bool_toNat_inj {a b : Bool} (h : a.toNat = b.toNat) : a = b := by
  cases a <;> cases b <;> first | rfl | exact absurd h (by decide)

/-- C16 as stated fails: in the state after `qdma_config` with the hardware index
at 2, an `rx0_done` whose replacement allocation fails leaves the descriptor of
the completed slot (position 5) with `dropped` clear, and the drop counter of the
state is not incremented. -/
theorem rx_failure_counterexample :
    is_desc_dropped ((rx0_done rx_ready_state none 0).dscp_ary 5) = false ∧
    (rx0_done rx_ready_state none 0).tx_dropped = rx_ready_state.tx_dropped ∧
    rx0_get_dscp (rx0_done_idx (mtk_r32 rx_ready_state QDMA_CSR_RX_DMA_IDX)) = 5 := by
  decide

/-- C16, amended. Whenever allocation or mapping of the replacement buffer fails
during `rx0_done` (hardware index `h` in 0..3), the `dropped` flag of the
completed slot's descriptor is left as it was on entry, as are `nls` and the
reserved sub-field; nothing is handed to the network stack, the slot keeps its
buffer and `pkt_addr`, and the descriptor is reposted with `pkt_len = 1518` and
`done` clear. -/
theorem rx_failure_reposts_slot (eth : Engine) (new_skb : Option sk_buff) (mapped h : Nat)
    (hh : h < 4) (hr : mtk_r32 eth QDMA_CSR_RX_DMA_IDX = h)
    (hfail : new_skb = none ∨ to_dma_addr mapped = 0) :
    is_desc_dropped ((rx0_done eth new_skb mapped).dscp_ary (TX0_DSCP_NUM + (h + 3) % 4))
      = is_desc_dropped (eth.dscp_ary (TX0_DSCP_NUM + (h + 3) % 4)) ∧
    is_desc_nls ((rx0_done eth new_skb mapped).dscp_ary (TX0_DSCP_NUM + (h + 3) % 4))
      = is_desc_nls (eth.dscp_ary (TX0_DSCP_NUM + (h + 3) % 4)) ∧
    get_desc_unknown1 ((rx0_done eth new_skb mapped).dscp_ary (TX0_DSCP_NUM + (h + 3) % 4))
      = get_desc_unknown1 (eth.dscp_ary (TX0_DSCP_NUM + (h + 3) % 4)) ∧
    (rx0_done eth new_skb mapped).netif_rx_log = eth.netif_rx_log ∧
    (rx0_done eth new_skb mapped).dscp_sk_buff_p_ary = eth.dscp_sk_buff_p_ary ∧
    ((rx0_done eth new_skb mapped).dscp_ary (TX0_DSCP_NUM + (h + 3) % 4)).pkt_addr
      = (eth.dscp_ary (TX0_DSCP_NUM + (h + 3) % 4)).pkt_addr ∧
    ((rx0_done eth new_skb mapped).dscp_ary (TX0_DSCP_NUM + (h + 3) % 4)).pkt_len = 1518 ∧
    is_desc_done ((rx0_done eth new_skb mapped).dscp_ary (TX0_DSCP_NUM + (h + 3) % 4)) = false := by
  have hpos : rx0_get_dscp (rx0_done_idx h) = TX0_DSCP_NUM + (h + 3) % 4 :=
    (rx0_done_idx_in_range h hh).2
  have hnot : ¬ (new_skb.isSome = true ∧ to_dma_addr mapped ≠ 0) := by
    rintro ⟨h1, h2⟩
    rcases hfail with hf | hf
    · rw [hf] at h1
      exact absurd h1 (by decide)
    · exact h2 hf
  have hd : (rx0_done eth new_skb mapped).dscp_ary (TX0_DSCP_NUM + (h + 3) % 4)
      = set_desc_done { eth.dscp_ary (TX0_DSCP_NUM + (h + 3) % 4) with pkt_len := 1518 } false := by
    rw [rx0_done_dscp_ary, hr, hpos, if_pos rfl, rx0_new_skb_failed _ _ _ _ _ hfail]
  have hind := fun G => desc_independent .done G
    { eth.dscp_ary (TX0_DSCP_NUM + (h + 3) % 4) with pkt_len := 1518 } 0
  refine ⟨?_, ?_, ?_, ?_, ?_, ?_, ?_, ?_⟩
  · rw [hd]
    exact bool_toNat_inj (hind .dropped (by decide))
  · rw [hd]
    exact bool_toNat_inj (hind .nls (by decide))
  · rw [hd]
    exact hind .unknown1 (by decide)
  · rw [rx0_done_netif_rx_log, if_neg hnot]
  · rw [rx0_done_skb, rx0_new_skb_failed _ _ _ _ _ hfail]
  · rw [hd]; rfl
  · rw [hd]; rfl
  · rw [hd]; exact codec_done_cleared _

/-- C16 amended, at a concrete state: with the hardware index at 2 and a failed
allocation, slot 1 keeps its buffer 101 and nothing is delivered. -/
theorem rx_failure_reposts_slot_witness :
    (rx0_done rx_ready_state none 0).netif_rx_log = [] ∧
    (rx0_done rx_ready_state none 0).dscp_sk_buff_p_ary 5 = some ⟨101, 0, 0, 0x8800⟩ :=
  have h := rx_failure_reposts_slot rx_ready_state none 0 2 (by decide) (by decide) (Or.inl rfl)
  ⟨h.2.2.2.1, by rw [h.2.2.2.2.1]; decide⟩

/-! ## RX exclusive buffer ownership -/

/-- The binding table after `rx0_done`: the completed slot is bound to the
replacement when it was allocated and mapped; nothing else changes. -/
theorem rx0_done_skb_at (eth : Engine) (b : Option sk_buff) (m p : Nat) :
    (rx0_done eth b m).dscp_sk_buff_p_ary p =
      if b.isSome = true ∧ to_dma_addr m ≠ 0 ∧
          p = rx0_get_dscp (rx0_done_idx (mtk_r32 eth QDMA_CSR_RX_DMA_IDX)) then b
      else eth.dscp_sk_buff_p_ary p := by
  rw [rx0_done_skb, rx0_new_skb_skb]
  rfl

/-- The packet address of the completed slot after `rx0_done`. -/
theorem rx0_done_pkt_addr (eth : Engine) (b : Option sk_buff) (m : Nat) :
    ((rx0_done eth b m).dscp_ary
        (rx0_get_dscp (rx0_done_idx (mtk_r32 eth QDMA_CSR_RX_DMA_IDX)))).pkt_addr =
      if b.isSome = true ∧ to_dma_addr m ≠ 0 then to_dma_addr m
      else (eth.dscp_ary (rx0_get_dscp (rx0_done_idx (mtk_r32 eth QDMA_CSR_RX_DMA_IDX)))).pkt_addr := by
  rw [rx0_done_dscp_ary, if_pos rfl, rx0_new_skb_dscp_ary]
  by_cases hok : b.isSome = true ∧ to_dma_addr m ≠ 0
  · rw [if_pos ⟨hok.1, hok.2, rfl⟩, if_pos hok]
    rfl
  · rw [if_neg (fun hc => hok ⟨hc.1, hc.2.1⟩), if_neg hok]
    rfl

/-- C17. RX exclusive buffer ownership: let no buffer be bound to two slots on
entry and let the allocator return a buffer distinct from every bound one.
After `rx0_done` (hardware index `h` in 0..3, completed position
`4 + (h + 3) mod 4`): (1) still no buffer is bound to two slots; (2) a buffer
handed to the network stack is bound to no slot, and the completed slot is
bound to the replacement with the replacement's address in `pkt_addr`; (3) when
the allocation or the mapping fails, nothing is delivered and the binding table
and the slot's `pkt_addr` are exactly what they were on entry. -/
theorem rx_exclusive_ownership (eth : Engine) (new_skb : Option sk_buff) (mapped h : Nat)
    (hh : h < 4) (hr : mtk_r32 eth QDMA_CSR_RX_DMA_IDX = h)
    (hex : bindings_exclusive eth) (hfresh : alloc_fresh eth new_skb) :
    bindings_exclusive (rx0_done eth new_skb mapped) ∧
    (∀ d, (rx0_done eth new_skb mapped).netif_rx_log = d :: eth.netif_rx_log →
      (∀ p a, (rx0_done eth new_skb mapped).dscp_sk_buff_p_ary p = some a → a.id ≠ d.id) ∧
      new_skb.isSome = true ∧
      (rx0_done eth new_skb mapped).dscp_sk_buff_p_ary (TX0_DSCP_NUM + (h + 3) % 4) = new_skb ∧
      ((rx0_done eth new_skb mapped).dscp_ary (TX0_DSCP_NUM + (h + 3) % 4)).pkt_addr
        = to_dma_addr mapped ∧
      to_dma_addr mapped ≠ 0) ∧
    (new_skb = none ∨ to_dma_addr mapped = 0 →
      (rx0_done eth new_skb mapped).netif_rx_log = eth.netif_rx_log ∧
      (rx0_done eth new_skb mapped).dscp_sk_buff_p_ary = eth.dscp_sk_buff_p_ary ∧
      ((rx0_done eth new_skb mapped).dscp_ary (TX0_DSCP_NUM + (h + 3) % 4)).pkt_addr
        = (eth.dscp_ary (TX0_DSCP_NUM + (h + 3) % 4)).pkt_addr) := by
  have hpos : rx0_get_dscp (rx0_done_idx h) = TX0_DSCP_NUM + (h + 3) % 4 :=
    (rx0_done_idx_in_range h hh).2
  have hb := rx0_done_skb_at eth new_skb mapped
  have ha := rx0_done_pkt_addr eth new_skb mapped
  have hlog := rx0_done_netif_rx_log eth new_skb mapped
  rw [hr, hpos] at hb ha hlog
  refine ⟨?_, ?_, ?_⟩
  · intro p q a b hpq hpa hqb
    rw [hb] at hpa hqb
    by_cases hp : new_skb.isSome = true ∧ to_dma_addr mapped ≠ 0 ∧ p = TX0_DSCP_NUM + (h + 3) % 4
    · rw [if_pos hp] at hpa
      have hq : ¬ (new_skb.isSome = true ∧ to_dma_addr mapped ≠ 0 ∧
          q = TX0_DSCP_NUM + (h + 3) % 4) := fun hc => hpq (hp.2.2.trans hc.2.2.symm)
      rw [if_neg hq] at hqb
      exact (hfresh a hpa q b hqb).symm
    · rw [if_neg hp] at hpa
      by_cases hq : new_skb.isSome = true ∧ to_dma_addr mapped ≠ 0 ∧
          q = TX0_DSCP_NUM + (h + 3) % 4
      · rw [if_pos hq] at hqb
        exact hfresh b hqb p a hpa
      · rw [if_neg hq] at hqb
        exact hex p q a b hpq hpa hqb
  · intro d hd
    rw [hlog] at hd
    split at hd
    · next hok =>
      split at hd
      · next old hold =>
        have hdd : skb_put old (eth.dscp_ary (TX0_DSCP_NUM + (h + 3) % 4)).pkt_len = d :=
          List.head_eq_of_cons_eq hd
        have hid : d.id = old.id := by rw [← hdd]; rfl
        refine ⟨?_, hok.1, ?_, ?_, hok.2⟩
        · intro p a hpa
          rw [hb] at hpa
          rw [hid]
          by_cases hp : new_skb.isSome = true ∧ to_dma_addr mapped ≠ 0 ∧
              p = TX0_DSCP_NUM + (h + 3) % 4
          · rw [if_pos hp] at hpa
            exact (hfresh a hpa _ old hold).symm
          · rw [if_neg hp] at hpa
            have hne : p ≠ TX0_DSCP_NUM + (h + 3) % 4 := fun hc => hp ⟨hok.1, hok.2, hc⟩
            exact hex p _ a old hne hpa hold
        · rw [hb, if_pos ⟨hok.1, hok.2, rfl⟩]
        · rw [ha, if_pos hok]
      · exact absurd hd.symm (List.cons_ne_self _ _)
    · exact absurd hd.symm (List.cons_ne_self _ _)
  · intro hfail
    have hnot : ¬ (new_skb.isSome = true ∧ to_dma_addr mapped ≠ 0) := by
      rintro ⟨h1, h2⟩
      rcases hfail with hf | hf
      · rw [hf] at h1
        exact absurd h1 (by decide)
      · exact h2 hf
    refine ⟨?_, ?_, ?_⟩
    · rw [hlog, if_neg hnot]
    · funext p
      rw [hb, if_neg (fun hc => hnot ⟨hc.1, hc.2.1⟩)]
    · rw [ha, if_neg hnot]

/-- Filling the RX ring over a list of slots leaves the binding of every position
that is not the position of a listed slot unchanged. -/
theorem rx_ring_fill_elsewhere (env : ConfigEnv) (l : List Nat) (eth : Engine) (p : Nat)
    (hp : ∀ i, i ∈ l → p ≠ TX0_DSCP_NUM + i) :
    (l.foldl
      (fun (e : Engine) (i : Nat) =>
        let dscp := rx0_get_dscp (i : Int)
        let e := rx0_dscp_defaults e dscp
        (rx0_new_skb e (i : Int) dscp (env.rx_alloc i) (env.rx_phys i)).1) eth).dscp_sk_buff_p_ary p
      = eth.dscp_sk_buff_p_ary p := by
  induction l generalizing eth with
  | nil => rfl
  | cons a t ih =>
    simp only [List.foldl]
    rw [ih _ (fun i hi => hp i (List.mem_cons_of_mem a hi)), rx0_new_skb_skb, if_neg]
    · rfl
    · intro hc
      have hpos : ((TX0_DSCP_NUM : Int) + (a : Int)).toNat = TX0_DSCP_NUM + a := by
        rw [← Nat.cast_add]
        exact Int.toNat_natCast _
      rw [hpos] at hc
      exact hp a (List.mem_cons_self a t) hc.2.2

/-- The bindings of `rx_ready_state`: the four RX positions hold the buffers 100
to 103, every other position is unbound. -/
theorem rx_ready_state_bindings (p : Nat) (a : sk_buff)
    (h : rx_ready_state.dscp_sk_buff_p_ary p = some a) : 4 ≤ p ∧ p < 8 ∧ a.id = 96 + p := by
  by_cases hp : p < 8
  · interval_cases p
    · have e : rx_ready_state.dscp_sk_buff_p_ary 0 = none := by decide
      rw [e] at h
      exact absurd h (by simp)
    · have e : rx_ready_state.dscp_sk_buff_p_ary 1 = none := by decide
      rw [e] at h
      exact absurd h (by simp)
    · have e : rx_ready_state.dscp_sk_buff_p_ary 2 = none := by decide
      rw [e] at h
      exact absurd h (by simp)
    · have e : rx_ready_state.dscp_sk_buff_p_ary 3 = none := by decide
      rw [e] at h
      exact absurd h (by simp)
    · have e : rx_ready_state.dscp_sk_buff_p_ary 4 = some ⟨100, 0, 0, 0x8000⟩ := by decide
      rw [e] at h
      exact ⟨by decide, by decide, by rw [← Option.some.inj h]⟩
    · have e : rx_ready_state.dscp_sk_buff_p_ary 5 = some ⟨101, 0, 0, 0x8800⟩ := by decide
      rw [e] at h
      exact ⟨by decide, by decide, by rw [← Option.some.inj h]⟩
    · have e : rx_ready_state.dscp_sk_buff_p_ary 6 = some ⟨102, 0, 0, 0x9000⟩ := by decide
      rw [e] at h
      exact ⟨by decide, by decide, by rw [← Option.some.inj h]⟩
    · have e : rx_ready_state.dscp_sk_buff_p_ary 7 = some ⟨103, 0, 0, 0x9800⟩ := by decide
      rw [e] at h
      exact ⟨by decide, by decide, by rw [← Option.some.inj h]⟩
  · exfalso
    have hnone : rx_ready_state.dscp_sk_buff_p_ary p = none := by
      have hT : TX0_DSCP_NUM = 4 := rfl
      have hR : RX0_DSCP_NUM = 4 := rfl
      unfold rx_ready_state qdma_config
      simp only [dscp_store_skb, mtk_w32_skb]
      unfold qdma_initialize_rx_ring
      rw [rx_ring_fill_elsewhere]
      · rfl
      · intro i hi
        have hi4 : i < RX0_DSCP_NUM := List.mem_range.mp hi
        omega
    rw [hnone] at h
    exact absurd h (by simp)

/-- C17 at a concrete state: in the state after `qdma_config` (buffers 100..103
bound to the RX slots) with the hardware index at 2, a completion with the fresh
replacement 7 hands over buffer 101, which is then bound to no slot, and binds
slot 1 to the replacement. -/
theorem rx_exclusive_ownership_witness :
    bindings_exclusive (rx0_done rx_ready_state (some ⟨7, 0, 0, 0xC000⟩) 0xC000) ∧
    (rx0_done rx_ready_state (some ⟨7, 0, 0, 0xC000⟩) 0xC000).dscp_sk_buff_p_ary 5
      = some ⟨7, 0, 0, 0xC000⟩ ∧
    (∀ p a, (rx0_done rx_ready_state (some ⟨7, 0, 0, 0xC000⟩) 0xC000).dscp_sk_buff_p_ary p
      = some a → a.id ≠ 101) :=
  have h := rx_exclusive_ownership rx_ready_state (some ⟨7, 0, 0, 0xC000⟩) 0xC000 2
    (by decide) (by decide)
    (by
      intro p q a b hpq hpa hqb
      have h1 := rx_ready_state_bindings p a hpa
      have h2 := rx_ready_state_bindings q b hqb
      omega)
    (by
      intro n hn p a hpa
      have h1 := rx_ready_state_bindings p a hpa
      have h7 : n.id = 7 := by rw [← Option.some.inj hn]
      omega)
  have hd := h.2.1 ⟨101, 100, 0, 0x8800⟩ (by decide)
  ⟨h.1, hd.2.2.1, hd.1⟩

/-! ## Forwarding-pool initialization -/

/-- When every read shows the start bit set, the wait loop runs out of iterations. -/
theorem lmgr_wait_stuck (reads : Nat → Nat)
    (hs : ∀ k, to_u32 (reads k) &&& QDMA_CSR_LMGR_START_BIT ≠ 0) (n i : Nat) :
    lmgr_wait reads n i = i + n := by
  induction n generalizing i with
  | zero => rfl
  | succ n ih =>
    unfold lmgr_wait
    rw [if_neg (hs i), ih]
    omega

/-- C18, the code at the failing input. With the start bit of the line-manager
register set on every read (`stuck_env`), the wait loop of
`qdma_initialize_hw_fwd` uses up all 100 polls, yet `qdma_config` returns 0 (it
returns 0 for every environment), and `mtk_open` on a device with reference
count 0 returns 0 and sets the count to 1. -/
theorem hwfwd_init_failure_not_reported :
    (∀ k, (to_u32 (stuck_env.lmgr_reads k)).testBit 31 = true) ∧
    lmgr_wait stuck_env.lmgr_reads 100 0 = 100 ∧
    (∀ (eth : Engine) (env : ConfigEnv), (qdma_config eth env).2 = 0) ∧
    (qdma_config zero_engine stuck_env).2 = 0 ∧
    (mtk_open zero_engine stuck_env).2 = 0 ∧
    (mtk_open zero_engine stuck_env).1.dma_refcnt = 1 ∧
    (∀ (eth : Engine) (env : ConfigEnv), to_u32 eth.dma_refcnt = 0 →
      (mtk_open eth env).2 = 0 ∧ (mtk_open eth env).1.dma_refcnt = 1) := by
  have hread : ∀ k, stuck_env.lmgr_reads k = 0x80000000 := fun _ => rfl
  refine ⟨fun k => by rw [hread k]; decide, ?_, fun eth env => rfl, rfl, rfl, rfl, ?_⟩
  · have h := lmgr_wait_stuck stuck_env.lmgr_reads (fun k => by rw [hread k]; decide) 100 0
    rw [h]
  · intro eth env h0
    unfold mtk_open
    rw [if_pos h0]
    exact ⟨rfl, rfl⟩

/-! ## Ring publication at setup -/

/-- C19. Ring publication at setup: over the register file of the state (a read
returns the last value written), when `qdma_config` returns the TX cpu-index and
TX hardware-index registers hold 0, the RX cpu-index register holds
`RX0_DSCP_NUM = 4`, the RX hardware-index register holds 0, the RX ring length
register holds 4, the TX descriptor base register holds the bus address of the
descriptor array, and the RX descriptor base register holds that address plus
`4 * 32` (in 32-bit arithmetic; exactly the sum when the 8-descriptor array lies
inside the 32-bit address space), so that the RX descriptors follow the 4 TX
descriptors in one array. -/
theorem ring_publication (eth : Engine) (env : ConfigEnv) :
    mtk_r32 (qdma_config eth env).1 QDMA_CSR_TX_CPU_IDX = 0 ∧
    mtk_r32 (qdma_config eth env).1 QDMA_CSR_TX_DMA_IDX = 0 ∧
    mtk_r32 (qdma_config eth env).1 QDMA_CSR_RX_CPU_IDX = 4 ∧
    mtk_r32 (qdma_config eth env).1 QDMA_CSR_RX_DMA_IDX = 0 ∧
    mtk_r32 (qdma_config eth env).1 QDMA_CSR_RX_RING_CFG = 4 ∧
    mtk_r32 (qdma_config eth env).1 QDMA_CSR_TX_DSCP_BASE = to_u32 env.dscp_phys ∧
    mtk_r32 (qdma_config eth env).1 QDMA_CSR_RX_DSCP_BASE = to_u32 (env.dscp_phys + 4 * 32) ∧
    (env.dscp_phys + sizeof_qdma_desc * DSCP_NUM ≤ 2 ^ 32 →
      mtk_r32 (qdma_config eth env).1 QDMA_CSR_RX_DSCP_BASE =
        mtk_r32 (qdma_config eth env).1 QDMA_CSR_TX_DSCP_BASE + 4 * 32) ∧
    rx0_get_dscp 0 = tx0_get_dscp 0 + TX0_DSCP_NUM := by
  obtain ⟨h1, h2, h3, h4, h5, h6, h7⟩ := qdma_config_ring_regs eth env
  have hs : sizeof_qdma_desc * TX0_DSCP_NUM = 4 * 32 := by decide
  rw [hs] at h7
  refine ⟨h1, h2, h3, h4, h5, h6, h7, ?_, by decide⟩
  intro hfit
  have hfit2 : env.dscp_phys + 256 ≤ 2 ^ 32 := hfit
  rw [h6, h7]
  unfold to_u32
  rw [Nat.mod_eq_of_lt (by omega), Nat.mod_eq_of_lt (by omega)]

/-- C19 at a concrete environment: with the descriptor array at bus address
`0x1000`, the RX descriptor base register holds `0x1080`. -/
theorem ring_publication_witness :
    mtk_r32 (qdma_config zero_engine good_env).1 QDMA_CSR_RX_DSCP_BASE = 0x1080 ∧
    mtk_r32 (qdma_config zero_engine good_env).1 QDMA_CSR_RX_CPU_IDX = 4 :=
  have h := ring_publication zero_engine good_env
  ⟨(h.2.2.2.2.2.2.2.1 (by decide)).trans (by decide), h.2.2.1⟩

/-! ## MAC registration -/

/-- C20, the code at the failing input. The id `0xFFFFFFFF` lies outside
0..`MTK_MAC_COUNT`-1 as a 32-bit value, but read into an `int` it is -1 and
passes the check `id >= MTK_MAC_COUNT`: on empty tables `mtk_add_mac` returns 0
instead of `-EINVAL` and stores the device and the mac at index -1, outside both
tables. Ids from `MTK_MAC_COUNT` up to `0x7FFFFFFF` and ids already present are
rejected with `-EINVAL` and leave the tables unchanged. -/
theorem mac_id_negative_accepted :
    MTK_MAC_COUNT ≤ ((0xFFFFFFFF : Nat) : Int) ∧
    to_int 0xFFFFFFFF = -1 ∧
    (mtk_add_mac empty_tables 7 (some 0xFFFFFFFF) (some 42)).2 = 0 ∧
    (mtk_add_mac empty_tables 7 (some 0xFFFFFFFF) (some 42)).2 ≠ -EINVAL ∧
    (mtk_add_mac empty_tables 7 (some 0xFFFFFFFF) (some 42)).1.netdev (-1) = some 42 ∧
    (mtk_add_mac empty_tables 7 (some 0xFFFFFFFF) (some 42)).1.mac (-1) = some ⟨-1, 7⟩ ∧
    (∀ (eth : MacTables) (np v : Nat) (alloc : Option Nat),
      MTK_MAC_COUNT ≤ to_int v → mtk_add_mac eth np (some v) alloc = (eth, -EINVAL)) ∧
    (∀ (eth : MacTables) (np v : Nat) (alloc : Option Nat),
      (eth.netdev (to_int v)).isSome = true → mtk_add_mac eth np (some v) alloc = (eth, -EINVAL)) := by
  refine ⟨by decide, by decide, by decide, by decide, by decide, by decide, ?_, ?_⟩
  · intro eth np v alloc hv
    unfold mtk_add_mac
    simp only [ge_iff_le, if_pos hv]
  · intro eth np v alloc hv
    unfold mtk_add_mac
    by_cases h2 : MTK_MAC_COUNT ≤ to_int v
    · simp only [ge_iff_le, if_pos h2]
    · simp only [ge_iff_le, if_neg h2, if_pos hv]

/-! ## RX/TX state separation -/

/-- Registers after `mtk_tx_map`: at most the TX cpu-index register changes. -/
theorem mtk_tx_map_regs (eth : Engine) (skb : sk_buff) (m q : Nat)
    (hq : q ≠ QDMA_CSR_TX_CPU_IDX) : (mtk_tx_map eth skb m).1.regs q = eth.regs q := by
  by_cases hm : to_dma_addr m = 0
  · rw [mtk_tx_map_fail eth skb m hm]
    rfl
  · rw [mtk_tx_map_ok eth skb m hm]
    simp only []
    rw [mtk_w32_regs, if_neg hq, (tx0_free_some_regs _ _).1]
    rfl

/-- Descriptors and bindings after `mtk_tx_map` on a linked ring: nothing changes
outside the selected slot and the two slots after it. -/
theorem mtk_tx_map_elsewhere (eth : Engine) (skb : sk_buff) (m p : Nat)
    (hl : tx_ring_linked eth)
    (h0 : p ≠ mtk_r32 eth QDMA_CSR_TX_CPU_IDX % TX0_DSCP_NUM)
    (h1 : p ≠ (mtk_r32 eth QDMA_CSR_TX_CPU_IDX % TX0_DSCP_NUM + 1) % 4)
    (h2 : p ≠ (mtk_r32 eth QDMA_CSR_TX_CPU_IDX % TX0_DSCP_NUM + 2) % 4) :
    (mtk_tx_map eth skb m).1.dscp_ary p = eth.dscp_ary p ∧
    (mtk_tx_map eth skb m).1.dscp_sk_buff_p_ary p = eth.dscp_sk_buff_p_ary p := by
  by_cases hm : to_dma_addr m = 0
  · rw [mtk_tx_map_fail eth skb m hm]
    simp only [dscp_store_dscp_ary, dscp_store_skb, if_neg h0]
    exact ⟨trivial, trivial⟩
  · have hlw : tx_ring_linked (tx_written_state eth skb m) :=
      tx_ring_linked_of_links (tx_written_state_links eth skb m) hl
    have hi : mtk_r32 eth QDMA_CSR_TX_CPU_IDX % TX0_DSCP_NUM < 4 := Nat.mod_lt _ (by decide)
    obtain ⟨-, -, hd, hb, -⟩ := tx0_free_some_linked (tx_written_state eth skb m) _ hlw hi
    rw [mtk_tx_map_ok eth skb m hm]
    simp only [mtk_w32_dscp_ary, mtk_w32_skb]
    constructor
    · rw [hd, if_neg (by rintro (h | h) <;> contradiction)]
      unfold tx_written_state
      rw [dscp_store_dscp_ary, if_neg h0, skb_store_dscp_ary]
    · rw [hb, if_neg (fun hc => by rcases hc.1 with h | h <;> contradiction)]
      unfold tx_written_state
      rw [dscp_store_skb, skb_store_skb, if_neg h0]

/-- C21. RX/TX state separation. (1) `rx0_done` with a hardware index `h` in
0..3 changes no descriptor and no binding other than those at position
`4 + (h + 3) mod 4` (one of the RX positions 4..7), so every TX descriptor and
binding (positions 0..3) is unchanged, and it changes no register other than the
RX cpu-index register, so the TX index registers are unchanged. (2) `mtk_tx_map`
on a correctly linked ring, whether the mapping succeeds or fails, changes no
descriptor and no binding at a position 4 or above, and no register other than
the TX cpu-index register, so the RX index registers are unchanged. -/
theorem rx_tx_separation :
    (∀ (eth : Engine) (new_skb : Option sk_buff) (mapped h : Nat),
      h < 4 → mtk_r32 eth QDMA_CSR_RX_DMA_IDX = h →
      4 ≤ TX0_DSCP_NUM + (h + 3) % 4 ∧ TX0_DSCP_NUM + (h + 3) % 4 < 8 ∧
      (∀ p, p ≠ TX0_DSCP_NUM + (h + 3) % 4 →
        (rx0_done eth new_skb mapped).dscp_ary p = eth.dscp_ary p ∧
        (rx0_done eth new_skb mapped).dscp_sk_buff_p_ary p = eth.dscp_sk_buff_p_ary p) ∧
      (∀ p, p < 4 →
        (rx0_done eth new_skb mapped).dscp_ary p = eth.dscp_ary p ∧
        (rx0_done eth new_skb mapped).dscp_sk_buff_p_ary p = eth.dscp_sk_buff_p_ary p) ∧
      (∀ q, q ≠ QDMA_CSR_RX_CPU_IDX → (rx0_done eth new_skb mapped).regs q = eth.regs q) ∧
      (rx0_done eth new_skb mapped).regs QDMA_CSR_TX_CPU_IDX = eth.regs QDMA_CSR_TX_CPU_IDX ∧
      (rx0_done eth new_skb mapped).regs QDMA_CSR_TX_DMA_IDX = eth.regs QDMA_CSR_TX_DMA_IDX) ∧
    (∀ (eth : Engine) (skb : sk_buff) (mapped : Nat), tx_ring_linked eth →
      (∀ p, 4 ≤ p →
        (mtk_tx_map eth skb mapped).1.dscp_ary p = eth.dscp_ary p ∧
        (mtk_tx_map eth skb mapped).1.dscp_sk_buff_p_ary p = eth.dscp_sk_buff_p_ary p) ∧
      (∀ q, q ≠ QDMA_CSR_TX_CPU_IDX → (mtk_tx_map eth skb mapped).1.regs q = eth.regs q) ∧
      (mtk_tx_map eth skb mapped).1.regs QDMA_CSR_RX_CPU_IDX = eth.regs QDMA_CSR_RX_CPU_IDX ∧
      (mtk_tx_map eth skb mapped).1.regs QDMA_CSR_RX_DMA_IDX = eth.regs QDMA_CSR_RX_DMA_IDX) := by
  have hT : TX0_DSCP_NUM = 4 := rfl
  constructor
  · intro eth b m h hh hr
    have hpos : rx0_get_dscp (rx0_done_idx h) = TX0_DSCP_NUM + (h + 3) % 4 :=
      (rx0_done_idx_in_range h hh).2
    have hel : ∀ p, p ≠ TX0_DSCP_NUM + (h + 3) % 4 →
        (rx0_done eth b m).dscp_ary p = eth.dscp_ary p ∧
        (rx0_done eth b m).dscp_sk_buff_p_ary p = eth.dscp_sk_buff_p_ary p := by
      intro p hp
      constructor
      · rw [rx0_done_dscp_ary, hr, hpos, if_neg hp]
      · rw [rx0_done_skb_at, hr, hpos, if_neg (fun hc => hp hc.2.2)]
    refine ⟨by omega, by omega, hel, fun p hp => hel p (by omega), ?_, ?_, ?_⟩
    · intro q hq
      rw [rx0_done_regs, if_neg hq]
    · rw [rx0_done_regs, if_neg (by decide)]
    · rw [rx0_done_regs, if_neg (by decide)]
  · intro eth skb m hl
    have hi : mtk_r32 eth QDMA_CSR_TX_CPU_IDX % TX0_DSCP_NUM < 4 := Nat.mod_lt _ (by decide)
    refine ⟨?_, fun q hq => mtk_tx_map_regs eth skb m q hq,
      mtk_tx_map_regs eth skb m _ (by decide), mtk_tx_map_regs eth skb m _ (by decide)⟩
    intro p hp
    exact mtk_tx_map_elsewhere eth skb m p hl (by omega) (by omega) (by omega)

/-- C21 at a concrete state: with one frame bound to TX slot 0 and the RX hardware
index at 2, an RX completion leaves TX slot 0 and its frame as they were. -/
theorem rx_tx_separation_witness :
    (rx0_done rx_tx_state (some ⟨7, 0, 0, 0xC000⟩) 0xC000).dscp_ary 0 = rx_tx_state.dscp_ary 0 ∧
    (rx0_done rx_tx_state (some ⟨7, 0, 0, 0xC000⟩) 0xC000).dscp_sk_buff_p_ary 0
      = some ⟨1, 60, 0, 0x100⟩ :=
  have h := (rx_tx_separation.1 rx_tx_state (some ⟨7, 0, 0, 0xC000⟩) 0xC000 2 (by decide)
    (by decide)).2.2.2.1 0 (by decide)
  ⟨h.1, h.2.trans (by decide)⟩

/-! ## RX descriptor reset -/

/-- The descriptor of the completed slot after `rx0_done`: the entry descriptor,
with the replacement's address when one was obtained, with `pkt_len = 1518` and
with `done` cleared. -/
theorem rx0_done_desc_form (eth : Engine) (b : Option sk_buff) (m : Nat) :
    ∃ a : Nat,
      (rx0_done eth b m).dscp_ary (rx0_get_dscp (rx0_done_idx (mtk_r32 eth QDMA_CSR_RX_DMA_IDX)))
        = set_desc_done
            { eth.dscp_ary (rx0_get_dscp (rx0_done_idx (mtk_r32 eth QDMA_CSR_RX_DMA_IDX)))
              with pkt_len := 1518, pkt_addr := a } false := by
  rw [rx0_done_dscp_ary, if_pos rfl, rx0_new_skb_dscp_ary]
  by_cases hok : b.isSome = true ∧ to_dma_addr m ≠ 0
  · rw [if_pos ⟨hok.1, hok.2, rfl⟩]
    exact ⟨to_dma_addr m, rfl⟩
  · rw [if_neg (fun hc => hok ⟨hc.1, hc.2.1⟩)]
    exact ⟨_, rfl⟩

/-- C23. RX descriptor reset: for every hardware index `h` in 0..3, whatever the
allocator and the mapping return (so in the delivered branch and in the failure
branch alike), after `rx0_done` the descriptor of the completed slot (position
`4 + (h + 3) mod 4`) has `pkt_len = 1518` and `done = false`, and its `dropped`
and `nls` flags, its 13-bit reserved sub-field, its first reserved word and its
next-index word are what they were on entry. -/
theorem rx_descriptor_reset (eth : Engine) (new_skb : Option sk_buff) (mapped h : Nat)
    (hh : h < 4) (hr : mtk_r32 eth QDMA_CSR_RX_DMA_IDX = h) :
    ((rx0_done eth new_skb mapped).dscp_ary (TX0_DSCP_NUM + (h + 3) % 4)).pkt_len = 1518 ∧
    is_desc_done ((rx0_done eth new_skb mapped).dscp_ary (TX0_DSCP_NUM + (h + 3) % 4)) = false ∧
    is_desc_dropped ((rx0_done eth new_skb mapped).dscp_ary (TX0_DSCP_NUM + (h + 3) % 4))
      = is_desc_dropped (eth.dscp_ary (TX0_DSCP_NUM + (h + 3) % 4)) ∧
    is_desc_nls ((rx0_done eth new_skb mapped).dscp_ary (TX0_DSCP_NUM + (h + 3) % 4))
      = is_desc_nls (eth.dscp_ary (TX0_DSCP_NUM + (h + 3) % 4)) ∧
    get_desc_unknown1 ((rx0_done eth new_skb mapped).dscp_ary (TX0_DSCP_NUM + (h + 3) % 4))
      = get_desc_unknown1 (eth.dscp_ary (TX0_DSCP_NUM + (h + 3) % 4)) ∧
    ((rx0_done eth new_skb mapped).dscp_ary (TX0_DSCP_NUM + (h + 3) % 4)).unknown0
      = (eth.dscp_ary (TX0_DSCP_NUM + (h + 3) % 4)).unknown0 ∧
    ((rx0_done eth new_skb mapped).dscp_ary (TX0_DSCP_NUM + (h + 3) % 4)).bitfield_1
      = (eth.dscp_ary (TX0_DSCP_NUM + (h + 3) % 4)).bitfield_1 ∧
    get_desc_next_idx ((rx0_done eth new_skb mapped).dscp_ary (TX0_DSCP_NUM + (h + 3) % 4))
      = get_desc_next_idx (eth.dscp_ary (TX0_DSCP_NUM + (h + 3) % 4)) := by
  have hpos : rx0_get_dscp (rx0_done_idx h) = TX0_DSCP_NUM + (h + 3) % 4 :=
    (rx0_done_idx_in_range h hh).2
  obtain ⟨a, hd⟩ := rx0_done_desc_form eth new_skb mapped
  rw [hr, hpos] at hd
  have hind := fun G => desc_independent .done G
    { eth.dscp_ary (TX0_DSCP_NUM + (h + 3) % 4) with pkt_len := 1518, pkt_addr := a } 0
  rw [hd]
  refine ⟨rfl, codec_done_cleared _, ?_, ?_, ?_, rfl, rfl, rfl⟩
  · exact bool_toNat_inj (hind .dropped (by decide))
  · exact bool_toNat_inj (hind .nls (by decide))
  · exact hind .unknown1 (by decide)

/-- C23 at a concrete state: with the hardware index at 2, the descriptor of RX
slot 1 (hardware-reported length 100) is reset to length 1518 with `done` clear,
both when a replacement buffer is obtained and when the allocation fails. -/
theorem rx_descriptor_reset_witness :
    (rx_ready_state.dscp_ary 5).pkt_len = 100 ∧
    ((rx0_done rx_ready_state (some ⟨7, 0, 0, 0xC000⟩) 0xC000).dscp_ary 5).pkt_len = 1518 ∧
    is_desc_done ((rx0_done rx_ready_state none 0).dscp_ary 5) = false :=
  ⟨by decide,
   (rx_descriptor_reset rx_ready_state (some ⟨7, 0, 0, 0xC000⟩) 0xC000 2 (by decide)
      (by decide)).1,
   (rx_descriptor_reset rx_ready_state none 0 2 (by decide) (by decide)).2.1⟩

/-! ## Bounded start-bit poll -/

theorem lmgr_wait_reads_length_le (reads : Nat → Nat) (n i : Nat) :
    (lmgr_wait_reads reads n i).length ≤ n := by
  induction n generalizing i with
  | zero => simp [lmgr_wait_reads]
  | succ n ih =>
    unfold lmgr_wait_reads
    split
    · simp
    · have := ih (i + 1)
      simp only [List.length_cons]
      omega

theorem lmgr_wait_reads_length_pos (reads : Nat → Nat) (n i : Nat) :
    1 ≤ (lmgr_wait_reads reads (n + 1) i).length := by
  unfold lmgr_wait_reads
  split <;> simp

/-- The `k`-th value read by the wait loop is the `k`-th value the register returns. -/
theorem lmgr_wait_reads_get (reads : Nat → Nat) (n i k : Nat)
    (hk : k < (lmgr_wait_reads reads n i).length) :
    (lmgr_wait_reads reads n i)[k]? = some (to_u32 (reads (i + k))) := by
  induction n generalizing i k with
  | zero => simp [lmgr_wait_reads] at hk
  | succ n ih =>
    unfold lmgr_wait_reads at hk ⊢
    split
    · rename_i hc
      rw [if_pos hc] at hk
      have h0 : k = 0 := by
        simp only [List.length_singleton] at hk
        omega
      subst h0
      rfl
    · rename_i hc
      rw [if_neg hc] at hk
      cases k with
      | zero => simp
      | succ k =>
        simp only [List.length_cons, Nat.add_lt_add_iff_right] at hk
        rw [List.getElem?_cons_succ, ih (i + 1) k hk]
        congr 3
        omega

/-- Every read but the last one made by the wait loop has the start bit set. -/
theorem lmgr_wait_reads_prefix_set (reads : Nat → Nat) (n i k : Nat)
    (hk : k + 1 < (lmgr_wait_reads reads n i).length) :
    to_u32 (reads (i + k)) &&& QDMA_CSR_LMGR_START_BIT ≠ 0 := by
  induction n generalizing i k with
  | zero => simp [lmgr_wait_reads] at hk
  | succ n ih =>
    unfold lmgr_wait_reads at hk
    by_cases hc : to_u32 (reads i) &&& QDMA_CSR_LMGR_START_BIT = 0
    · rw [if_pos hc] at hk
      simp only [List.length_singleton] at hk
      omega
    · rw [if_neg hc] at hk
      cases k with
      | zero => exact hc
      | succ k =>
        simp only [List.length_cons, Nat.add_lt_add_iff_right] at hk
        have := ih (i + 1) k hk
        rwa [show i + 1 + k = i + (k + 1) by omega] at this

/-- The wait loop stops at the first read with the start bit clear. -/
theorem lmgr_wait_reads_first_clear (reads : Nat → Nat) (n i k : Nat) (hk : k < n)
    (hclear : to_u32 (reads (i + k)) &&& QDMA_CSR_LMGR_START_BIT = 0)
    (hset : ∀ j, j < k → to_u32 (reads (i + j)) &&& QDMA_CSR_LMGR_START_BIT ≠ 0) :
    (lmgr_wait_reads reads n i).length = k + 1 := by
  induction n generalizing i k with
  | zero => omega
  | succ n ih =>
    unfold lmgr_wait_reads
    cases k with
    | zero =>
      rw [Nat.add_zero] at hclear
      rw [if_pos hclear]
      rfl
    | succ k =>
      have h0 := hset 0 (by omega)
      rw [Nat.add_zero] at h0
      rw [if_neg h0, List.length_cons,
        ih (i + 1) k (by omega) (by rwa [show i + 1 + k = i + (k + 1) by omega])
          (fun j hj => by
            have := hset (j + 1) (by omega)
            rwa [show i + (j + 1) = i + 1 + j by omega] at this)]

theorem lmgr_wait_ge (reads : Nat → Nat) (n i : Nat) :
    i ≤ lmgr_wait reads n i ∧ lmgr_wait reads n i ≤ i + n := by
  induction n generalizing i with
  | zero => simp [lmgr_wait]
  | succ n ih =>
    unfold lmgr_wait
    split
    · omega
    · have := ih (i + 1)
      omega

/-- The number of reads in terms of the loop counter at exit. -/
theorem lmgr_wait_reads_length (reads : Nat → Nat) (n i : Nat) :
    (lmgr_wait_reads reads n i).length = min n (lmgr_wait reads n i - i + 1) := by
  induction n generalizing i with
  | zero => simp [lmgr_wait_reads]
  | succ n ih =>
    unfold lmgr_wait_reads lmgr_wait
    by_cases hc : to_u32 (reads i) &&& QDMA_CSR_LMGR_START_BIT = 0
    · rw [if_pos hc, if_pos hc]
      simp
    · rw [if_neg hc, if_neg hc, List.length_cons, ih (i + 1)]
      have := (lmgr_wait_ge reads n (i + 1)).1
      omega

/-- A wait loop that made fewer reads than its bound ended on a clear start bit. -/
theorem lmgr_wait_reads_last_clear (reads : Nat → Nat) (n i : Nat)
    (hlt : (lmgr_wait_reads reads n i).length < n) :
    to_u32 (reads (i + ((lmgr_wait_reads reads n i).length - 1)))
      &&& QDMA_CSR_LMGR_START_BIT = 0 := by
  induction n generalizing i with
  | zero => omega
  | succ n ih =>
    unfold lmgr_wait_reads at hlt ⊢
    by_cases hc : to_u32 (reads i) &&& QDMA_CSR_LMGR_START_BIT = 0
    · rw [if_pos hc]
      exact hc
    · rw [if_neg hc] at hlt ⊢
      simp only [List.length_cons, Nat.add_lt_add_iff_right] at hlt
      have h1 := ih (i + 1) hlt
      have h2 : 1 ≤ (lmgr_wait_reads reads n (i + 1)).length := by
        cases n with
        | zero => omega
        | succ n => exact lmgr_wait_reads_length_pos reads n (i + 1)
      simp only [List.length_cons, Nat.add_sub_cancel]
      rwa [show i + 1 + ((lmgr_wait_reads reads n (i + 1)).length - 1)
        = i + (lmgr_wait_reads reads n (i + 1)).length by omega] at h1

/-- The loop counter at exit is the index of the first read with the start bit
clear. -/
theorem lmgr_wait_first_clear (reads : Nat → Nat) (n i k : Nat) (hk : k < n)
    (hclear : to_u32 (reads (i + k)) &&& QDMA_CSR_LMGR_START_BIT = 0)
    (hset : ∀ j, j < k → to_u32 (reads (i + j)) &&& QDMA_CSR_LMGR_START_BIT ≠ 0) :
    lmgr_wait reads n i = i + k := by
  induction n generalizing i k with
  | zero => omega
  | succ n ih =>
    unfold lmgr_wait
    cases k with
    | zero =>
      rw [Nat.add_zero] at hclear
      rw [if_pos hclear]
      rfl
    | succ k =>
      have h0 := hset 0 (by omega)
      rw [Nat.add_zero] at h0
      rw [if_neg h0,
        ih (i + 1) k (by omega) (by rwa [show i + 1 + k = i + (k + 1) by omega])
          (fun j hj => by
            have := hset (j + 1) (by omega)
            rwa [show i + (j + 1) = i + 1 + j by omega] at this)]
      omega

/-- C24. Bounded start-bit poll: for every sequence `reads` of values the
line-manager init register returns, the wait loop of `qdma_initialize_hw_fwd`
(bound 100, counter from 0) is a total function that makes at least one and at
most 100 register reads; the `k`-th read returns `reads k`; every read before
the last has the start bit (bit 31) set; the loop stops at the first read whose
start bit is clear (when that read is among the first 100, exactly `k + 1` reads
are made); a loop that made fewer than 100 reads ended on a read with the start
bit clear; and the loop counter at exit is at most 100. -/
theorem lmgr_poll_bounded (reads : Nat → Nat) :
    (lmgr_wait_reads reads 100 0).length ≤ 100 ∧
    1 ≤ (lmgr_wait_reads reads 100 0).length ∧
    (∀ k, k < (lmgr_wait_reads reads 100 0).length →
      (lmgr_wait_reads reads 100 0)[k]? = some (to_u32 (reads k))) ∧
    (∀ k, k + 1 < (lmgr_wait_reads reads 100 0).length →
      to_u32 (reads k) &&& QDMA_CSR_LMGR_START_BIT ≠ 0) ∧
    (∀ k, k < 100 → to_u32 (reads k) &&& QDMA_CSR_LMGR_START_BIT = 0 →
      (∀ j, j < k → to_u32 (reads j) &&& QDMA_CSR_LMGR_START_BIT ≠ 0) →
      (lmgr_wait_reads reads 100 0).length = k + 1 ∧ lmgr_wait reads 100 0 = k) ∧
    ((lmgr_wait_reads reads 100 0).length < 100 →
      to_u32 (reads ((lmgr_wait_reads reads 100 0).length - 1))
        &&& QDMA_CSR_LMGR_START_BIT = 0) ∧
    lmgr_wait reads 100 0 ≤ 100 ∧
    (lmgr_wait_reads reads 100 0).length = min 100 (lmgr_wait reads 100 0 + 1) := by
  have hlen := lmgr_wait_reads_length reads 100 0
  rw [Nat.sub_zero] at hlen
  refine ⟨lmgr_wait_reads_length_le reads 100 0, lmgr_wait_reads_length_pos reads 99 0,
    ?_, ?_, ?_, ?_, ?_, hlen⟩
  · intro k hk
    have := lmgr_wait_reads_get reads 100 0 k hk
    rwa [Nat.zero_add] at this
  · intro k hk
    have := lmgr_wait_reads_prefix_set reads 100 0 k hk
    rwa [Nat.zero_add] at this
  · intro k hk hclear hset
    have h := lmgr_wait_reads_first_clear reads 100 0 k hk (by rwa [Nat.zero_add])
      (fun j hj => by
        rw [Nat.zero_add]
        exact hset j hj)
    refine ⟨h, ?_⟩
    have hw := lmgr_wait_first_clear reads 100 0 k hk (by rwa [Nat.zero_add])
      (fun j hj => by
        rw [Nat.zero_add]
        exact hset j hj)
    rwa [Nat.zero_add] at hw
  · intro hlt
    have := lmgr_wait_reads_last_clear reads 100 0 hlt
    rwa [Nat.zero_add] at this
  · have := (lmgr_wait_ge reads 100 0).2
    omega

/-- C24 at a concrete register: when the start bit is set on the first three
reads and clear on the fourth, the wait loop makes exactly four reads. -/
theorem lmgr_poll_bounded_witness :
    (lmgr_wait_reads (fun k => if k < 3 then 0x80000000 else 0) 100 0).length = 4 ∧
    lmgr_wait (fun k => if k < 3 then 0x80000000 else 0) 100 0 = 3 :=
  (lmgr_poll_bounded (fun k => if k < 3 then 0x80000000 else 0)).2.2.2.2.1 3 (by decide)
    (by decide) (fun j hj => by interval_cases j <;> decide)

/-! ## RX slot index range -/

/-- C remainder by 4 lies strictly between -4 and 4. -/
theorem tmod4_bounds (a : Int) : -4 < Int.tmod a 4 ∧ Int.tmod a 4 < 4 := by
  refine ⟨?_, Int.tmod_lt_of_pos a (by decide)⟩
  by_cases h : 0 ≤ a
  · have := Int.tmod_nonneg 4 h
    omega
  · have h1 : Int.tmod (-a) 4 < 4 := Int.tmod_lt_of_pos (-a) (by decide)
    have h2 : Int.tmod (-a) 4 = -Int.tmod a 4 := by
      rw [Int.tmod_def, Int.tmod_def, Int.neg_tdiv]
      omega
    omega

/-- C25, the code at the failing input. The slot index of `rx0_done` is computed
in `int` arithmetic, so it is negative for register values that are negative as
`int`: the value `0x80000000` gives `idx = -1` and array position
`4 + idx = 3`, which is TX slot 3 (`0xFFFFFFFC` gives -1 as well, and
`0x7FFFFFFF` gives -2 after the addition wraps). In a state with a frame queued
in TX slot 3, `rx0_done` then hands that TX frame to the network stack, rebinds
TX slot 3 to the RX replacement buffer, overwrites its descriptor's address and
length, and writes `0xFFFFFFFF` to the RX cpu-index register. For every register
value the index lies in -3..3 and the array position in 1..7: the accesses stay
inside the 8-entry arrays but can leave the RX half. -/
theorem rx_index_negative :
    rx0_done_idx 0x80000000 = -1 ∧
    rx0_get_dscp (rx0_done_idx 0x80000000) = 3 ∧
    rx0_done_idx 0xFFFFFFFC = -1 ∧
    rx0_done_idx 0x7FFFFFFF = -2 ∧
    mtk_r32 rx_bad_index_state QDMA_CSR_RX_DMA_IDX = 0x80000000 ∧
    rx_bad_index_state.dscp_sk_buff_p_ary 3 = some ⟨4, 64, 0, 0x400⟩ ∧
    (rx_bad_index_state.dscp_ary 3).pkt_addr = 0xA800 ∧
    (rx_bad_index_state.dscp_ary 3).pkt_len = 64 ∧
    (rx0_done rx_bad_index_state (some ⟨7, 0, 0, 0xC000⟩) 0xC000).netif_rx_log
      = [⟨4, 128, 0, 0x400⟩] ∧
    (rx0_done rx_bad_index_state (some ⟨7, 0, 0, 0xC000⟩) 0xC000).dscp_sk_buff_p_ary 3
      = some ⟨7, 0, 0, 0xC000⟩ ∧
    ((rx0_done rx_bad_index_state (some ⟨7, 0, 0, 0xC000⟩) 0xC000).dscp_ary 3).pkt_addr
      = 0xC000 ∧
    ((rx0_done rx_bad_index_state (some ⟨7, 0, 0, 0xC000⟩) 0xC000).dscp_ary 3).pkt_len
      = 1518 ∧
    (rx0_done rx_bad_index_state (some ⟨7, 0, 0, 0xC000⟩) 0xC000).regs QDMA_CSR_RX_CPU_IDX
      = 0xFFFFFFFF ∧
    (∀ val : Nat, -3 ≤ rx0_done_idx val ∧ rx0_done_idx val ≤ 3 ∧
      1 ≤ rx0_get_dscp (rx0_done_idx val) ∧ rx0_get_dscp (rx0_done_idx val) < DSCP_NUM) := by
  refine ⟨by decide, by decide, by decide, by decide, by decide, by decide, by decide,
    by decide, by decide, by decide, by decide, by decide, by decide, ?_⟩
  intro val
  have hb := tmod4_bounds (wrap_int (to_int val + ((RX0_DSCP_NUM : Int) - 1)))
  have h4 : ((RX0_DSCP_NUM : Nat) : Int) = 4 := rfl
  have hT : ((TX0_DSCP_NUM : Nat) : Int) = 4 := rfl
  have hD : DSCP_NUM = 8 := rfl
  unfold rx0_get_dscp rx0_done_idx
  rw [h4, hT, hD]
  rw [h4] at hb
  omega

/-! ## Completion-queue drain and the queue depth -/

/-- The completion queue after `tx0_recycle_if_required`. -/
theorem tx0_recycle_irq_queue (eth : Engine) (i : Nat) :
    (tx0_recycle_if_required eth).irq_queue i =
      if i < irq_status_entry_len (mtk_r32 eth QDMA_CSR_IRQ_STATUS) then IRQ_DEF_VALUE
      else eth.irq_queue i := by
  unfold tx0_recycle_if_required
  simp only [mtk_w32_irq_queue]
  rw [recycle_fold_irq_queue]

/-- C26, the code at the failing input. The loop bound of
`tx0_recycle_if_required` is the 12-bit entry-count field of the IRQ status
register (at most 4095) and is not compared with the queue depth
`QDMA_IRQ_QUEUE_DEPTH = 20`: the drain writes the sentinel to every index below
the entry count. With a status value reporting 200 entries (`drain_state`) it
writes the words 20 and 199, beyond the 20 allocated words; with the field at
most 20 every written index is below 20. -/
theorem drain_exceeds_queue_depth :
    QDMA_IRQ_QUEUE_DEPTH = 20 ∧
    irq_status_entry_len (mtk_r32 drain_state QDMA_CSR_IRQ_STATUS) = 200 ∧
    drain_state.irq_queue 20 = 0 ∧
    (tx0_recycle_if_required drain_state).irq_queue 20 = 0xFFFFFFFF ∧
    drain_state.irq_queue 199 = 0 ∧
    (tx0_recycle_if_required drain_state).irq_queue 199 = 0xFFFFFFFF ∧
    (∀ (eth : Engine) (i : Nat), (tx0_recycle_if_required eth).irq_queue i =
      if i < irq_status_entry_len (mtk_r32 eth QDMA_CSR_IRQ_STATUS) then IRQ_DEF_VALUE
      else eth.irq_queue i) ∧
    (∀ eth : Engine, irq_status_entry_len (mtk_r32 eth QDMA_CSR_IRQ_STATUS) ≤ 4095) ∧
    irq_status_entry_len 0x0FFF0000 = 4095 ∧
    (∀ (eth : Engine) (i : Nat),
      irq_status_entry_len (mtk_r32 eth QDMA_CSR_IRQ_STATUS) ≤ QDMA_IRQ_QUEUE_DEPTH →
      (tx0_recycle_if_required eth).irq_queue i ≠ eth.irq_queue i →
      i < QDMA_IRQ_QUEUE_DEPTH) := by
  have hlen : irq_status_entry_len (mtk_r32 drain_state QDMA_CSR_IRQ_STATUS) = 200 := by decide
  refine ⟨rfl, hlen, rfl, ?_, rfl, ?_, tx0_recycle_irq_queue, ?_, by decide, ?_⟩
  · rw [tx0_recycle_irq_queue, hlen]
    rfl
  · rw [tx0_recycle_irq_queue, hlen]
    rfl
  · intro eth
    rw [irq_status_entry_len_eq]
    have := Nat.mod_lt (mtk_r32 eth QDMA_CSR_IRQ_STATUS / 2 ^ 16) (show 0 < 2 ^ 12 by decide)
    omega
  · intro eth i hle hne
    rw [tx0_recycle_irq_queue] at hne
    by_cases hi : i < irq_status_entry_len (mtk_r32 eth QDMA_CSR_IRQ_STATUS)
    · omega
    · rw [if_neg hi] at hne
      exact absurd rfl hne

/-! ## TX binding invariant -/

/-- Filling the RX ring leaves every descriptor outside the filled positions as it
was. -/
theorem rx_ring_fill_desc_elsewhere (env : ConfigEnv) (l : List Nat) (eth : Engine) (p : Nat)
    (hp : ∀ i, i ∈ l → p ≠ TX0_DSCP_NUM + i) :
    (l.foldl
      (fun (e : Engine) (i : Nat) =>
        let dscp := rx0_get_dscp (i : Int)
        let e := rx0_dscp_defaults e dscp
        (rx0_new_skb e (i : Int) dscp (env.rx_alloc i) (env.rx_phys i)).1) eth).dscp_ary p
      = eth.dscp_ary p := by
  induction l generalizing eth with
  | nil => rfl
  | cons a t ih =>
    have hpos : rx0_get_dscp (a : Int) = TX0_DSCP_NUM + a := by
      unfold rx0_get_dscp
      rw [← Nat.cast_add]
      exact Int.toNat_natCast _
    have hne : p ≠ rx0_get_dscp (a : Int) := by
      rw [hpos]
      exact hp a (List.mem_cons_self a t)
    simp only [List.foldl]
    rw [ih _ (fun i hi => hp i (List.mem_cons_of_mem a hi)), rx0_new_skb_dscp_ary,
      if_neg (fun hc => hne hc.2.2)]
    unfold rx0_dscp_defaults
    rw [dscp_store_dscp_ary, if_neg hne]

/-- Linking the TX ring changes no packet address. -/
theorem tx_ring_link_pkt_addr (l : List Nat) (eth : Engine) (p : Nat) :
    ((l.foldl
      (fun (e : Engine) i => dscp_store e i (set_desc_next_idx (e.dscp_ary i) (i + 1)))
      eth).dscp_ary p).pkt_addr = (eth.dscp_ary p).pkt_addr := by
  induction l generalizing eth with
  | nil => rfl
  | cons a t ih =>
    simp only [List.foldl]
    rw [ih, dscp_store_dscp_ary]
    split
    · next h => rw [h]; rfl
    · rfl

/-- After `qdma_config` every TX descriptor has `pkt_addr = 0` and every TX
binding is what it was on entry. -/
theorem qdma_config_tx_slots (eth : Engine) (env : ConfigEnv) (p : Nat) (hp : p < TX0_DSCP_NUM) :
    ((qdma_config eth env).1.dscp_ary p).pkt_addr = 0 ∧
    (qdma_config eth env).1.dscp_sk_buff_p_ary p = eth.dscp_sk_buff_p_ary p := by
  have hT : TX0_DSCP_NUM = 4 := rfl
  have hne : ∀ i, i ∈ List.range RX0_DSCP_NUM → p ≠ TX0_DSCP_NUM + i := by
    intro i _
    omega
  have hp8 : p < DSCP_NUM := by
    have hD : DSCP_NUM = 8 := rfl
    omega
  constructor
  · unfold qdma_config
    simp only [mtk_w32_dscp_ary]
    unfold qdma_initialize_rx_ring
    rw [rx_ring_fill_desc_elsewhere env _ _ p hne]
    simp only [mtk_w32_dscp_ary]
    unfold qdma_initialize_tx_ring
    rw [tx_ring_link_pkt_addr]
    show ((if p < DSCP_NUM then zero_desc else eth.dscp_ary p)).pkt_addr = 0
    rw [if_pos hp8]
    rfl
  · unfold qdma_config
    simp only [mtk_w32_skb]
    unfold qdma_initialize_rx_ring
    rw [rx_ring_fill_elsewhere env _ _ p hne]
    rfl

/-- The TX consistency property depends on the TX descriptors, the TX bindings
and the TX cpu-index register only. -/
theorem tx_bindings_consistent_congr {eth eth2 : Engine}
    (hd : ∀ p, p < TX0_DSCP_NUM → eth2.dscp_ary p = eth.dscp_ary p)
    (hb : ∀ p, p < TX0_DSCP_NUM → eth2.dscp_sk_buff_p_ary p = eth.dscp_sk_buff_p_ary p)
    (hr : mtk_r32 eth2 QDMA_CSR_TX_CPU_IDX = mtk_r32 eth QDMA_CSR_TX_CPU_IDX)
    (h : tx_bindings_consistent eth) : tx_bindings_consistent eth2 := by
  obtain ⟨hl, hiff, hsel⟩ := h
  have hi : mtk_r32 eth QDMA_CSR_TX_CPU_IDX % TX0_DSCP_NUM < TX0_DSCP_NUM :=
    Nat.mod_lt _ (by decide)
  refine ⟨?_, ?_, ?_⟩
  · intro i hi
    rw [hd i hi]
    exact hl i hi
  · intro i hi
    rw [hd i hi, hb i hi]
    exact hiff i hi
  · rw [hr, hb _ hi]
    exact hsel

/-- The state after a successful `mtk_tx_map` on a linked ring, slot by slot, with
`i` the selected slot: packet addresses, bindings and the buffers released. -/
theorem mtk_tx_map_ok_slots (eth : Engine) (skb : sk_buff) (m i : Nat)
    (hl : tx_ring_linked eth) (hm : to_dma_addr m ≠ 0)
    (hi : i = mtk_r32 eth QDMA_CSR_TX_CPU_IDX % TX0_DSCP_NUM) :
    (∀ p, ((mtk_tx_map eth skb m).1.dscp_ary p).pkt_addr =
      if p = (i + 1) % 4 ∨ p = (i + 2) % 4 then 0
      else if p = i then to_dma_addr m else (eth.dscp_ary p).pkt_addr) ∧
    (∀ p, (mtk_tx_map eth skb m).1.dscp_sk_buff_p_ary p =
      if p = (i + 1) % 4 ∨ p = (i + 2) % 4 then
        (if (eth.dscp_ary p).pkt_addr ≠ 0 then none else eth.dscp_sk_buff_p_ary p)
      else if p = i then some (mtk_tx_pad skb) else eth.dscp_sk_buff_p_ary p) ∧
    (mtk_tx_map eth skb m).1.freed =
      (if (eth.dscp_ary ((i + 2) % 4)).pkt_addr ≠ 0 then
          [eth.dscp_sk_buff_p_ary ((i + 2) % 4)] else []) ++
      ((if (eth.dscp_ary ((i + 1) % 4)).pkt_addr ≠ 0 then
          [eth.dscp_sk_buff_p_ary ((i + 1) % 4)] else []) ++ eth.freed) := by
  have hi4 : i < 4 := by
    rw [hi]
    exact Nat.mod_lt _ (by decide)
  have hlw : tx_ring_linked (tx_written_state eth skb m) :=
    tx_ring_linked_of_links (tx_written_state_links eth skb m) hl
  obtain ⟨-, -, hd, hb, hf⟩ := tx0_free_some_linked (tx_written_state eth skb m) i hlw hi4
  have hwd : ∀ p, (tx_written_state eth skb m).dscp_ary p =
      if p = i then tx_written_desc eth skb m else eth.dscp_ary p := by
    intro p
    unfold tx_written_state
    rw [dscp_store_dscp_ary, ← hi, skb_store_dscp_ary]
  have hwb : ∀ p, (tx_written_state eth skb m).dscp_sk_buff_p_ary p =
      if p = i then some (mtk_tx_pad skb) else eth.dscp_sk_buff_p_ary p := by
    intro p
    unfold tx_written_state
    rw [dscp_store_skb, skb_store_skb, ← hi]
  have hwf : (tx_written_state eth skb m).freed = eth.freed := rfl
  have h1 : (i + 1) % 4 ≠ i := by omega
  have h2 : (i + 2) % 4 ≠ i := by omega
  rw [mtk_tx_map_ok eth skb m hm, ← hi]
  simp only [mtk_w32_dscp_ary, mtk_w32_skb]
  refine ⟨?_, ?_, ?_⟩
  · intro p
    rw [hd]
    by_cases hp : p = (i + 1) % 4 ∨ p = (i + 2) % 4
    · rw [if_pos hp, if_pos hp]
      rfl
    · rw [if_neg hp, if_neg hp, hwd]
      by_cases hpi : p = i
      · rw [if_pos hpi, if_pos hpi]
        rfl
      · rw [if_neg hpi, if_neg hpi]
  · intro p
    rw [hb]
    by_cases hp : p = (i + 1) % 4 ∨ p = (i + 2) % 4
    · have hpi : p ≠ i := by
        rcases hp with h | h <;> omega
      rw [if_pos hp, hwd, hwb, if_neg hpi, if_neg hpi]
      by_cases ha : (eth.dscp_ary p).pkt_addr ≠ 0
      · rw [if_pos ⟨hp, ha⟩, if_pos ha]
      · rw [if_neg (fun hc => ha hc.2), if_neg ha]
    · rw [if_neg (fun hc => hp hc.1), if_neg hp, hwb]
  · show (tx0_free_some (tx_written_state eth skb m) i).freed = _
    rw [hf, hwd, hwd, hwb, hwb, if_neg h1, if_neg h2, if_neg h1, if_neg h2, hwf]

theorem tx_bindings_consistent_w32 (eth : Engine) (v r : Nat) (hr : r ≠ QDMA_CSR_TX_CPU_IDX)
    (h : tx_bindings_consistent eth) : tx_bindings_consistent (mtk_w32 eth v r) := by
  refine @tx_bindings_consistent_congr eth (mtk_w32 eth v r) (fun p _ => rfl) (fun p _ => rfl)
    ?_ h
  rw [mtk_r32_mtk_w32, if_neg (Ne.symm hr)]

/-- A submission, successful or failed, preserves the TX consistency property. -/
theorem tx_bindings_consistent_tx_map (eth : Engine) (skb : sk_buff) (m : Nat)
    (h : tx_bindings_consistent eth) : tx_bindings_consistent (mtk_tx_map eth skb m).1 := by
  obtain ⟨hl, hiff, hsel⟩ := h
  have hT : TX0_DSCP_NUM = 4 := rfl
  have hl2 : tx_ring_linked (mtk_tx_map eth skb m).1 :=
    tx_ring_linked_of_links (mtk_tx_map_links eth skb m) hl
  obtain ⟨i, hi⟩ : ∃ i, i = mtk_r32 eth QDMA_CSR_TX_CPU_IDX % TX0_DSCP_NUM := ⟨_, rfl⟩
  have hi4 : i < 4 := by
    rw [hi]
    exact Nat.mod_lt _ (by decide)
  rw [← hi] at hsel
  by_cases hm : to_dma_addr m = 0
  · obtain ⟨-, -, hregs, hbind, -, -⟩ := mtk_tx_map_fail_fields eth skb m hm
    have hd : ∀ p, ((mtk_tx_map eth skb m).1.dscp_ary p).pkt_addr =
        if p = i then 0 else (eth.dscp_ary p).pkt_addr := by
      intro p
      rw [mtk_tx_map_fail eth skb m hm, ← hi]
      simp only [dscp_store_dscp_ary]
      by_cases hp : p = i
      · rw [if_pos hp, if_pos hp]
      · rw [if_neg hp, if_neg hp, if_neg hp]
    refine ⟨hl2, ?_, ?_⟩
    · intro p hp
      rw [hd, hbind]
      by_cases hpi : p = i
      · rw [if_pos hpi, hpi, hsel]
        simp
      · rw [if_neg hpi]
        exact hiff p hp
    · have hr : mtk_r32 (mtk_tx_map eth skb m).1 QDMA_CSR_TX_CPU_IDX
          = mtk_r32 eth QDMA_CSR_TX_CPU_IDX := by
        unfold mtk_r32
        rw [hregs]
      rw [hr, hbind, ← hi]
      exact hsel
  · obtain ⟨hpa, hbd, -⟩ := mtk_tx_map_ok_slots eth skb m i hl hm hi
    have hrel : ∀ p, p < 4 → (p = (i + 1) % 4 ∨ p = (i + 2) % 4) →
        (if (eth.dscp_ary p).pkt_addr ≠ 0 then none else eth.dscp_sk_buff_p_ary p) = none := by
      intro p hp _
      by_cases ha : (eth.dscp_ary p).pkt_addr ≠ 0
      · rw [if_pos ha]
      · rw [if_neg ha]
        by_contra hb
        exact ha ((hiff p hp).mpr hb)
    refine ⟨hl2, ?_, ?_⟩
    · intro p hp
      rw [hpa, hbd]
      by_cases hq : p = (i + 1) % 4 ∨ p = (i + 2) % 4
      · rw [if_pos hq, if_pos hq, hrel p hp hq]
        simp
      · rw [if_neg hq, if_neg hq]
        by_cases hpi : p = i
        · rw [if_pos hpi, if_pos hpi]
          simp [hm]
        · rw [if_neg hpi, if_neg hpi]
          exact hiff p hp
    · have hr : mtk_r32 (mtk_tx_map eth skb m).1 QDMA_CSR_TX_CPU_IDX = (i + 1) % 4 := by
        rw [mtk_tx_map_cpu_idx eth skb m hm, ← hi]
        exact hl i hi4
      rw [hr, hT, Nat.mod_mod, hbd, if_pos (Or.inl rfl)]
      exact hrel _ (Nat.mod_lt _ (by decide)) (Or.inl rfl)

theorem tx_bindings_consistent_start_xmit (eth : Engine) (skb : sk_buff) (m : Nat)
    (h : tx_bindings_consistent eth) : tx_bindings_consistent (mtk_start_xmit eth skb m).1 := by
  unfold mtk_start_xmit
  split
  · exact tx_bindings_consistent_congr (fun p _ => rfl) (fun p _ => rfl) rfl h
  · simp only []
    split
    · exact tx_bindings_consistent_congr (fun p _ => rfl) (fun p _ => rfl) rfl
        (tx_bindings_consistent_tx_map eth skb m h)
    · exact tx_bindings_consistent_tx_map eth skb m h

/-- An RX completion with an in-range hardware index preserves the TX consistency
property. -/
theorem tx_bindings_consistent_rx_done (eth : Engine) (b : Option sk_buff) (m : Nat)
    (hr : mtk_r32 eth QDMA_CSR_RX_DMA_IDX < RX0_DSCP_NUM)
    (h : tx_bindings_consistent eth) : tx_bindings_consistent (rx0_done eth b m) := by
  have hT : TX0_DSCP_NUM = 4 := rfl
  have hpos := (rx0_done_idx_in_range (mtk_r32 eth QDMA_CSR_RX_DMA_IDX) hr).2
  refine tx_bindings_consistent_congr ?_ ?_ ?_ h
  · intro p hp
    rw [rx0_done_dscp_ary, hpos, if_neg (by omega)]
  · intro p hp
    rw [rx0_done_skb_at, hpos, if_neg (fun hc => by omega)]
  · unfold mtk_r32
    rw [rx0_done_regs, if_neg (by decide)]

theorem tx_bindings_consistent_recycle (eth : Engine)
    (h : tx_bindings_consistent eth) : tx_bindings_consistent (tx0_recycle_if_required eth) := by
  refine tx_bindings_consistent_congr ?_ ?_ ?_ h
  · intro p _
    rw [tx0_recycle_dscp_ary]
  · intro p _
    unfold tx0_recycle_if_required
    simp only [mtk_w32_skb]
    rw [(recycle_fold_other _ eth).2.1]
  · unfold tx0_recycle_if_required
    simp only [mtk_r32_mtk_w32]
    rw [if_neg (by decide)]
    unfold mtk_r32
    rw [(recycle_fold_other _ eth).2.2.2]

theorem tx_bindings_consistent_handle_irq (eth : Engine) (b : Option sk_buff) (m : Nat)
    (hr : mtk_r32 eth QDMA_CSR_RX_DMA_IDX < RX0_DSCP_NUM)
    (h : tx_bindings_consistent eth) : tx_bindings_consistent (mtk_handle_irq eth b m) := by
  unfold mtk_handle_irq
  apply tx_bindings_consistent_w32 _ _ _ (by decide)
  split
  · exact tx_bindings_consistent_rx_done eth b m hr h
  · split
    · exact tx_bindings_consistent_recycle eth h
    · exact h

/-- The TX consistency property holds when `qdma_config` returns, provided no TX
slot was bound on entry. -/
theorem tx_bindings_consistent_init (eth : Engine) (env : ConfigEnv)
    (h0 : ∀ p, p < TX0_DSCP_NUM → eth.dscp_sk_buff_p_ary p = none) :
    tx_bindings_consistent (qdma_config eth env).1 := by
  refine ⟨qdma_config_linked eth env, ?_, ?_⟩
  · intro i hi
    obtain ⟨ha, hb⟩ := qdma_config_tx_slots eth env i hi
    rw [ha, hb, h0 i hi]
    simp
  · have hi : mtk_r32 (qdma_config eth env).1 QDMA_CSR_TX_CPU_IDX % TX0_DSCP_NUM < TX0_DSCP_NUM :=
      Nat.mod_lt _ (by decide)
    rw [(qdma_config_tx_slots eth env _ hi).2]
    exact h0 _ hi

theorem tx_reachable_consistent (eth : Engine) (h : TxReachable eth) :
    tx_bindings_consistent eth := by
  induction h with
  | init eth env h0 => exact tx_bindings_consistent_init eth env h0
  | hw_regs eth regs _ hr ih =>
    refine @tx_bindings_consistent_congr eth { eth with regs := regs } (fun p _ => rfl)
      (fun p _ => rfl) ?_ ih
    show to_u32 (regs QDMA_CSR_TX_CPU_IDX) = to_u32 (eth.regs QDMA_CSR_TX_CPU_IDX)
    rw [hr]
  | tx_map eth skb m _ ih => exact tx_bindings_consistent_tx_map eth skb m ih
  | start_xmit eth skb m _ ih => exact tx_bindings_consistent_start_xmit eth skb m ih
  | rx_done eth b m _ hr ih => exact tx_bindings_consistent_rx_done eth b m hr ih
  | recycle eth _ ih => exact tx_bindings_consistent_recycle eth ih
  | handle_irq eth b m _ hr ih => exact tx_bindings_consistent_handle_irq eth b m hr ih

/-- The buffers a submission releases in a consistent state are all real
buffers: `tx0_free_skb` is applied to bound slots only. -/
theorem tx_map_frees_bound (eth : Engine) (skb : sk_buff) (m : Nat)
    (h : tx_bindings_consistent eth) :
    ∃ l : List (Option sk_buff), (mtk_tx_map eth skb m).1.freed = l ++ eth.freed ∧
      l.length ≤ 2 ∧ ∀ x, x ∈ l → x ≠ none := by
  obtain ⟨hl, hiff, -⟩ := h
  by_cases hm : to_dma_addr m = 0
  · exact ⟨[], (mtk_tx_map_fail_fields eth skb m hm).2.2.2.2.2, by decide,
      fun x hx => absurd hx (List.not_mem_nil x)⟩
  · obtain ⟨-, -, hf⟩ := mtk_tx_map_ok_slots eth skb m _ hl hm rfl
    have h1 := hiff ((mtk_r32 eth QDMA_CSR_TX_CPU_IDX % TX0_DSCP_NUM + 1) % 4)
      (Nat.mod_lt _ (by decide))
    have h2 := hiff ((mtk_r32 eth QDMA_CSR_TX_CPU_IDX % TX0_DSCP_NUM + 2) % 4)
      (Nat.mod_lt _ (by decide))
    refine ⟨_, by rw [hf, List.append_assoc], ?_, ?_⟩
    · rw [List.length_append]
      split <;> split <;> simp
    · intro x hx
      rw [List.mem_append] at hx
      rcases hx with hx | hx
      · split at hx
        · next ha =>
          rw [List.mem_singleton] at hx
          rw [hx]
          exact h2.mp ha
        · exact absurd hx (List.not_mem_nil x)
      · split at hx
        · next ha =>
          rw [List.mem_singleton] at hx
          rw [hx]
          exact h1.mp ha
        · exact absurd hx (List.not_mem_nil x)

/-- C27, the code at the failing input, and the invariant away from it. The
state `tx_rx_clash_state` is reached from initialization by three submissions
(the next submission selects TX slot 3, which is unbound) and its RX
hardware-index register reads `0x80000000`. An RX completion then computes the
slot index -1 and binds its replacement buffer 7 to array position 3: the slot
selected by the next submission is now bound, so the TX consistency property is
lost. The next submission overwrites that binding with its frame 5, and buffer 7
is then bound to no slot, was never released and was never handed to the network
stack. With RX completions entered with the hardware index in 0..3 the
invariant holds: in every state reachable from an initialization that found no
TX slot bound, by submissions (successful or failed), drains, interrupt
dispatches and such RX completions, with the hardware changing any register but
the TX cpu-index register, the TX ring is linked, a TX slot has a non-zero
`pkt_addr` exactly when a buffer is bound to it, the slot selected by the next
submission is unbound, and the at most two buffers the next submission releases
are all bound buffers. -/
theorem tx_binding_broken_by_rx_index :
    (TxReachable tx_rx_clash_state ∧
     mtk_r32 tx_rx_clash_state QDMA_CSR_RX_DMA_IDX = 0x80000000 ∧
     mtk_r32 tx_rx_clash_state QDMA_CSR_TX_CPU_IDX % TX0_DSCP_NUM = 3 ∧
     tx_rx_clash_state.dscp_sk_buff_p_ary 3 = none ∧
     mtk_r32 (rx0_done tx_rx_clash_state (some ⟨7, 0, 0, 0xC000⟩) 0xC000) QDMA_CSR_TX_CPU_IDX
       % TX0_DSCP_NUM = 3 ∧
     (rx0_done tx_rx_clash_state (some ⟨7, 0, 0, 0xC000⟩) 0xC000).dscp_sk_buff_p_ary 3
       = some ⟨7, 0, 0, 0xC000⟩ ∧
     ¬ tx_bindings_consistent (rx0_done tx_rx_clash_state (some ⟨7, 0, 0, 0xC000⟩) 0xC000) ∧
     (mtk_tx_map (rx0_done tx_rx_clash_state (some ⟨7, 0, 0, 0xC000⟩) 0xC000)
       ⟨5, 60, 0, 0x500⟩ 0xB000).1.dscp_sk_buff_p_ary 3 = some ⟨5, 60, 0, 0x500⟩ ∧
     (∀ p, p < DSCP_NUM →
       (mtk_tx_map (rx0_done tx_rx_clash_state (some ⟨7, 0, 0, 0xC000⟩) 0xC000)
         ⟨5, 60, 0, 0x500⟩ 0xB000).1.dscp_sk_buff_p_ary p ≠ some ⟨7, 0, 0, 0xC000⟩) ∧
     (mtk_tx_map (rx0_done tx_rx_clash_state (some ⟨7, 0, 0, 0xC000⟩) 0xC000)
       ⟨5, 60, 0, 0x500⟩ 0xB000).1.freed = [some ⟨2, 100, 0, 0x200⟩, some ⟨1, 60, 0, 0x100⟩] ∧
     (mtk_tx_map (rx0_done tx_rx_clash_state (some ⟨7, 0, 0, 0xC000⟩) 0xC000)
       ⟨5, 60, 0, 0x500⟩ 0xB000).1.netif_rx_log = []) ∧
    (∀ eth : Engine, TxReachable eth →
      tx_ring_linked eth ∧
      (∀ i, i < TX0_DSCP_NUM →
        ((eth.dscp_ary i).pkt_addr ≠ 0 ↔ eth.dscp_sk_buff_p_ary i ≠ none)) ∧
      eth.dscp_sk_buff_p_ary (mtk_r32 eth QDMA_CSR_TX_CPU_IDX % TX0_DSCP_NUM) = none ∧
      (∀ (skb : sk_buff) (mapped : Nat), ∃ l : List (Option sk_buff),
        (mtk_tx_map eth skb mapped).1.freed = l ++ eth.freed ∧ l.length ≤ 2 ∧
        ∀ x, x ∈ l → x ≠ none)) := by
  refine ⟨⟨?_, by decide, by decide, by decide, by decide, by decide, ?_, by decide, ?_,
    by decide, by decide⟩, ?_⟩
  · exact TxReachable.hw_regs _ _
      (TxReachable.tx_map _ _ _ (TxReachable.tx_map _ _ _ (TxReachable.tx_map _ _ _
        (TxReachable.init zero_engine good_env (fun _ _ => rfl)))))
      (Function.update_noteq (by decide) _ _)
  · intro h
    have hs := h.2.2
    have e : (rx0_done tx_rx_clash_state (some ⟨7, 0, 0, 0xC000⟩) 0xC000).dscp_sk_buff_p_ary
        (mtk_r32 (rx0_done tx_rx_clash_state (some ⟨7, 0, 0, 0xC000⟩) 0xC000) QDMA_CSR_TX_CPU_IDX
          % TX0_DSCP_NUM) = some ⟨7, 0, 0, 0xC000⟩ := by decide
    rw [e] at hs
    exact absurd hs (by simp)
  · intro p hp
    have hD : DSCP_NUM = 8 := rfl
    rw [hD] at hp
    interval_cases p <;> decide
  · intro eth h
    have hJ := tx_reachable_consistent eth h
    exact ⟨hJ.1, hJ.2.1, hJ.2.2, fun skb mapped => tx_map_frees_bound eth skb mapped hJ⟩

/-! ## Acknowledged interrupt bits -/

/-- The interrupt status register after `mtk_handle_irq` holds the value written
back, in every branch. -/
theorem mtk_handle_irq_status_reg (eth : Engine) (b : Option sk_buff) (m : Nat) :
    mtk_r32 (mtk_handle_irq eth b m) MTK_QDMA_INT_STATUS =
      mtk_r32 eth MTK_QDMA_INT_STATUS &&& mtk_r32 eth MTK_QDMA_INT_MASK := by
  have hlt : mtk_r32 eth MTK_QDMA_INT_STATUS &&& mtk_r32 eth MTK_QDMA_INT_MASK < 2 ^ 32 :=
    lt_of_le_of_lt Nat.and_le_left (mtk_r32_lt eth _)
  unfold mtk_handle_irq
  simp only [mtk_r32_mtk_w32, if_true, to_u32_of_lt hlt]

/-- C28. Acknowledged bits are pending and enabled: let `mask` and `status` be
the values `mtk_handle_irq` reads from the interrupt mask and status registers.
Whichever path is taken (RX completion, drain, or neither), the write to the
interrupt status register is the last register write of the handler, it is the
only write to that register, and its value is `status AND mask`; every bit of
the written value is set in `status` and set in `mask`, so a bit clear in
`status` or clear in `mask` is never acknowledged. -/
theorem irq_ack_value (eth : Engine) (new_skb : Option sk_buff) (mapped mask status : Nat)
    (hm : mtk_r32 eth MTK_QDMA_INT_MASK = mask) (hs : mtk_r32 eth MTK_QDMA_INT_STATUS = status) :
    (mtk_handle_irq eth new_skb mapped).wlog.head? = some (MTK_QDMA_INT_STATUS, status &&& mask) ∧
    (written_regs eth (mtk_handle_irq eth new_skb mapped)).count MTK_QDMA_INT_STATUS = 1 ∧
    mtk_r32 (mtk_handle_irq eth new_skb mapped) MTK_QDMA_INT_STATUS = status &&& mask ∧
    (∀ i, (status &&& mask).testBit i = true → status.testBit i = true ∧ mask.testBit i = true) ∧
    (∀ i, status.testBit i = false ∨ mask.testBit i = false →
      (status &&& mask).testBit i = false) ∧
    status &&& mask ≤ status ∧ status &&& mask ≤ mask := by
  subst hm hs
  refine ⟨mtk_handle_irq_wlog_head eth new_skb mapped, ?_,
    mtk_handle_irq_status_reg eth new_skb mapped, ?_, ?_, Nat.and_le_left, Nat.and_le_right⟩
  · obtain ⟨hrx, htx, hno⟩ := mtk_handle_irq_written eth new_skb mapped
    cases h1 : (mtk_r32 eth MTK_QDMA_INT_STATUS).testBit 1 with
    | true =>
      rw [hrx h1]
      decide
    | false =>
      cases h0 : (mtk_r32 eth MTK_QDMA_INT_STATUS).testBit 0 with
      | true =>
        rw [htx h1 h0]
        decide
      | false =>
        rw [hno h1 h0]
        decide
  · intro i hi
    rw [Nat.testBit_and, Bool.and_eq_true] at hi
    exact hi
  · intro i hi
    rw [Nat.testBit_and]
    rcases hi with hi | hi <;> simp [hi]

/-- C28 at a concrete state: with status `0b0111` and mask `0b0101` the RX path
runs and the value written back is `0b0101`: bit 1 (RX-done, pending but not
enabled) is not acknowledged. -/
theorem irq_ack_value_witness :
    (mtk_handle_irq
      { zero_engine with
        regs := fun r => if r = MTK_QDMA_INT_STATUS then 7 else if r = MTK_QDMA_INT_MASK then 5 else 0 }
      none 0).wlog.head? = some (MTK_QDMA_INT_STATUS, 5) :=
  (irq_ack_value
    { zero_engine with
      regs := fun r => if r = MTK_QDMA_INT_STATUS then 7 else if r = MTK_QDMA_INT_MASK then 5 else 0 }
    none 0 5 7 (by decide) (by decide)).1

/-! ## TX slot index range -/

/-- The state handed to the reclaim differs from the entry state at the selected
slot only. -/
theorem tx_written_state_elsewhere (eth : Engine) (skb : sk_buff) (m p : Nat)
    (hp : p ≠ mtk_r32 eth QDMA_CSR_TX_CPU_IDX % TX0_DSCP_NUM) :
    (tx_written_state eth skb m).dscp_ary p = eth.dscp_ary p ∧
    (tx_written_state eth skb m).dscp_sk_buff_p_ary p = eth.dscp_sk_buff_p_ary p := by
  unfold tx_written_state
  rw [dscp_store_dscp_ary, if_neg hp, skb_store_dscp_ary, dscp_store_skb, skb_store_skb,
    if_neg hp]
  exact ⟨rfl, rfl⟩

/-- C29. TX slot index is always in range: whatever the TX cpu-index register
holds, the slot index `mtk_tx_map` computes (the register value modulo 4, in
unsigned arithmetic) is below 4, so the selected descriptor position is one of
the TX positions 0..3 and differs from every RX position `4 + j`. The writes
`mtk_tx_map` makes through the selected slot stay there: when the mapping fails
no descriptor or binding at another position changes; when it succeeds the state
handed to the reclaim differs from the entry state at that position only, and on
a linked ring no descriptor or binding at position 4 or above changes. -/
theorem tx_index_in_range (eth : Engine) (skb : sk_buff) (mapped : Nat) :
    mtk_r32 eth QDMA_CSR_TX_CPU_IDX % TX0_DSCP_NUM < TX0_DSCP_NUM ∧
    tx0_get_dscp (mtk_r32 eth QDMA_CSR_TX_CPU_IDX % TX0_DSCP_NUM) < TX0_DSCP_NUM ∧
    (∀ j : Nat, tx0_get_dscp (mtk_r32 eth QDMA_CSR_TX_CPU_IDX % TX0_DSCP_NUM)
      ≠ rx0_get_dscp (j : Int)) ∧
    (to_dma_addr mapped = 0 →
      ∀ p, p ≠ tx0_get_dscp (mtk_r32 eth QDMA_CSR_TX_CPU_IDX % TX0_DSCP_NUM) →
        (mtk_tx_map eth skb mapped).1.dscp_ary p = eth.dscp_ary p ∧
        (mtk_tx_map eth skb mapped).1.dscp_sk_buff_p_ary p = eth.dscp_sk_buff_p_ary p) ∧
    (to_dma_addr mapped ≠ 0 →
      (mtk_tx_map eth skb mapped).1 =
        mtk_w32
          (tx0_free_some (tx_written_state eth skb mapped)
            (tx0_get_dscp (mtk_r32 eth QDMA_CSR_TX_CPU_IDX % TX0_DSCP_NUM)))
          (get_desc_next_idx
            ((tx0_free_some (tx_written_state eth skb mapped)
              (tx0_get_dscp (mtk_r32 eth QDMA_CSR_TX_CPU_IDX % TX0_DSCP_NUM))).dscp_ary
              (tx0_get_dscp (mtk_r32 eth QDMA_CSR_TX_CPU_IDX % TX0_DSCP_NUM))))
          QDMA_CSR_TX_CPU_IDX ∧
      ∀ p, p ≠ tx0_get_dscp (mtk_r32 eth QDMA_CSR_TX_CPU_IDX % TX0_DSCP_NUM) →
        (tx_written_state eth skb mapped).dscp_ary p = eth.dscp_ary p ∧
        (tx_written_state eth skb mapped).dscp_sk_buff_p_ary p = eth.dscp_sk_buff_p_ary p) ∧
    (tx_ring_linked eth → ∀ p, TX0_DSCP_NUM ≤ p →
      (mtk_tx_map eth skb mapped).1.dscp_ary p = eth.dscp_ary p ∧
      (mtk_tx_map eth skb mapped).1.dscp_sk_buff_p_ary p = eth.dscp_sk_buff_p_ary p) := by
  have hT : TX0_DSCP_NUM = 4 := rfl
  have hi : mtk_r32 eth QDMA_CSR_TX_CPU_IDX % TX0_DSCP_NUM < TX0_DSCP_NUM :=
    Nat.mod_lt _ (by decide)
  refine ⟨hi, hi, ?_, ?_, ?_, ?_⟩
  · intro j
    unfold tx0_get_dscp rx0_get_dscp
    omega
  · intro hm p hp
    rw [mtk_tx_map_fail eth skb mapped hm]
    unfold tx0_get_dscp at hp
    simp only [dscp_store_dscp_ary, dscp_store_skb, if_neg hp]
    exact ⟨trivial, trivial⟩
  · intro hm
    refine ⟨?_, fun p hp => tx_written_state_elsewhere eth skb mapped p hp⟩
    rw [mtk_tx_map_ok eth skb mapped hm]
    rfl
  · intro hl p hp
    have hi4 : mtk_r32 eth QDMA_CSR_TX_CPU_IDX % TX0_DSCP_NUM < 4 := hi
    have hp4 : 4 ≤ p := hp
    exact mtk_tx_map_elsewhere eth skb mapped p hl (by omega) (by omega) (by omega)

/-- C29 at a concrete state: with the TX cpu-index register holding
`0x80000007` the selected slot is 3, and a failed submission leaves RX
descriptor 4 as it was. -/
theorem tx_index_in_range_witness :
    mtk_r32 { zero_engine with regs := fun _ => 0x80000007 } QDMA_CSR_TX_CPU_IDX % TX0_DSCP_NUM
      = 3 ∧
    (mtk_tx_map { zero_engine with regs := fun _ => 0x80000007 } ⟨1, 60, 0, 0x100⟩ 0).1.dscp_ary 4
      = zero_desc :=
  ⟨by decide,
   ((tx_index_in_range { zero_engine with regs := fun _ => 0x80000007 } ⟨1, 60, 0, 0x100⟩ 0).2.2.2.1
      (by decide) 4 (by decide)).1⟩

end EconetEth
